import Mathlib

/-!
# Verification of the incremental 3D convex hull (`quickhull3`)

A shallow embedding, over exact rationals, of the quickhull3 implementation
(file `part_001` of the repository).  The source mutates a cyclic pointer
graph (vertex nodes in doubly-linked conflict lists, a half-edge mesh); the
embedding represents each kind of heap object in a flat arena (a `List` of
records) and references neighbours by arena index, threading the whole
mutable state through every operation.  Every function below mirrors its
source counterpart line by line; deviations forced by the model (rational
arithmetic for floats, default values for dereferencing absent pointers,
fuel for source loops whose termination is an algorithmic invariant) are
noted where they occur.
-/

namespace Mathcat

/-!
## Exact number model

The source computes with Luau floats.  The model computes with exact
rationals, represented *unnormalized* — an integer numerator and a positive
denominator stored as "denominator minus one", so that every value of the type
is a genuine rational and every arithmetic operation is plain integer
arithmetic (no gcd), which the Lean kernel evaluates directly.  The map
`Q.toRat` interprets a value in `ℚ`; it commutes with every operation below,
so statements about the algorithm's numbers are phrased over `ℚ` through it.
-/

/-- An exact rational `n / (dm1 + 1)`, not necessarily in lowest terms. -/
structure Q where
  n : Int
  dm1 : Nat
deriving Repr, DecidableEq, Inhabited

namespace Q

/-- The (always positive) denominator. -/
def den (a : Q) : Nat := a.dm1 + 1

/-- The rational value of a `Q`. -/
def toRat (a : Q) : ℚ := (a.n : ℚ) / (a.den : ℚ)

instance instOfNatQ (k : Nat) : OfNat Q k := ⟨⟨(k : Int), 0⟩⟩

/-- Negation. -/
def neg (a : Q) : Q := ⟨-a.n, a.dm1⟩

/-- Addition (cross-multiplied, denominators multiply). -/
def add (a b : Q) : Q := ⟨a.n * b.den + b.n * a.den, a.dm1 * b.dm1 + a.dm1 + b.dm1⟩

/-- Subtraction. -/
def sub (a b : Q) : Q := ⟨a.n * b.den - b.n * a.den, a.dm1 * b.dm1 + a.dm1 + b.dm1⟩

/-- Multiplication. -/
def mul (a b : Q) : Q := ⟨a.n * b.n, a.dm1 * b.dm1 + a.dm1 + b.dm1⟩

/-- Division.  Division by a zero value yields zero, matching the `ℚ`
convention; reachable source code never divides by zero. -/
def div (a b : Q) : Q :=
  if b.n = 0 then ⟨0, 0⟩
  else if b.n < 0 then ⟨-(a.n * (b.den : Int)), a.den * b.n.natAbs - 1⟩
  else ⟨a.n * (b.den : Int), a.den * b.n.natAbs - 1⟩

instance : Neg Q := ⟨neg⟩

instance : Add Q := ⟨add⟩

instance : Sub Q := ⟨sub⟩

instance : Mul Q := ⟨mul⟩

instance : Div Q := ⟨div⟩

/-- Strict comparison by cross-multiplication. -/
def blt (a b : Q) : Bool := a.n * (b.den : Int) < b.n * (a.den : Int)

/-- Non-strict comparison by cross-multiplication. -/
def ble (a b : Q) : Bool := a.n * (b.den : Int) ≤ b.n * (a.den : Int)

instance : LT Q := ⟨fun a b => blt a b = true⟩

instance : LE Q := ⟨fun a b => ble a b = true⟩

instance instDecidableLTQ (a b : Q) : Decidable (a < b) :=
  inferInstanceAs (Decidable (blt a b = true))

instance instDecidableLEQ (a b : Q) : Decidable (a ≤ b) :=
  inferInstanceAs (Decidable (ble a b = true))

/-- `math.abs`. -/
def qabs (a : Q) : Q := ⟨|a.n|, a.dm1⟩

/-- `math.max` on two values. -/
def qmax (a b : Q) : Q := if a < b then b else a

end Q

/-- Fuelled binary search for the integer square root (the kernel cannot
unfold the well-founded `Nat.sqrt`); invariant `lo² ≤ n < hi²`. -/
def isqrtGo (n : Nat) : Nat → Nat → Nat → Nat
  | 0, lo, _ => lo
  | fuel + 1, lo, hi =>
    if hi ≤ lo + 1 then lo
    else
      let m := (lo + hi) / 2
      if m * m ≤ n then isqrtGo n fuel m hi else isqrtGo n fuel lo m

/-- Integer square root (rounds down). -/
def isqrtN (n : Nat) : Nat := isqrtGo n (n + 2) 0 (n + 1)

/-- Model of the Luau float square root on nonnegative rationals.  It is exact
whenever the radicand is the square of a rational — which holds in every
concrete evaluation in this file — and a floor-based approximation otherwise. -/
def ratSqrt (q : Q) : Q :=
  ⟨(isqrtN q.n.toNat : Int), isqrtN q.den - 1⟩

/-- `const EPSILON = 1e-12` from the source. -/
def EPS12 : Q := ⟨1, 10 ^ 12 - 1⟩

/-- Modelled from the spec: `Number.EPSILON` is imported from the repository's
`Number` module, whose source is not present (only `Number/isFinite.ts` is);
the spec calls it "machine-epsilon", i.e. the JS `Number.EPSILON` = 2⁻⁵². -/
def NumberEPSILON : Q := ⟨1, 2 ^ 52 - 1⟩

/-- `const VISIBLE = 0`. -/
def VISIBLE : Nat := 0

/-- `const DELETED = 1`. -/
def DELETED : Nat := 1

/-- Rational 3-vector (the source's `[number, number, number]`). -/
structure Vec3q where
  x : Q
  y : Q
  z : Q
deriving Repr, DecidableEq, Inhabited

/-- `VertexNode`: pointers become `Option` arena indices. -/
structure VertexNode where
  index : Nat
  prev : Option Nat
  next : Option Nat
  face : Option Nat
deriving Repr, DecidableEq, Inhabited

/-- `HalfEdge`: `vertex` is a vertex arena index, `face` a face arena index,
`prev`/`next`/`twin` are half-edge arena indices. -/
structure HalfEdge where
  vertex : Nat
  prev : Option Nat
  next : Option Nat
  twin : Option Nat
  face : Nat
deriving Repr, DecidableEq, Inhabited

/-- `Face`. -/
structure Face where
  normal : Vec3q
  midpoint : Vec3q
  area : Q
  constant : Q
  outside : Option Nat
  mark : Nat
  edge : Option Nat
deriving Repr, DecidableEq, Inhabited

/-- `VertexList`: head/tail vertex arena indices. -/
structure VertexList where
  head : Option Nat
  tail : Option Nat
deriving Repr, DecidableEq, Inhabited

/-- Read a vertex node from the arena (dereferencing a dangling index yields
the default node; the source would raise, but no reachable computation below
dereferences a dangling index). -/
def vget (a : List VertexNode) (i : Nat) : VertexNode := a.getD i default

/-- Write a vertex node. -/
def vset (a : List VertexNode) (i : Nat) (v : VertexNode) : List VertexNode := a.set i v

/-- Read a half-edge from the arena. -/
def eget (a : List HalfEdge) (i : Nat) : HalfEdge := a.getD i default

/-- Write a half-edge. -/
def eset (a : List HalfEdge) (i : Nat) (e : HalfEdge) : List HalfEdge := a.set i e

/-- Read a face from the arena. -/
def fget (a : List Face) (i : Nat) : Face := a.getD i default

/-- Write a face. -/
def fset (a : List Face) (i : Nat) (f : Face) : List Face := a.set i f

/-- Read a coordinate from the flat points array. -/
def pget (pts : List Q) (i : Nat) : Q := pts.getD i 0

/-- `createVertexNode`. -/
def createVertexNode (index : Nat) : VertexNode :=
  { index := index, prev := none, next := none, face := none }

/-- `createVertexList`. -/
def createVertexList : VertexList := { head := none, tail := none }

/-- `vertexListIsEmpty`. -/
def vertexListIsEmpty (l : VertexList) : Bool := l.head = none

/-- `vertexListClear`. -/
def vertexListClear : VertexList := { head := none, tail := none }

/-- `vertexListAppend`. -/
def vertexListAppend (a : List VertexNode) (l : VertexList) (v : Nat) :
    List VertexNode × VertexList :=
  let (a, l) :=
    match l.head with
    | none => (a, { l with head := some v })
    | some _ =>
      let t := l.tail.getD 0
      (vset a t { vget a t with next := some v }, l)
  let a := vset a v { vget a v with prev := l.tail, next := none }
  (a, { l with tail := some v })

/-- The source's `while (current.next !== undefined)` walk to the end of a
chain; fuel bounds the walk (any fuel of at least the chain length is enough). -/
def chainLast (a : List VertexNode) : Nat → Nat → Nat
  | 0, v => v
  | fuel + 1, v =>
    match (vget a v).next with
    | none => v
    | some w => chainLast a fuel w

/-- `vertexListAppendChain`. -/
def vertexListAppendChain (a : List VertexNode) (l : VertexList) (v : Nat) (fuel : Nat) :
    List VertexNode × VertexList :=
  let (a, l) :=
    match l.head with
    | none => (a, { l with head := some v })
    | some _ =>
      let t := l.tail.getD 0
      (vset a t { vget a t with next := some v }, l)
  let a := vset a v { vget a v with prev := l.tail }
  let last := chainLast a fuel v
  (a, { l with tail := some last })

/-- `vertexListInsertBefore`. -/
def vertexListInsertBefore (a : List VertexNode) (l : VertexList) (target v : Nat) :
    List VertexNode × VertexList :=
  let a := vset a v { vget a v with prev := (vget a target).prev, next := some target }
  let (a, l) :=
    match (vget a v).prev with
    | none => (a, { l with head := some v })
    | some p => (vset a p { vget a p with next := some v }, l)
  (vset a target { vget a target with prev := some v }, l)

/-- `vertexListRemove`. -/
def vertexListRemove (a : List VertexNode) (l : VertexList) (v : Nat) :
    List VertexNode × VertexList :=
  let (a, l) :=
    match (vget a v).prev with
    | none => (a, { l with head := (vget a v).next })
    | some p => (vset a p { vget a p with next := (vget a v).next }, l)
  match (vget a v).next with
  | none => (a, { l with tail := (vget a v).prev })
  | some nx => (vset a nx { vget a nx with prev := (vget a v).prev }, l)

/-- `vertexListRemoveSubList` (excise the run from `u` through `w`). -/
def vertexListRemoveSubList (a : List VertexNode) (l : VertexList) (u w : Nat) :
    List VertexNode × VertexList :=
  let (a, l) :=
    match (vget a u).prev with
    | none => (a, { l with head := (vget a w).next })
    | some p => (vset a p { vget a p with next := (vget a w).next }, l)
  match (vget a w).next with
  | none => (a, { l with tail := (vget a u).prev })
  | some nx => (vset a nx { vget a nx with prev := (vget a u).prev }, l)

/-- `halfEdgeHead`. -/
def halfEdgeHead (ea : List HalfEdge) (e : Nat) : Nat := (eget ea e).vertex

/-- `halfEdgeTail`. -/
def halfEdgeTail (ea : List HalfEdge) (e : Nat) : Option Nat :=
  ((eget ea e).prev).map fun p => (eget ea p).vertex

/-- `halfEdgeSetTwin`. -/
def halfEdgeSetTwin (ea : List HalfEdge) (e t : Nat) : List HalfEdge :=
  let ea := eset ea e { eget ea e with twin := some t }
  eset ea t { eget ea t with twin := some e }

/-- `createFace` (the bare record; geometry filled in by `faceCompute`). -/
def createFace : Face :=
  { normal := ⟨0, 0, 0⟩, midpoint := ⟨0, 0, 0⟩, area := 0, constant := 0,
    outside := none, mark := VISIBLE, edge := none }

/-- `faceCreate`: allocates a face and its three half-edges, already joined in
the 3-cycle the source builds by mutation; returns the new face's index. -/
def faceCreate (fa : List Face) (ea : List HalfEdge) (a b c : Nat) :
    List Face × List HalfEdge × Nat :=
  let fi := fa.length
  let e0 := ea.length
  let ea := ea ++
    [ { vertex := a, prev := some (e0 + 2), next := some (e0 + 1), twin := none, face := fi },
      { vertex := b, prev := some e0, next := some (e0 + 2), twin := none, face := fi },
      { vertex := c, prev := some (e0 + 1), next := some e0, twin := none, face := fi } ]
  let fa := fa ++ [{ createFace with edge := some e0 }]
  (fa, ea, fi)

/-- The `while (i > 0) edge = edge.next` walk of `faceGetEdge`. -/
def edgeStepNext (ea : List HalfEdge) : Nat → Nat → Nat
  | 0, e => e
  | k + 1, e => edgeStepNext ea k ((eget ea e).next.getD 0)

/-- The `while (i < 0) edge = edge.prev` walk of `faceGetEdge`. -/
def edgeStepPrev (ea : List HalfEdge) : Nat → Nat → Nat
  | 0, e => e
  | k + 1, e => edgeStepPrev ea k ((eget ea e).prev.getD 0)

/-- `faceGetEdge`. -/
def faceGetEdge (fa : List Face) (ea : List HalfEdge) (f : Nat) (i : Int) : Option Nat :=
  match (fget fa f).edge with
  | none => none
  | some e =>
    if 0 ≤ i then some (edgeStepNext ea i.toNat e)
    else some (edgeStepPrev ea (-i).toNat e)

/-- `faceCompute`: derive normal, midpoint, area and plane constant of face
`f` from its three vertices' coordinates. -/
def faceCompute (fa : List Face) (ea : List HalfEdge) (pts : List Q) (f : Nat) :
    List Face :=
  let e0 := (fget fa f).edge.getD 0
  let a := (halfEdgeTail ea e0).getD 0
  let b := halfEdgeHead ea e0
  let c := halfEdgeHead ea ((eget ea e0).next.getD 0)
  let aIdx := a * 3
  let bIdx := b * 3
  let cIdx := c * 3
  let ax := pget pts aIdx
  let ay := pget pts (aIdx + 1)
  let az := pget pts (aIdx + 2)
  let bx := pget pts bIdx
  let by_ := pget pts (bIdx + 1)
  let bz := pget pts (bIdx + 2)
  let cx := pget pts cIdx
  let cy := pget pts (cIdx + 1)
  let cz := pget pts (cIdx + 2)
  let e1x := bx - ax
  let e1y := by_ - ay
  let e1z := bz - az
  let e2x := cx - ax
  let e2y := cy - ay
  let e2z := cz - az
  let nx := e1y * e2z - e1z * e2y
  let ny := e1z * e2x - e1x * e2z
  let nz := e1x * e2y - e1y * e2x
  let len := ratSqrt (nx * nx + ny * ny + nz * nz)
  let fc := fget fa f
  let nrm := if len > EPS12 then (⟨nx / len, ny / len, nz / len⟩ : Vec3q) else fc.normal
  let mid : Vec3q := ⟨(ax + bx + cx) / 3, (ay + by_ + cy) / 3, (az + bz + cz) / 3⟩
  fset fa f
    { fc with
      normal := nrm
      midpoint := mid
      area := len / 2
      constant := nrm.x * mid.x + nrm.y * mid.y + nrm.z * mid.z }

/-- `faceDistanceToPoint`. -/
def faceDistanceToPoint (fa : List Face) (pts : List Q) (f : Nat) (vertexIndex : Nat) : Q :=
  let idx := vertexIndex * 3
  (fget fa f).normal.x * pget pts idx +
    (fget fa f).normal.y * pget pts (idx + 1) +
    (fget fa f).normal.z * pget pts (idx + 2) -
    (fget fa f).constant

/-- `computePlane`: the source writes the normal into an out-parameter and
returns the offset; the model returns the pair `(normal, offset)`. -/
def computePlane (pts : List Q) (v0 v1 v2 : Nat) : Vec3q × Q :=
  let p0x := pget pts (v0 * 3)
  let p0y := pget pts (v0 * 3 + 1)
  let p0z := pget pts (v0 * 3 + 2)
  let p1x := pget pts (v1 * 3)
  let p1y := pget pts (v1 * 3 + 1)
  let p1z := pget pts (v1 * 3 + 2)
  let p2x := pget pts (v2 * 3)
  let p2y := pget pts (v2 * 3 + 1)
  let p2z := pget pts (v2 * 3 + 2)
  let e1x := p1x - p0x
  let e1y := p1y - p0y
  let e1z := p1z - p0z
  let e2x := p2x - p0x
  let e2y := p2y - p0y
  let e2z := p2z - p0z
  let nx := e1y * e2z - e1z * e2y
  let ny := e1z * e2x - e1x * e2z
  let nz := e1x * e2y - e1y * e2x
  let len := ratSqrt (nx * nx + ny * ny + nz * nz)
  if len < EPS12 then (⟨0, 0, 1⟩, 0)
  else
    let invLen := 1 / len
    let n : Vec3q := ⟨nx * invLen, ny * invLen, nz * invLen⟩
    (n, -(n.x * p0x + n.y * p0y + n.z * p0z))

/-- `distanceToPlane`. -/
def distanceToPlane (pts : List Q) (idx : Nat) (normal : Vec3q) (offset : Q) : Q :=
  let x := pget pts (idx * 3)
  let y := pget pts (idx * 3 + 1)
  let z := pget pts (idx * 3 + 2)
  normal.x * x + normal.y * y + normal.z * z + offset

/-- `distanceToLineSquared`. -/
def distanceToLineSquared (pts : List Q) (idx v0 v1 : Nat) : Q :=
  let px := pget pts (idx * 3)
  let py := pget pts (idx * 3 + 1)
  let pz := pget pts (idx * 3 + 2)
  let ax := pget pts (v0 * 3)
  let ay := pget pts (v0 * 3 + 1)
  let az := pget pts (v0 * 3 + 2)
  let bx := pget pts (v1 * 3)
  let by_ := pget pts (v1 * 3 + 1)
  let bz := pget pts (v1 * 3 + 2)
  let apx := px - ax
  let apy := py - ay
  let apz := pz - az
  let abx := bx - ax
  let aby := by_ - ay
  let abz := bz - az
  let cx := apy * abz - apz * aby
  let cy := apz * abx - apx * abz
  let cz := apx * aby - apy * abx
  let crossLenSq := cx * cx + cy * cy + cz * cz
  let abLenSq := abx * abx + aby * aby + abz * abz
  if abLenSq < EPS12 then apx * apx + apy * apy + apz * apz
  else crossLenSq / abLenSq

/-- `HullState`: the source's state record plus the three object arenas that
model its heap.  A vertex-node reference is its arena index, which by
construction (`createHullState`) equals the node's `index` field. -/
structure HullState where
  points : List Q
  tolerance : Q
  faces : List Nat
  newFaces : List Nat
  assigned : VertexList
  unassigned : VertexList
  vertices : List Nat
  varena : List VertexNode
  farena : List Face
  earena : List HalfEdge
deriving Repr, DecidableEq, Inhabited

/-- `createHullState`. -/
def createHullState (points : List Q) (n : Nat) : HullState :=
  { points := points
    tolerance := -1
    faces := []
    newFaces := []
    assigned := createVertexList
    unassigned := createVertexList
    vertices := List.range n
    varena := (List.range n).map createVertexNode
    farena := []
    earena := [] }

/-- `getTriangleIndices`. -/
def getTriangleIndices (st : HullState) : List Nat :=
  st.faces.foldl
    (fun result f =>
      match (fget st.farena f).edge with
      | some e =>
        if (fget st.farena f).mark = VISIBLE then
          result ++
            [ (eget st.earena e).vertex,
              (eget st.earena ((eget st.earena e).next.getD 0)).vertex,
              (eget st.earena ((eget st.earena e).prev.getD 0)).vertex ]
        else result
      | none => result)
    []

/-- Accumulator of the `computeExtremes` scan: per-axis minimum/maximum values
and the vertices attaining them. -/
structure ExtAcc where
  minX : Q
  minY : Q
  minZ : Q
  maxX : Q
  maxY : Q
  maxZ : Q
  minVx : Nat
  minVy : Nat
  minVz : Nat
  maxVx : Nat
  maxVy : Nat
  maxVz : Nat
deriving Repr, DecidableEq, Inhabited

/-- Body of the `computeExtremes` scan for one vertex (the inner loop over the
three axes unrolled). -/
def extremesStep (st : HullState) (acc : ExtAcc) (v : Nat) : ExtAcc :=
  let idx := (vget st.varena v).index * 3
  let val0 := pget st.points (idx + 0)
  let acc := if val0 < acc.minX then { acc with minX := val0, minVx := v } else acc
  let acc := if val0 > acc.maxX then { acc with maxX := val0, maxVx := v } else acc
  let val1 := pget st.points (idx + 1)
  let acc := if val1 < acc.minY then { acc with minY := val1, minVy := v } else acc
  let acc := if val1 > acc.maxY then { acc with maxY := val1, maxVy := v } else acc
  let val2 := pget st.points (idx + 2)
  let acc := if val2 < acc.minZ then { acc with minZ := val2, minVz := v } else acc
  if val2 > acc.maxZ then { acc with maxZ := val2, maxVz := v } else acc

/-- `computeExtremes`: scans all vertices for per-axis extremes, sets the
global tolerance, and returns the extreme vertices. -/
def computeExtremes (st : HullState) : HullState × ExtAcc :=
  let v0 := st.vertices.headD 0
  let init : ExtAcc :=
    { minX := pget st.points 0, minY := pget st.points 1, minZ := pget st.points 2
      maxX := pget st.points 0, maxY := pget st.points 1, maxZ := pget st.points 2
      minVx := v0, minVy := v0, minVz := v0, maxVx := v0, maxVy := v0, maxVz := v0 }
  let acc := st.vertices.foldl (extremesStep st) init
  let tol := 3 * NumberEPSILON *
    (Q.qmax (Q.qabs acc.minX) (Q.qabs acc.maxX) + Q.qmax (Q.qabs acc.minY) (Q.qabs acc.maxY) + Q.qmax (Q.qabs acc.minZ) (Q.qabs acc.maxZ))
  ({ st with tolerance := tol }, acc)

/-- `addVertexToFace`. -/
def addVertexToFace (st : HullState) (v f : Nat) : HullState :=
  let st := { st with varena := vset st.varena v { vget st.varena v with face := some f } }
  let st :=
    match (fget st.farena f).outside with
    | none =>
      let (va, l) := vertexListAppend st.varena st.assigned v
      { st with varena := va, assigned := l }
    | some o =>
      let (va, l) := vertexListInsertBefore st.varena st.assigned o v
      { st with varena := va, assigned := l }
  { st with farena := fset st.farena f { fget st.farena f with outside := some v } }

/-- `removeVertexFromFace`. -/
def removeVertexFromFace (st : HullState) (v f : Nat) : HullState :=
  let st :=
    if (fget st.farena f).outside = some v then
      let newOutside :=
        match (vget st.varena v).next with
        | some nx => if (vget st.varena nx).face = some f then some nx else none
        | none => none
      { st with farena := fset st.farena f { fget st.farena f with outside := newOutside } }
    else st
  let (va, l) := vertexListRemove st.varena st.assigned v
  { st with varena := va, assigned := l }

/-- The `while (end.next !== undefined && end.next.face === face)` walk of
`removeAllVerticesFromFace`. -/
def subListEnd (va : List VertexNode) (face : Nat) : Nat → Nat → Nat
  | 0, e => e
  | fuel + 1, e =>
    match (vget va e).next with
    | none => e
    | some nx => if (vget va nx).face = some face then subListEnd va face fuel nx else e

/-- `removeAllVerticesFromFace`. -/
def removeAllVerticesFromFace (st : HullState) (face : Nat) : HullState × Option Nat :=
  match (fget st.farena face).outside with
  | none => (st, none)
  | some start =>
    let e := subListEnd st.varena face st.varena.length start
    let (va, l) := vertexListRemoveSubList st.varena st.assigned start e
    let va := vset va start { vget va start with prev := none }
    let va := vset va e { vget va e with next := none }
    let st := { st with
      varena := va
      assigned := l
      farena := fset st.farena face { fget st.farena face with outside := none } }
    (st, some start)

/-- The per-vertex absorption walk of `deleteFaceVertices` (the case with an
absorbing face). -/
def absorbLoop (af : Nat) : Nat → HullState → Option Nat → HullState
  | 0, st, _ => st
  | _, st, none => st
  | fuel + 1, st, some v =>
    let nextVertex := (vget st.varena v).next
    let distance := faceDistanceToPoint st.farena st.points af v
    let st :=
      if distance > st.tolerance then addVertexToFace st v af
      else
        let (va, l) := vertexListAppend st.varena st.unassigned v
        { st with varena := va, unassigned := l }
    absorbLoop af fuel st nextVertex

/-- `deleteFaceVertices`. -/
def deleteFaceVertices (st : HullState) (face : Nat) (absorbingFace : Option Nat) :
    HullState :=
  let (st, faceVertices) := removeAllVerticesFromFace st face
  match faceVertices with
  | none => st
  | some start =>
    match absorbingFace with
    | none =>
      let (va, l) := vertexListAppendChain st.varena st.unassigned start st.varena.length
      { st with varena := va, unassigned := l }
    | some af => absorbLoop af st.varena.length st (some start)

/-- The inner scan of `resolveUnassignedPoints` over the new faces, with the
source's early `break` once the running maximum exceeds 1000 × tolerance. -/
def triageLoop (st : HullState) (vi : Nat) :
    List Nat → Q → Option Nat → Q × Option Nat
  | [], maxD, maxF => (maxD, maxF)
  | f :: rest, maxD, maxF =>
    if (fget st.farena f).mark = VISIBLE then
      let distance := faceDistanceToPoint st.farena st.points f vi
      let p := if distance > maxD then (distance, some f) else (maxD, maxF)
      if p.1 > 1000 * st.tolerance then p
      else triageLoop st vi rest p.1 p.2
    else triageLoop st vi rest maxD maxF

/-- The outer vertex walk of `resolveUnassignedPoints`. -/
def resolveLoop (newFaces : List Nat) : Nat → HullState → Option Nat → HullState
  | 0, st, _ => st
  | _, st, none => st
  | fuel + 1, st, some v =>
    let nextVertex := (vget st.varena v).next
    let sel := triageLoop st v newFaces st.tolerance none
    let st :=
      match sel.2 with
      | some f => addVertexToFace st v f
      | none => st
    resolveLoop newFaces fuel st nextVertex

/-- `resolveUnassignedPoints`. -/
def resolveUnassignedPoints (st : HullState) (newFaces : List Nat) : HullState :=
  if vertexListIsEmpty st.unassigned then st
  else resolveLoop newFaces st.varena.length st st.unassigned.head

/-- The `while (vertex && vertex.face === eyeFace)` scan of `nextVertexToAdd`. -/
def nextLoop (st : HullState) (eyeFace : Nat) :
    Nat → Option Nat → Q → Option Nat → Option Nat
  | 0, _, _, eye => eye
  | _, none, _, eye => eye
  | fuel + 1, some v, maxD, eye =>
    if (vget st.varena v).face = some eyeFace then
      let distance := faceDistanceToPoint st.farena st.points eyeFace v
      let p := if distance > maxD then (distance, some v) else (maxD, eye)
      nextLoop st eyeFace fuel (vget st.varena v).next p.1 p.2
    else eye

/-- `nextVertexToAdd`. -/
def nextVertexToAdd (st : HullState) : Option Nat :=
  if vertexListIsEmpty st.assigned then none
  else
    let eyeFace := (vget st.varena (st.assigned.head.getD 0)).face.getD 0
    nextLoop st eyeFace st.varena.length ((fget st.farena eyeFace).outside) 0 none

/-- A pending call of the recursive horizon walk: either entering a face
(the body of the source's `computeHorizon`) or continuing its do-while edge
cycle at `edge`, to stop when the cycle returns to `startEdge`. -/
inductive HorizonCall where
  | enter (crossEdge : Option Nat) (face : Nat)
  | cycle (startEdge edge : Nat)
deriving Repr, DecidableEq

/-- The source's recursive `computeHorizon`, rendered as a single fuelled
recursion over `HorizonCall`s so that the recursion is structural (the two
mutually recursive pieces of the source become the two cases); `fuel` bounds
the total number of face entries and edge steps. -/
def horizonStep (eyePoint : Nat) :
    Nat → HullState → HorizonCall → List Nat → HullState × List Nat
  | 0, st, _, horizon => (st, horizon)
  | fuel + 1, st, .enter crossEdge face, horizon =>
    let st := deleteFaceVertices st face none
    let st := { st with farena := fset st.farena face { fget st.farena face with mark := DELETED } }
    let edge :=
      match crossEdge with
      | none => (faceGetEdge st.farena st.earena face 0).getD 0
      | some ce => (eget st.earena ce).next.getD 0
    horizonStep eyePoint fuel st (.cycle edge edge) horizon
  | fuel + 1, st, .cycle startEdge edge, horizon =>
    let twinEdge := (eget st.earena edge).twin.getD 0
    let oppositeFace := (eget st.earena twinEdge).face
    let (st, horizon) :=
      if (fget st.farena oppositeFace).mark = VISIBLE then
        if faceDistanceToPoint st.farena st.points oppositeFace eyePoint > st.tolerance then
          horizonStep eyePoint fuel st (.enter (some twinEdge) oppositeFace) horizon
        else (st, horizon ++ [edge])
      else (st, horizon)
    let edge2 := (eget st.earena edge).next.getD 0
    if edge2 = startEdge then (st, horizon)
    else horizonStep eyePoint fuel st (.cycle startEdge edge2) horizon

/-- `computeHorizon`. -/
def computeHorizon (fuel : Nat) (st : HullState) (eyePoint : Nat) (crossEdge : Option Nat)
    (face : Nat) (horizon : List Nat) : HullState × List Nat :=
  horizonStep eyePoint fuel st (.enter crossEdge face) horizon

/-- `addAdjoiningFace`: build the new face joining the eye vertex to a horizon
edge, link it as twin of the horizon edge's twin, return its side edge. -/
def addAdjoiningFace (st : HullState) (eyeVertex horizonEdge : Nat) : HullState × Nat :=
  let fe := faceCreate st.farena st.earena eyeVertex
    ((halfEdgeTail st.earena horizonEdge).getD 0) (halfEdgeHead st.earena horizonEdge)
  let st := { st with farena := fe.1, earena := fe.2.1 }
  let face := fe.2.2
  let st := { st with farena := faceCompute st.farena st.earena st.points face }
  let st := { st with faces := st.faces ++ [face] }
  let ea := halfEdgeSetTwin st.earena ((faceGetEdge st.farena st.earena face (-1)).getD 0)
    ((eget st.earena horizonEdge).twin.getD 0)
  let st := { st with earena := ea }
  (st, (faceGetEdge st.farena st.earena face 0).getD 0)

/-- The fan-building loop of `addNewFaces`; carries `firstSideEdge` and
`previousSideEdge`. -/
def addNewFacesLoop (eyeVertex : Nat) :
    List Nat → HullState → Option Nat → Option Nat → HullState × Option Nat × Option Nat
  | [], st, firstSide, prevSide => (st, firstSide, prevSide)
  | horizonEdge :: rest, st, firstSide, prevSide =>
    let (st, sideEdge) := addAdjoiningFace st eyeVertex horizonEdge
    let (st, firstSide) :=
      match firstSide with
      | none => (st, some sideEdge)
      | some _ =>
        let ea := halfEdgeSetTwin st.earena ((eget st.earena sideEdge).next.getD 0)
          (prevSide.getD 0)
        ({ st with earena := ea }, firstSide)
    let st := { st with newFaces := st.newFaces ++ [(eget st.earena sideEdge).face] }
    addNewFacesLoop eyeVertex rest st firstSide (some sideEdge)

/-- `addNewFaces`. -/
def addNewFaces (st : HullState) (eyeVertex : Nat) (horizon : List Nat) : HullState :=
  let st := { st with newFaces := [] }
  let (st, firstSide, prevSide) := addNewFacesLoop eyeVertex horizon st none none
  let ea := halfEdgeSetTwin st.earena ((eget st.earena (firstSide.getD 0)).next.getD 0)
    (prevSide.getD 0)
  { st with earena := ea }

/-- `addVertexToHull`. -/
def addVertexToHull (st : HullState) (eyeVertex : Nat) : HullState :=
  let st := { st with unassigned := vertexListClear }
  let st := removeVertexFromFace st eyeVertex ((vget st.varena eyeVertex).face.getD 0)
  let horizonFuel := 4 * st.farena.length + 4 * st.earena.length + 4
  let (st, horizon) := computeHorizon horizonFuel st (vget st.varena eyeVertex).index none
    ((vget st.varena eyeVertex).face.getD 0) []
  let st := addNewFaces st eyeVertex horizon
  resolveUnassignedPoints st st.newFaces

/-- `reindexFaces`. -/
def reindexFaces (st : HullState) : HullState :=
  { st with faces := st.faces.filter fun f => (fget st.farena f).mark = VISIBLE }

/-- Selector for the source's `min[index]` / `max[index]` on the three-entry
extreme arrays. -/
def pick3 (i : Nat) (a0 a1 a2 : Nat) : Nat :=
  if i = 0 then a0 else if i = 1 then a1 else a2

/-- The initial-assignment face scan of `computeInitialHull` (no early exit;
the running maximum starts at the tolerance). -/
def initialSelectLoop (st : HullState) (vi : Nat) :
    List Nat → Q → Option Nat → Q × Option Nat
  | [], maxD, maxF => (maxD, maxF)
  | f :: rest, maxD, maxF =>
    let distance := faceDistanceToPoint st.farena st.points f vi
    let p := if distance > maxD then (distance, some f) else (maxD, maxF)
    initialSelectLoop st vi rest p.1 p.2

/-- Step 1 of `computeInitialHull`: the per-axis 1-D separations of the
extreme pairs and the axis with the greatest one (the source's
`maxDistance`/`index` loop, unrolled). -/
def seedAxisSel (st : HullState) (ext : ExtAcc) : Q × Nat :=
  let d0 := pget st.points ((vget st.varena ext.minVx).index * 3 + 0) -
    pget st.points ((vget st.varena ext.maxVx).index * 3 + 0)
  let d1 := pget st.points ((vget st.varena ext.minVy).index * 3 + 1) -
    pget st.points ((vget st.varena ext.maxVy).index * 3 + 1)
  let d2 := pget st.points ((vget st.varena ext.minVz).index * 3 + 2) -
    pget st.points ((vget st.varena ext.maxVz).index * 3 + 2)
  let p0 : Q × Nat := (0, 0)
  let p0 := if Q.qabs d0 > p0.1 then (Q.qabs d0, 0) else p0
  let p0 := if Q.qabs d1 > p0.1 then (Q.qabs d1, 1) else p0
  if Q.qabs d2 > p0.1 then (Q.qabs d2, 2) else p0

/-- Step 2 of `computeInitialHull`: the scan for the vertex farthest (by
squared distance) from the line `v0`–`v1`. -/
def v2Search (st : HullState) (v0 v1 : Nat) : Q × Option Nat :=
  st.vertices.foldl
    (fun (acc : Q × Option Nat) v =>
      if v ≠ v0 ∧ v ≠ v1 then
        let dist := distanceToLineSquared st.points (vget st.varena v).index
          (vget st.varena v0).index (vget st.varena v1).index
        if dist > acc.1 then (dist, some v) else acc
      else acc)
    (0, none)

/-- Step 3 of `computeInitialHull`: the scan for the vertex farthest (by
absolute distance) from the plane through `v0`, `v1`, `v2`. -/
def v3Search (st : HullState) (v0 v1 v2 : Nat) (normal : Vec3q) (offset : Q) :
    Q × Option Nat :=
  st.vertices.foldl
    (fun (acc : Q × Option Nat) v =>
      if v ≠ v0 ∧ v ≠ v1 ∧ v ≠ v2 then
        let dist := Q.qabs (distanceToPlane st.points (vget st.varena v).index normal offset)
        if dist > acc.1 then (dist, some v) else acc
      else acc)
    (-1, none)

/-- The tetrahedron construction of `computeInitialHull` when the seed plane's
normal points outward (`v3` on its negative side): create the four faces, wire
all twin relations (the source's loop over `i = 0, 1, 2`, unrolled), then
compute each face's geometry and push it. -/
def tetraOutward (st : HullState) (v0 v1 v2 v3 : Nat) : HullState :=
  let r0 := faceCreate st.farena st.earena v0 v1 v2
  let r1 := faceCreate r0.1 r0.2.1 v3 v1 v0
  let r2 := faceCreate r1.1 r1.2.1 v3 v2 v1
  let r3 := faceCreate r2.1 r2.2.1 v3 v0 v2
  let fa := r3.1
  let ea := r3.2.1
  let f0 := r0.2.2
  let f1 := r1.2.2
  let f2 := r2.2.2
  let f3 := r3.2.2
  let ea := halfEdgeSetTwin ea ((faceGetEdge fa ea f1 2).getD 0) ((faceGetEdge fa ea f0 1).getD 0)
  let ea := halfEdgeSetTwin ea ((faceGetEdge fa ea f1 1).getD 0) ((faceGetEdge fa ea f2 0).getD 0)
  let ea := halfEdgeSetTwin ea ((faceGetEdge fa ea f2 2).getD 0) ((faceGetEdge fa ea f0 2).getD 0)
  let ea := halfEdgeSetTwin ea ((faceGetEdge fa ea f2 1).getD 0) ((faceGetEdge fa ea f3 0).getD 0)
  let ea := halfEdgeSetTwin ea ((faceGetEdge fa ea f3 2).getD 0) ((faceGetEdge fa ea f0 0).getD 0)
  let ea := halfEdgeSetTwin ea ((faceGetEdge fa ea f3 1).getD 0) ((faceGetEdge fa ea f1 0).getD 0)
  let st := { st with farena := fa, earena := ea }
  let st := { st with
    farena := faceCompute st.farena st.earena st.points f0
    faces := st.faces ++ [f0] }
  let st := { st with
    farena := faceCompute st.farena st.earena st.points f1
    faces := st.faces ++ [f1] }
  let st := { st with
    farena := faceCompute st.farena st.earena st.points f2
    faces := st.faces ++ [f2] }
  { st with
    farena := faceCompute st.farena st.earena st.points f3
    faces := st.faces ++ [f3] }

/-- The tetrahedron construction of `computeInitialHull` when the seed plane's
normal points inward (`v3` on its nonnegative side). -/
def tetraInward (st : HullState) (v0 v1 v2 v3 : Nat) : HullState :=
  let r0 := faceCreate st.farena st.earena v0 v2 v1
  let r1 := faceCreate r0.1 r0.2.1 v3 v0 v1
  let r2 := faceCreate r1.1 r1.2.1 v3 v1 v2
  let r3 := faceCreate r2.1 r2.2.1 v3 v2 v0
  let fa := r3.1
  let ea := r3.2.1
  let f0 := r0.2.2
  let f1 := r1.2.2
  let f2 := r2.2.2
  let f3 := r3.2.2
  let ea := halfEdgeSetTwin ea ((faceGetEdge fa ea f1 2).getD 0) ((faceGetEdge fa ea f0 0).getD 0)
  let ea := halfEdgeSetTwin ea ((faceGetEdge fa ea f1 0).getD 0) ((faceGetEdge fa ea f2 1).getD 0)
  let ea := halfEdgeSetTwin ea ((faceGetEdge fa ea f2 2).getD 0) ((faceGetEdge fa ea f0 2).getD 0)
  let ea := halfEdgeSetTwin ea ((faceGetEdge fa ea f2 0).getD 0) ((faceGetEdge fa ea f3 1).getD 0)
  let ea := halfEdgeSetTwin ea ((faceGetEdge fa ea f3 2).getD 0) ((faceGetEdge fa ea f0 1).getD 0)
  let ea := halfEdgeSetTwin ea ((faceGetEdge fa ea f3 0).getD 0) ((faceGetEdge fa ea f1 1).getD 0)
  let st := { st with farena := fa, earena := ea }
  let st := { st with
    farena := faceCompute st.farena st.earena st.points f0
    faces := st.faces ++ [f0] }
  let st := { st with
    farena := faceCompute st.farena st.earena st.points f1
    faces := st.faces ++ [f1] }
  let st := { st with
    farena := faceCompute st.farena st.earena st.points f2
    faces := st.faces ++ [f2] }
  { st with
    farena := faceCompute st.farena st.earena st.points f3
    faces := st.faces ++ [f3] }

/-- The closing loop of `computeInitialHull`: assign each remaining vertex to
the tetrahedron face of maximal distance when that distance exceeds the
tolerance. -/
def initialAssignBody (v0 v1 v2 v3 : Nat) (st : HullState) (v : Nat) : HullState :=
  if v ≠ v0 ∧ v ≠ v1 ∧ v ≠ v2 ∧ v ≠ v3 then
    let sel := initialSelectLoop st (vget st.varena v).index st.faces st.tolerance none
    match sel.2 with
    | some maxFace => addVertexToFace st v maxFace
    | none => st
  else st

/-- `computeInitialHull`. -/
def computeInitialHull (st : HullState) : HullState :=
  let se := computeExtremes st
  let st := se.1
  -- 1. the axis pair with greatest 1-D separation
  let p0 := seedAxisSel st se.2
  let v0 := pick3 p0.2 se.2.minVx se.2.minVy se.2.minVz
  let v1 := pick3 p0.2 se.2.maxVx se.2.maxVy se.2.maxVz
  -- 2. vertex farthest from the line v0-v1
  match (v2Search st v0 v1).2 with
  | none => st
  | some v2 =>
    -- 3. vertex farthest from the plane v0-v1-v2
    let pl := computePlane st.points (vget st.varena v0).index (vget st.varena v1).index
      (vget st.varena v2).index
    match (v3Search st v0 v1 v2 pl.1 pl.2).2 with
    | none => st
    | some v3 =>
      let st :=
        if distanceToPlane st.points (vget st.varena v3).index pl.1 pl.2 < 0 then
          tetraOutward st v0 v1 v2 v3
        else
          tetraInward st v0 v1 v2 v3
      -- assign remaining vertices to faces
      st.vertices.foldl (initialAssignBody v0 v1 v2 v3) st

/-- The incremental-insertion loop of `quickhull3`; each iteration removes one
vertex from the assigned list, so `n` iterations always suffice. -/
def mainLoop : Nat → HullState → HullState
  | 0, st => st
  | fuel + 1, st =>
    match nextVertexToAdd st with
    | none => st
    | some vertex => mainLoop fuel (addVertexToHull st vertex)

/-- The full pipeline of `quickhull3` after its early size check, returning
the final state. -/
def quickhull3State (points : List Q) : HullState :=
  let n := points.length / 3
  let st := createHullState points n
  let st := computeInitialHull st
  let st := mainLoop n st
  reindexFaces st

/-- `quickhull3`. -/
def quickhull3 (points : List Q) : List Nat :=
  let n := points.length / 3
  if n < 4 then []
  else getTriangleIndices (quickhull3State points)

/-!
## Specification-side definitions

Definitions below this point are not translations of source code; they state
properties (written independently, in the spec's terms) that the theorems
compare against the embedded code.
-/

/-- Value equality of two `Q`s (they may have different representations). -/
def Q.beq (a b : Q) : Bool := a.n * (b.den : Int) = b.n * (a.den : Int)

/-- Coordinate `j` (0, 1 or 2) of point `i`, as stored. -/
def coordQ (pts : List Q) (i j : Nat) : Q := pget pts (i * 3 + j)

/-- Coordinate `j` of point `i`, as a rational value. -/
def coord (pts : List Q) (i j : Nat) : ℚ := (coordQ pts i j).toRat

/-- First component of the cross product `(p j − p i) × (p k − p i)`. -/
def crossX (pts : List Q) (i j k : Nat) : Q :=
  (coordQ pts j 1 - coordQ pts i 1) * (coordQ pts k 2 - coordQ pts i 2) -
    (coordQ pts j 2 - coordQ pts i 2) * (coordQ pts k 1 - coordQ pts i 1)

/-- Second component of the cross product `(p j − p i) × (p k − p i)`. -/
def crossY (pts : List Q) (i j k : Nat) : Q :=
  (coordQ pts j 2 - coordQ pts i 2) * (coordQ pts k 0 - coordQ pts i 0) -
    (coordQ pts j 0 - coordQ pts i 0) * (coordQ pts k 2 - coordQ pts i 2)

/-- Third component of the cross product `(p j − p i) × (p k − p i)`. -/
def crossZ (pts : List Q) (i j k : Nat) : Q :=
  (coordQ pts j 0 - coordQ pts i 0) * (coordQ pts k 1 - coordQ pts i 1) -
    (coordQ pts j 1 - coordQ pts i 1) * (coordQ pts k 0 - coordQ pts i 0)

/-- All of the first `n` points are collinear: every cross product of two
difference vectors vanishes (numerator zero means value zero). -/
def AllCollinear (pts : List Q) (n : Nat) : Prop :=
  ∀ i j k, i < n → j < n → k < n →
    (crossX pts i j k).n = 0 ∧ (crossY pts i j k).n = 0 ∧ (crossZ pts i j k).n = 0

/-- Some axis separates two of the first `n` points by at least `10⁻⁶`
(so the seed extreme pair is farther apart than the root of `EPSILON`). -/
def WellSeparated (pts : List Q) (n : Nat) : Prop :=
  ∃ j, j < 3 ∧ ∃ i, i < n ∧ ∃ k, k < n ∧
    Q.ble ⟨1, 10 ^ 6 - 1⟩ (Q.qabs (coordQ pts i j - coordQ pts k j)) = true

/-- All of the first `n` points are coplanar: every scalar triple product of
three difference vectors vanishes. -/
def AllCoplanar (pts : List Q) (n : Nat) : Prop :=
  ∀ i j k l, i < n → j < n → k < n → l < n →
    (crossX pts i j k * (coordQ pts l 0 - coordQ pts i 0) +
      crossY pts i j k * (coordQ pts l 1 - coordQ pts i 1) +
      crossZ pts i j k * (coordQ pts l 2 - coordQ pts i 2)).n = 0

/-- The 1-D separation of the extreme pair on axis `j` (the `d` values of the
seed-axis selection, by axis). -/
def seedDelta (st : HullState) (ext : ExtAcc) (j : Nat) : Q :=
  if j = 0 then
    pget st.points ((vget st.varena ext.minVx).index * 3 + 0) -
      pget st.points ((vget st.varena ext.maxVx).index * 3 + 0)
  else if j = 1 then
    pget st.points ((vget st.varena ext.minVy).index * 3 + 1) -
      pget st.points ((vget st.varena ext.maxVy).index * 3 + 1)
  else
    pget st.points ((vget st.varena ext.minVz).index * 3 + 2) -
      pget st.points ((vget st.varena ext.maxVz).index * 3 + 2)

/-- Re-triage target, as specified: among the visible new faces, scanned in
order up to and including the first whose distance exceeds 1000 × tolerance,
the first face attaining the maximal distance — provided that maximum exceeds
the tolerance; otherwise no face. -/
def retriageSpec (fa : List Face) (pts : List Q) (tol : Q) (vi : Nat)
    (faces : List Nat) : Option Nat :=
  let dist := fun f => faceDistanceToPoint fa pts f vi
  let vis := faces.filter fun f => (fget fa f).mark = VISIBLE
  let considered :=
    match vis.findIdx? fun f => Q.blt (1000 * tol) (dist f) with
    | none => vis
    | some i => vis.take (i + 1)
  let m := (considered.map dist).foldr Q.qmax tol
  if Q.blt tol m then considered.find? fun f => Q.beq (dist f) m else none

/-- The claim's described re-triage target: the first visible new face whose
distance exceeds the tolerance. -/
def firstExceedingSpec (fa : List Face) (pts : List Q) (tol : Q) (vi : Nat)
    (faces : List Nat) : Option Nat :=
  (faces.filter fun f => (fget fa f).mark = VISIBLE).find? fun f =>
    Q.blt tol (faceDistanceToPoint fa pts f vi)

/-- The consecutive `prev`/`next` links of a doubly-linked run hold in the
arena. -/
def linkedB (a : List VertexNode) : List Nat → Bool
  | [] => true
  | [_] => true
  | x :: y :: rest =>
    ((vget a x).next == some y && (vget a y).prev == some x) && linkedB a (y :: rest)

/-- `xs` enumerates a well-formed doubly-linked list `l` in arena `a`:
in-bounds distinct nodes, consecutive links mutually inverse, correct
head/tail pointers, and no link leaving the list at either end. -/
def listWF (a : List VertexNode) (l : VertexList) (xs : List Nat) : Prop :=
  (∀ x ∈ xs, x < a.length) ∧ xs.Nodup ∧ linkedB a xs = true ∧
    l.head = xs.head? ∧ l.tail = xs.getLast? ∧
    (∀ x ∈ xs.head?, (vget a x).prev = none) ∧
    (∀ x ∈ xs.getLast?, (vget a x).next = none)

/-- `xs` enumerates a stand-alone chain starting at its head (as handed to
`vertexListAppendChain`): nonempty, in-bounds, distinct, internally linked,
and terminated (`next` of the last node absent); the head's `prev` is
irrelevant because the operation overwrites it. -/
def chainWF (a : List VertexNode) (xs : List Nat) : Prop :=
  xs ≠ [] ∧ (∀ x ∈ xs, x < a.length) ∧ xs.Nodup ∧ linkedB a xs = true ∧
    (∀ x ∈ xs.getLast?, (vget a x).next = none)

/-- Generalization of `retriageSpec` over the running maximum `maxD` and the
current best face `maxF` (the invariant shape of the re-triage scan). -/
def retriageAux (fa : List Face) (pts : List Q) (tol : Q) (vi : Nat)
    (faces : List Nat) (maxD : Q) (maxF : Option Nat) : Option Nat :=
  let dist := fun f => faceDistanceToPoint fa pts f vi
  let vis := faces.filter fun f => (fget fa f).mark = VISIBLE
  let considered :=
    match vis.findIdx? fun f => Q.blt (1000 * tol) (dist f) with
    | none => vis
    | some i => vis.take (i + 1)
  let m := (considered.map dist).foldr Q.qmax maxD
  if Q.blt maxD m then considered.find? fun f => Q.beq (dist f) m else maxF

/-- A concrete state for the re-triage scan: one point at `(0, 0, 10)`,
tolerance `1`, and two visible faces with normal `(0, 0, 1)` and constants
`8` and `5`, so the point is at distance `2` from face `0` and `5` from
face `1` (both exceed the tolerance, neither reaches `1000 ×` it). -/
def retriageExample : HullState :=
  { points := [0, 0, 10]
    tolerance := 1
    faces := [0, 1]
    newFaces := []
    assigned := { head := none, tail := none }
    unassigned := { head := none, tail := none }
    vertices := [0]
    varena := [createVertexNode 0]
    farena := [
      { normal := ⟨0, 0, 1⟩
        midpoint := ⟨0, 0, 0⟩
        area := 0
        constant := 8
        outside := none
        mark := VISIBLE
        edge := none },
      { normal := ⟨0, 0, 1⟩
        midpoint := ⟨0, 0, 0⟩
        area := 0
        constant := 5
        outside := none
        mark := VISIBLE
        edge := none } ]
    earena := [] }

/-- A one-point, one-face state whose point is at distance exactly the
tolerance from the face (the boundary case of the inside test). -/
def boundaryExample : HullState :=
  { points := [0, 0, 1]
    tolerance := 1
    faces := [0]
    newFaces := []
    assigned := { head := none, tail := none }
    unassigned := { head := none, tail := none }
    vertices := [0]
    varena := [createVertexNode 0]
    farena := [
      { normal := ⟨0, 0, 1⟩
        midpoint := ⟨0, 0, 0⟩
        area := 0
        constant := 0
        outside := none
        mark := VISIBLE
        edge := none } ]
    earena := [] }

/-- A three-node arena: nodes `0` and `1` linked as the list `[0, 1]`, and the
free node `2` (used to exercise the list operations). -/
def wfExampleArena : List VertexNode :=
  [ { index := 0, prev := none, next := some 1, face := none },
    { index := 1, prev := some 0, next := none, face := none },
    { index := 2, prev := none, next := none, face := none } ]

def wfExampleList : VertexList := { head := some 0, tail := some 1 }

instance optionBAllDecidable (o : Option Nat) (p : Nat → Prop) [DecidablePred p] :
    Decidable (∀ x ∈ o, p x) :=
  match o with
  | none => isTrue (by simp)
  | some a => decidable_of_iff (p a) (by simp)

instance listWFDecidable (a : List VertexNode) (l : VertexList) (xs : List Nat) :
    Decidable (listWF a l xs) := by
  unfold listWF
  infer_instance

instance chainWFDecidable (a : List VertexNode) (xs : List Nat) :
    Decidable (chainWF a xs) := by
  unfold chainWF
  infer_instance

/-!
## Lemmas about the number model
-/

namespace Q

theorem den_cast_pos (a : Q) : (0 : ℚ) < (a.den : ℚ) := by
  exact_mod_cast Nat.succ_pos a.dm1

theorem den_cast_ne (a : Q) : ((a.den : ℚ)) ≠ 0 := (den_cast_pos a).ne'

theorem toRat_mk (n : Int) (d : Nat) : toRat ⟨n, d⟩ = (n : ℚ) / ((d : ℚ) + 1) := by
  simp only [toRat, den]
  push_cast
  ring_nf

theorem toRat_add (a b : Q) : (a + b).toRat = a.toRat + b.toRat := by
  show (add a b).toRat = _
  have ha : ((a.dm1 : ℚ) + 1) ≠ 0 := by positivity
  have hb : ((b.dm1 : ℚ) + 1) ≠ 0 := by positivity
  simp only [add, toRat, den]
  push_cast
  rw [div_add_div _ _ ha hb, div_eq_div_iff (by positivity) (by positivity)]
  ring

theorem toRat_sub (a b : Q) : (a - b).toRat = a.toRat - b.toRat := by
  show (sub a b).toRat = _
  have ha : ((a.dm1 : ℚ) + 1) ≠ 0 := by positivity
  have hb : ((b.dm1 : ℚ) + 1) ≠ 0 := by positivity
  simp only [sub, toRat, den]
  push_cast
  rw [div_sub_div _ _ ha hb, div_eq_div_iff (by positivity) (by positivity)]
  ring

theorem toRat_mul (a b : Q) : (a * b).toRat = a.toRat * b.toRat := by
  show (mul a b).toRat = _
  have ha : ((a.dm1 : ℚ) + 1) ≠ 0 := by positivity
  have hb : ((b.dm1 : ℚ) + 1) ≠ 0 := by positivity
  simp only [mul, toRat, den]
  push_cast
  rw [div_mul_div_comm, div_eq_div_iff (by positivity) (by positivity)]
  ring

theorem toRat_neg (a : Q) : (-a).toRat = -a.toRat := by
  show (neg a).toRat = _
  simp only [neg, toRat, den]
  push_cast
  ring

theorem toRat_div (a b : Q) : (a / b).toRat = a.toRat / b.toRat := by
  show (div a b).toRat = _
  by_cases h0 : b.n = 0
  · have hrb : b.toRat = 0 := by simp [toRat, h0]
    simp [Q.div, h0, hrb, toRat, den]
  · have hone : 1 ≤ (a.dm1 + 1) * b.n.natAbs :=
      Nat.one_le_iff_ne_zero.2 (Nat.mul_ne_zero (Nat.succ_ne_zero _)
        (Int.natAbs_ne_zero.2 h0))
    by_cases hneg : b.n < 0
    · have habs : ((b.n.natAbs : ℚ)) = -(b.n : ℚ) := by
        rw [Int.cast_natAbs]
        exact_mod_cast abs_of_neg hneg
      simp only [Q.div, h0, hneg, if_false, if_true, toRat, den]
      rw [Nat.sub_add_cancel hone]
      push_cast
      rw [habs, div_div_eq_mul_div, div_mul_eq_mul_div, div_div, mul_neg, neg_div_neg_eq]
    · have habs : ((b.n.natAbs : ℚ)) = (b.n : ℚ) := by
        rw [Int.cast_natAbs]
        exact_mod_cast abs_of_nonneg (not_lt.1 hneg)
      simp only [Q.div, h0, hneg, if_false, toRat, den]
      rw [Nat.sub_add_cancel hone]
      push_cast
      rw [habs, div_div_eq_mul_div, div_mul_eq_mul_div, div_div]

theorem lt_iff {a b : Q} : a < b ↔ a.toRat < b.toRat := by
  show blt a b = true ↔ _
  simp only [blt, toRat, decide_eq_true_eq]
  rw [div_lt_div_iff₀ (den_cast_pos a) (den_cast_pos b)]
  exact_mod_cast Iff.rfl

theorem le_iff {a b : Q} : a ≤ b ↔ a.toRat ≤ b.toRat := by
  show ble a b = true ↔ _
  simp only [ble, toRat, decide_eq_true_eq]
  rw [div_le_div_iff₀ (den_cast_pos a) (den_cast_pos b)]
  exact_mod_cast Iff.rfl

theorem beq_iff {a b : Q} : beq a b = true ↔ a.toRat = b.toRat := by
  simp only [beq, toRat, decide_eq_true_eq]
  rw [div_eq_div_iff (den_cast_ne a) (den_cast_ne b)]
  exact_mod_cast Iff.rfl

theorem toRat_qabs (a : Q) : (qabs a).toRat = |a.toRat| := by
  simp only [qabs, toRat, den]
  push_cast
  rw [abs_div, abs_of_pos (show (0 : ℚ) < (a.dm1 : ℚ) + 1 by positivity)]

theorem toRat_qmax (a b : Q) : (qmax a b).toRat = max a.toRat b.toRat := by
  unfold qmax
  by_cases h : a < b
  · rw [if_pos h, max_eq_right (lt_iff.1 h).le]
  · rw [if_neg h, max_eq_left (not_lt.1 ((not_iff_not.2 lt_iff).1 h))]

theorem toRat_zero : (0 : Q).toRat = 0 := by
  show toRat ⟨(0 : Nat), 0⟩ = 0
  simp [toRat_mk]

theorem toRat_eq_zero_iff {a : Q} : a.toRat = 0 ↔ a.n = 0 := by
  simp only [toRat]
  rw [div_eq_zero_iff]
  simp [den_cast_ne a, Int.cast_eq_zero]

theorem toRat_natLit (k : Nat) : (⟨(k : Int), 0⟩ : Q).toRat = (k : ℚ) := by
  simp [toRat_mk]

theorem toRat_thousand : (1000 : Q).toRat = 1000 := by
  show toRat ⟨(1000 : Nat), 0⟩ = 1000
  rw [toRat_natLit]
  norm_num

theorem toRat_three : (3 : Q).toRat = 3 := by
  show toRat ⟨(3 : Nat), 0⟩ = 3
  rw [toRat_natLit]
  norm_num

theorem toRat_negOne : (-1 : Q).toRat = -1 := by
  show toRat (neg ⟨(1 : Nat), 0⟩) = -1
  show toRat ⟨-(1 : Int), 0⟩ = -1
  simp [toRat_mk]

end Q

theorem toRat_EPS12 : EPS12.toRat = 1 / 10 ^ 12 := by
  simp only [EPS12, Q.toRat, Q.den]
  norm_num

theorem toRat_NumberEPSILON : NumberEPSILON.toRat = 1 / 2 ^ 52 := by
  simp only [NumberEPSILON, Q.toRat, Q.den]
  norm_num

/-!
## The parts of the state the hull operations never write

`stCore` collects the input points, the tolerance and the vertex id list;
every operation after `computeExtremes` leaves all three untouched, which is
what the frame claims (tolerance never recomputed, input never mutated) rest
on.
-/

/-- The read-only part of the state (after the tolerance has been set). -/
def stCore (st : HullState) : List Q × Q × List Nat :=
  (st.points, st.tolerance, st.vertices)

theorem stCore_foldl {α : Type} (f : HullState → α → HullState) (l : List α) (st : HullState)
    (hf : ∀ s a, stCore (f s a) = stCore s) : stCore (l.foldl f st) = stCore st := by
  induction l generalizing st with
  | nil => rfl
  | cons a l ih => rw [List.foldl_cons, ih, hf]

theorem stCore_addVertexToFace (st : HullState) (v f : Nat) :
    stCore (addVertexToFace st v f) = stCore st := by
  simp only [addVertexToFace]
  repeat' split
  all_goals rfl

theorem stCore_removeVertexFromFace (st : HullState) (v f : Nat) :
    stCore (removeVertexFromFace st v f) = stCore st := by
  simp only [removeVertexFromFace]
  repeat' split
  all_goals rfl

theorem stCore_removeAllVerticesFromFace (st : HullState) (face : Nat) :
    stCore (removeAllVerticesFromFace st face).1 = stCore st := by
  simp only [removeAllVerticesFromFace]
  repeat' split
  all_goals rfl

theorem stCore_absorbLoop (af : Nat) (fuel : Nat) (st : HullState) (v : Option Nat) :
    stCore (absorbLoop af fuel st v) = stCore st := by
  induction fuel generalizing st v with
  | zero => cases v <;> rfl
  | succ fuel ih =>
    cases v with
    | none => rfl
    | some v =>
      simp only [absorbLoop, ih]
      repeat' split
      all_goals first
        | rfl
        | exact stCore_addVertexToFace ..

theorem stCore_deleteFaceVertices (st : HullState) (face : Nat) (ab : Option Nat) :
    stCore (deleteFaceVertices st face ab) = stCore st := by
  simp only [deleteFaceVertices]
  repeat' split
  all_goals first
    | exact stCore_removeAllVerticesFromFace ..
    | exact (stCore_absorbLoop ..).trans (stCore_removeAllVerticesFromFace ..)

theorem stCore_resolveLoop (newFaces : List Nat) (fuel : Nat) (st : HullState)
    (v : Option Nat) : stCore (resolveLoop newFaces fuel st v) = stCore st := by
  induction fuel generalizing st v with
  | zero => cases v <;> rfl
  | succ fuel ih =>
    cases v with
    | none => rfl
    | some v =>
      simp only [resolveLoop, ih]
      repeat' split
      all_goals first
        | rfl
        | exact stCore_addVertexToFace ..

theorem stCore_resolveUnassignedPoints (st : HullState) (newFaces : List Nat) :
    stCore (resolveUnassignedPoints st newFaces) = stCore st := by
  simp only [resolveUnassignedPoints]
  split
  · rfl
  · exact stCore_resolveLoop ..

theorem stCore_horizonStep (eyePoint : Nat) (fuel : Nat) (st : HullState)
    (call : HorizonCall) (horizon : List Nat) :
    stCore (horizonStep eyePoint fuel st call horizon).1 = stCore st := by
  induction fuel generalizing st call horizon with
  | zero => cases call <;> rfl
  | succ fuel ih =>
    cases call with
    | enter crossEdge face =>
      simp only [horizonStep, ih]
      exact stCore_deleteFaceVertices ..
    | cycle startEdge edge =>
      simp only [horizonStep]
      repeat' split
      all_goals simp only [ih]

theorem stCore_addAdjoiningFace (st : HullState) (eyeVertex horizonEdge : Nat) :
    stCore (addAdjoiningFace st eyeVertex horizonEdge).1 = stCore st := by
  simp only [addAdjoiningFace]
  all_goals rfl

theorem stCore_addNewFacesLoop (eyeVertex : Nat) (horizon : List Nat) (st : HullState)
    (firstSide prevSide : Option Nat) :
    stCore (addNewFacesLoop eyeVertex horizon st firstSide prevSide).1 = stCore st := by
  induction horizon generalizing st firstSide prevSide with
  | nil => rfl
  | cons h rest ih =>
    rw [addNewFacesLoop]
    have hadj := stCore_addAdjoiningFace st eyeVertex h
    rcases hp : addAdjoiningFace st eyeVertex h with ⟨st1, sideEdge⟩
    rw [hp] at hadj
    simp only []
    cases firstSide <;> (rw [ih]; exact hadj)

theorem stCore_addNewFaces (st : HullState) (eyeVertex : Nat) (horizon : List Nat) :
    stCore (addNewFaces st eyeVertex horizon) = stCore st := by
  simp only [addNewFaces]
  exact stCore_addNewFacesLoop ..

theorem stCore_addVertexToHull (st : HullState) (eyeVertex : Nat) :
    stCore (addVertexToHull st eyeVertex) = stCore st := by
  simp only [addVertexToHull, computeHorizon]
  all_goals
    exact (stCore_resolveUnassignedPoints ..).trans
      ((stCore_addNewFaces ..).trans
        ((stCore_horizonStep ..).trans (stCore_removeVertexFromFace ..)))

theorem stCore_reindexFaces (st : HullState) : stCore (reindexFaces st) = stCore st := rfl

theorem stCore_mainLoop (fuel : Nat) (st : HullState) :
    stCore (mainLoop fuel st) = stCore st := by
  induction fuel generalizing st with
  | zero => rfl
  | succ fuel ih =>
    simp only [mainLoop]
    split
    · rfl
    · exact (ih _).trans (stCore_addVertexToHull ..)

theorem points_computeExtremes (st : HullState) :
    (computeExtremes st).1.points = st.points := rfl

theorem vertices_computeExtremes (st : HullState) :
    (computeExtremes st).1.vertices = st.vertices := rfl

theorem stCore_tetraOutward (st : HullState) (v0 v1 v2 v3 : Nat) :
    stCore (tetraOutward st v0 v1 v2 v3) = stCore st := rfl

theorem stCore_tetraInward (st : HullState) (v0 v1 v2 v3 : Nat) :
    stCore (tetraInward st v0 v1 v2 v3) = stCore st := rfl

theorem stCore_initialAssignBody (v0 v1 v2 v3 : Nat) (st : HullState) (v : Nat) :
    stCore (initialAssignBody v0 v1 v2 v3 st v) = stCore st := by
  simp only [initialAssignBody]
  repeat' split
  all_goals first | rfl | exact stCore_addVertexToFace ..

theorem stCore_computeInitialHull (st : HullState) :
    stCore (computeInitialHull st) = stCore (computeExtremes st).1 := by
  simp only [computeInitialHull]
  generalize (computeExtremes st).2 = e2
  generalize (computeExtremes st).1 = st1
  repeat' split
  · rfl
  · rfl
  · exact (stCore_foldl _ _ _ fun s a =>
      stCore_initialAssignBody _ _ _ _ s a).trans (stCore_tetraOutward ..)
  · exact (stCore_foldl _ _ _ fun s a =>
      stCore_initialAssignBody _ _ _ _ s a).trans (stCore_tetraInward ..)

/-!
## Arena read/write lemmas
-/

theorem list_getD_set_eq {α : Type} (d : α) (a : List α) (i : Nat) (x : α)
    (h : i < a.length) : (a.set i x).getD i d = x := by
  induction a generalizing i with
  | nil => simp at h
  | cons y ys ih =>
    cases i with
    | zero => rfl
    | succ i => simpa using ih i (by simpa using h)

theorem list_getD_set_ne {α : Type} (d : α) (a : List α) (i j : Nat) (x : α)
    (h : i ≠ j) : (a.set i x).getD j d = a.getD j d := by
  induction a generalizing i j with
  | nil => rfl
  | cons y ys ih =>
    cases i with
    | zero =>
      cases j with
      | zero => exact absurd rfl h
      | succ j => rfl
    | succ i =>
      cases j with
      | zero => rfl
      | succ j => simpa using ih i j (by omega)

theorem vget_vset_self (a : List VertexNode) (i : Nat) (x : VertexNode)
    (h : i < a.length) : vget (vset a i x) i = x := list_getD_set_eq _ a i x h

theorem vget_vset_ne (a : List VertexNode) (i j : Nat) (x : VertexNode)
    (h : i ≠ j) : vget (vset a i x) j = vget a j := list_getD_set_ne _ a i j x h

theorem eget_eset_self (a : List HalfEdge) (i : Nat) (x : HalfEdge)
    (h : i < a.length) : eget (eset a i x) i = x := list_getD_set_eq _ a i x h

theorem eget_eset_ne (a : List HalfEdge) (i j : Nat) (x : HalfEdge)
    (h : i ≠ j) : eget (eset a i x) j = eget a j := list_getD_set_ne _ a i j x h

theorem fget_fset_self (a : List Face) (i : Nat) (x : Face)
    (h : i < a.length) : fget (fset a i x) i = x := list_getD_set_eq _ a i x h

theorem fget_fset_ne (a : List Face) (i j : Nat) (x : Face)
    (h : i ≠ j) : fget (fset a i x) j = fget a j := list_getD_set_ne _ a i j x h

/-!
## Claim theorems: frame and determinism
-/

/-- C9: `quickhull3` never mutates its input — the points array threaded
through the whole run is, at the end, equal to the one passed in (no
operation of the pipeline ever writes to it). -/
theorem quickhull3_points_unchanged (pts : List Q) :
    (quickhull3State pts).points = pts := by
  have h := (stCore_reindexFaces
    (mainLoop (pts.length / 3) (computeInitialHull (createHullState pts (pts.length / 3))))).trans
    ((stCore_mainLoop _ _).trans (stCore_computeInitialHull _))
  exact congrArg (fun p => p.1) h

/-- C10: `quickhull3` is deterministic — it is a pure function of the input
array, consulting no state outside the per-call hull state, so element-wise
equal inputs give identical outputs. -/
theorem quickhull3_deterministic (p q : List Q) (h : p = q) :
    quickhull3 p = quickhull3 q := congrArg quickhull3 h

/-- Witness for `quickhull3_deterministic` at a concrete input. -/
theorem quickhull3_deterministic_witness :
    quickhull3 [0, 0, 0, 1, 0, 0, 0, 1, 0, 0, 0, 2, 0, 3, 4] =
      quickhull3 [0, 0, 0, 1, 0, 0, 0, 1, 0, 0, 0, 2, 0, 3, 4] :=
  quickhull3_deterministic _ _ rfl

/-- C8: when the cross product of the two edge vectors has near-zero length
(below `EPSILON`), `computePlane` returns the default normal `(0, 0, 1)` and
offset `0` instead of failing or normalizing a near-zero vector. -/
theorem computePlane_degenerate (pts : List Q) (v0 v1 v2 : Nat)
    (h : ratSqrt (crossX pts v0 v1 v2 * crossX pts v0 v1 v2 +
        crossY pts v0 v1 v2 * crossY pts v0 v1 v2 +
        crossZ pts v0 v1 v2 * crossZ pts v0 v1 v2) < EPS12) :
    computePlane pts v0 v1 v2 = (⟨0, 0, 1⟩, 0) := by
  simp only [computePlane]
  split
  · rfl
  · next hc => exact absurd h hc

/-- Witness for `computePlane_degenerate`: three collinear points. -/
theorem computePlane_degenerate_witness :
    ratSqrt (crossX [0, 0, 0, 1, 0, 0, 2, 0, 0] 0 1 2 * crossX [0, 0, 0, 1, 0, 0, 2, 0, 0] 0 1 2 +
        crossY [0, 0, 0, 1, 0, 0, 2, 0, 0] 0 1 2 * crossY [0, 0, 0, 1, 0, 0, 2, 0, 0] 0 1 2 +
        crossZ [0, 0, 0, 1, 0, 0, 2, 0, 0] 0 1 2 * crossZ [0, 0, 0, 1, 0, 0, 2, 0, 0] 0 1 2) <
      EPS12 ∧
    computePlane [0, 0, 0, 1, 0, 0, 2, 0, 0] 0 1 2 = (⟨0, 0, 1⟩, 0) :=
  ⟨by decide, computePlane_degenerate _ 0 1 2 (by decide)⟩

/-!
## The extremes scan: correctness of the per-axis minima and maxima
-/

theorem createHullState_index (pts : List Q) (n v : Nat) (h : v < n) :
    (vget (createHullState pts n).varena v).index = v := by
  simp only [createHullState, vget]
  rw [List.getD_eq_getElem?_getD, List.getElem?_map, List.getElem?_range h]
  rfl

theorem extremesStep_minX (st : HullState) (acc : ExtAcc) (v : Nat) :
    ((extremesStep st acc v).minX, (extremesStep st acc v).minVx) =
      if pget st.points ((vget st.varena v).index * 3 + 0) < acc.minX
      then (pget st.points ((vget st.varena v).index * 3 + 0), v)
      else (acc.minX, acc.minVx) := by
  simp only [extremesStep, apply_ite ExtAcc.minX, apply_ite ExtAcc.minY,
    apply_ite ExtAcc.minZ, apply_ite ExtAcc.maxX, apply_ite ExtAcc.maxY,
    apply_ite ExtAcc.maxZ, apply_ite ExtAcc.minVx, apply_ite ExtAcc.minVy,
    apply_ite ExtAcc.minVz, apply_ite ExtAcc.maxVx, apply_ite ExtAcc.maxVy,
    apply_ite ExtAcc.maxVz, ite_self]
  split <;> rfl

theorem extremesStep_minY (st : HullState) (acc : ExtAcc) (v : Nat) :
    ((extremesStep st acc v).minY, (extremesStep st acc v).minVy) =
      if pget st.points ((vget st.varena v).index * 3 + 1) < acc.minY
      then (pget st.points ((vget st.varena v).index * 3 + 1), v)
      else (acc.minY, acc.minVy) := by
  simp only [extremesStep, apply_ite ExtAcc.minX, apply_ite ExtAcc.minY,
    apply_ite ExtAcc.minZ, apply_ite ExtAcc.maxX, apply_ite ExtAcc.maxY,
    apply_ite ExtAcc.maxZ, apply_ite ExtAcc.minVx, apply_ite ExtAcc.minVy,
    apply_ite ExtAcc.minVz, apply_ite ExtAcc.maxVx, apply_ite ExtAcc.maxVy,
    apply_ite ExtAcc.maxVz, ite_self]
  split <;> rfl

theorem extremesStep_minZ (st : HullState) (acc : ExtAcc) (v : Nat) :
    ((extremesStep st acc v).minZ, (extremesStep st acc v).minVz) =
      if pget st.points ((vget st.varena v).index * 3 + 2) < acc.minZ
      then (pget st.points ((vget st.varena v).index * 3 + 2), v)
      else (acc.minZ, acc.minVz) := by
  simp only [extremesStep, apply_ite ExtAcc.minX, apply_ite ExtAcc.minY,
    apply_ite ExtAcc.minZ, apply_ite ExtAcc.maxX, apply_ite ExtAcc.maxY,
    apply_ite ExtAcc.maxZ, apply_ite ExtAcc.minVx, apply_ite ExtAcc.minVy,
    apply_ite ExtAcc.minVz, apply_ite ExtAcc.maxVx, apply_ite ExtAcc.maxVy,
    apply_ite ExtAcc.maxVz, ite_self]
  split <;> rfl

theorem extremesStep_maxX (st : HullState) (acc : ExtAcc) (v : Nat) :
    ((extremesStep st acc v).maxX, (extremesStep st acc v).maxVx) =
      if pget st.points ((vget st.varena v).index * 3 + 0) > acc.maxX
      then (pget st.points ((vget st.varena v).index * 3 + 0), v)
      else (acc.maxX, acc.maxVx) := by
  simp only [extremesStep, apply_ite ExtAcc.minX, apply_ite ExtAcc.minY,
    apply_ite ExtAcc.minZ, apply_ite ExtAcc.maxX, apply_ite ExtAcc.maxY,
    apply_ite ExtAcc.maxZ, apply_ite ExtAcc.minVx, apply_ite ExtAcc.minVy,
    apply_ite ExtAcc.minVz, apply_ite ExtAcc.maxVx, apply_ite ExtAcc.maxVy,
    apply_ite ExtAcc.maxVz, ite_self]
  split <;> rfl

theorem extremesStep_maxY (st : HullState) (acc : ExtAcc) (v : Nat) :
    ((extremesStep st acc v).maxY, (extremesStep st acc v).maxVy) =
      if pget st.points ((vget st.varena v).index * 3 + 1) > acc.maxY
      then (pget st.points ((vget st.varena v).index * 3 + 1), v)
      else (acc.maxY, acc.maxVy) := by
  simp only [extremesStep, apply_ite ExtAcc.minX, apply_ite ExtAcc.minY,
    apply_ite ExtAcc.minZ, apply_ite ExtAcc.maxX, apply_ite ExtAcc.maxY,
    apply_ite ExtAcc.maxZ, apply_ite ExtAcc.minVx, apply_ite ExtAcc.minVy,
    apply_ite ExtAcc.minVz, apply_ite ExtAcc.maxVx, apply_ite ExtAcc.maxVy,
    apply_ite ExtAcc.maxVz, ite_self]
  split <;> rfl

theorem extremesStep_maxZ (st : HullState) (acc : ExtAcc) (v : Nat) :
    ((extremesStep st acc v).maxZ, (extremesStep st acc v).maxVz) =
      if pget st.points ((vget st.varena v).index * 3 + 2) > acc.maxZ
      then (pget st.points ((vget st.varena v).index * 3 + 2), v)
      else (acc.maxZ, acc.maxVz) := by
  simp only [extremesStep, apply_ite ExtAcc.minX, apply_ite ExtAcc.minY,
    apply_ite ExtAcc.minZ, apply_ite ExtAcc.maxX, apply_ite ExtAcc.maxY,
    apply_ite ExtAcc.maxZ, apply_ite ExtAcc.minVx, apply_ite ExtAcc.minVy,
    apply_ite ExtAcc.minVz, apply_ite ExtAcc.maxVx, apply_ite ExtAcc.maxVy,
    apply_ite ExtAcc.maxVz, ite_self]
  split <;> rfl

/-- Generic invariant of the extremes scan for a "minimum" component: the
running value is the coordinate of the running vertex, only decreases, and
bounds every scanned vertex's coordinate from below. -/
theorem extremesScan_min (pts : List Q) (n j : Nat) (st0 : HullState)
    (proj : ExtAcc → Q) (vproj : ExtAcc → Nat)
    (hpoints : st0.points = pts)
    (hidx : ∀ v, v < n → (vget st0.varena v).index = v)
    (hstep : ∀ acc v, (proj (extremesStep st0 acc v), vproj (extremesStep st0 acc v)) =
      if pget st0.points ((vget st0.varena v).index * 3 + j) < proj acc
      then (pget st0.points ((vget st0.varena v).index * 3 + j), v)
      else (proj acc, vproj acc)) :
    ∀ (vs : List Nat), (∀ v ∈ vs, v < n) → ∀ (acc : ExtAcc),
      vproj acc < n → proj acc = coordQ pts (vproj acc) j →
      vproj (vs.foldl (extremesStep st0) acc) < n ∧
        proj (vs.foldl (extremesStep st0) acc) =
          coordQ pts (vproj (vs.foldl (extremesStep st0) acc)) j ∧
        (proj (vs.foldl (extremesStep st0) acc)).toRat ≤ (proj acc).toRat ∧
        ∀ i ∈ vs, (proj (vs.foldl (extremesStep st0) acc)).toRat ≤ coord pts i j := by
  intro vs
  induction vs with
  | nil =>
    intro _ acc hv hval
    exact ⟨hv, hval, le_refl _, by simp⟩
  | cons v rest ih =>
    intro hvs acc hv hval
    have hvn : v < n := hvs v (List.mem_cons_self ..)
    have hrest : ∀ w ∈ rest, w < n := fun w hw => hvs w (List.mem_cons_of_mem _ hw)
    rw [List.foldl_cons]
    have hs := hstep acc v
    rw [hidx v hvn] at hs
    have hcq : pget st0.points (v * 3 + j) = coordQ pts v j := by
      rw [hpoints]; rfl
    rw [hcq] at hs
    by_cases hlt : coordQ pts v j < proj acc
    · rw [if_pos hlt] at hs
      have h1 : proj (extremesStep st0 acc v) = coordQ pts v j := congrArg Prod.fst hs
      have h2 : vproj (extremesStep st0 acc v) = v := congrArg Prod.snd hs
      obtain ⟨ha, hb, hc, hd⟩ := ih hrest (extremesStep st0 acc v)
        (by rw [h2]; exact hvn) (by rw [h1, h2])
      refine ⟨ha, hb, ?_, ?_⟩
      · calc (proj (rest.foldl (extremesStep st0) (extremesStep st0 acc v))).toRat
            ≤ (proj (extremesStep st0 acc v)).toRat := hc
          _ ≤ (proj acc).toRat := by rw [h1]; exact (Q.lt_iff.1 hlt).le
      · intro i hi
        rcases List.mem_cons.1 hi with rfl | hi2
        · exact hc.trans_eq (by rw [h1]; rfl)
        · exact hd i hi2
    · rw [if_neg hlt] at hs
      have h1 : proj (extremesStep st0 acc v) = proj acc := congrArg Prod.fst hs
      have h2 : vproj (extremesStep st0 acc v) = vproj acc := congrArg Prod.snd hs
      obtain ⟨ha, hb, hc, hd⟩ := ih hrest (extremesStep st0 acc v)
        (by rw [h2]; exact hv) (by rw [h1, h2]; exact hval)
      refine ⟨ha, hb, by rw [h1] at hc; exact hc, ?_⟩
      intro i hi
      rcases List.mem_cons.1 hi with rfl | hi2
      · have hle : (proj acc).toRat ≤ (coordQ pts i j).toRat :=
          not_lt.1 fun hcon => hlt (Q.lt_iff.2 hcon)
        rw [h1] at hc
        exact hc.trans hle
      · exact hd i hi2

/-- Generic invariant of the extremes scan for a "maximum" component. -/
theorem extremesScan_max (pts : List Q) (n j : Nat) (st0 : HullState)
    (proj : ExtAcc → Q) (vproj : ExtAcc → Nat)
    (hpoints : st0.points = pts)
    (hidx : ∀ v, v < n → (vget st0.varena v).index = v)
    (hstep : ∀ acc v, (proj (extremesStep st0 acc v), vproj (extremesStep st0 acc v)) =
      if pget st0.points ((vget st0.varena v).index * 3 + j) > proj acc
      then (pget st0.points ((vget st0.varena v).index * 3 + j), v)
      else (proj acc, vproj acc)) :
    ∀ (vs : List Nat), (∀ v ∈ vs, v < n) → ∀ (acc : ExtAcc),
      vproj acc < n → proj acc = coordQ pts (vproj acc) j →
      vproj (vs.foldl (extremesStep st0) acc) < n ∧
        proj (vs.foldl (extremesStep st0) acc) =
          coordQ pts (vproj (vs.foldl (extremesStep st0) acc)) j ∧
        (proj acc).toRat ≤ (proj (vs.foldl (extremesStep st0) acc)).toRat ∧
        ∀ i ∈ vs, coord pts i j ≤ (proj (vs.foldl (extremesStep st0) acc)).toRat := by
  intro vs
  induction vs with
  | nil =>
    intro _ acc hv hval
    exact ⟨hv, hval, le_refl _, by simp⟩
  | cons v rest ih =>
    intro hvs acc hv hval
    have hvn : v < n := hvs v (List.mem_cons_self ..)
    have hrest : ∀ w ∈ rest, w < n := fun w hw => hvs w (List.mem_cons_of_mem _ hw)
    rw [List.foldl_cons]
    have hs := hstep acc v
    rw [hidx v hvn] at hs
    have hcq : pget st0.points (v * 3 + j) = coordQ pts v j := by
      rw [hpoints]; rfl
    rw [hcq] at hs
    by_cases hlt : proj acc < coordQ pts v j
    · rw [if_pos hlt] at hs
      have h1 : proj (extremesStep st0 acc v) = coordQ pts v j := congrArg Prod.fst hs
      have h2 : vproj (extremesStep st0 acc v) = v := congrArg Prod.snd hs
      obtain ⟨ha, hb, hc, hd⟩ := ih hrest (extremesStep st0 acc v)
        (by rw [h2]; exact hvn) (by rw [h1, h2])
      refine ⟨ha, hb, ?_, ?_⟩
      · calc (proj acc).toRat ≤ (proj (extremesStep st0 acc v)).toRat := by
              rw [h1]; exact (Q.lt_iff.1 hlt).le
          _ ≤ (proj (rest.foldl (extremesStep st0) (extremesStep st0 acc v))).toRat := hc
      · intro i hi
        rcases List.mem_cons.1 hi with rfl | hi2
        · exact le_trans (le_of_eq (by rw [h1]; rfl)) hc
        · exact hd i hi2
    · rw [if_neg hlt] at hs
      have h1 : proj (extremesStep st0 acc v) = proj acc := congrArg Prod.fst hs
      have h2 : vproj (extremesStep st0 acc v) = vproj acc := congrArg Prod.snd hs
      obtain ⟨ha, hb, hc, hd⟩ := ih hrest (extremesStep st0 acc v)
        (by rw [h2]; exact hv) (by rw [h1, h2]; exact hval)
      refine ⟨ha, hb, by rw [h1] at hc; exact hc, ?_⟩
      intro i hi
      rcases List.mem_cons.1 hi with rfl | hi2
      · have hle : (coordQ pts i j).toRat ≤ (proj acc).toRat :=
          not_lt.1 fun hcon => hlt (Q.lt_iff.2 hcon)
        rw [h1] at hc
        exact hle.trans hc
      · exact hd i hi2

/-- C4: for every non-empty input, the tolerance computed by `computeExtremes`
before hull construction equals 3 × machine-epsilon × the sum, over the three
axes, of the maximum of the absolute values of that axis's minimum and maximum
coordinate; and the whole run keeps that very scalar — no later operation
writes the tolerance field. -/
theorem quickhull3_tolerance (pts : List Q) (h1 : 1 ≤ pts.length / 3) :
    ∃ mn0 mx0 mn1 mx1 mn2 mx2 : ℚ,
      (∀ i, i < pts.length / 3 →
        (mn0 ≤ coord pts i 0 ∧ coord pts i 0 ≤ mx0) ∧
        (mn1 ≤ coord pts i 1 ∧ coord pts i 1 ≤ mx1) ∧
        (mn2 ≤ coord pts i 2 ∧ coord pts i 2 ≤ mx2)) ∧
      ((∃ i, i < pts.length / 3 ∧ coord pts i 0 = mn0) ∧
        (∃ i, i < pts.length / 3 ∧ coord pts i 0 = mx0) ∧
        (∃ i, i < pts.length / 3 ∧ coord pts i 1 = mn1) ∧
        (∃ i, i < pts.length / 3 ∧ coord pts i 1 = mx1) ∧
        (∃ i, i < pts.length / 3 ∧ coord pts i 2 = mn2) ∧
        (∃ i, i < pts.length / 3 ∧ coord pts i 2 = mx2)) ∧
      (computeExtremes (createHullState pts (pts.length / 3))).1.tolerance.toRat =
        3 * (1 / 2 ^ 52) * (max |mn0| |mx0| + max |mn1| |mx1| + max |mn2| |mx2|) ∧
      (quickhull3State pts).tolerance =
        (computeExtremes (createHullState pts (pts.length / 3))).1.tolerance := by
  have hidx := createHullState_index pts (pts.length / 3)
  have hhead : (List.range (pts.length / 3)).headD 0 = 0 := by
    cases h : pts.length / 3 with
    | zero => rfl
    | succ m => rw [List.range_succ_eq_map]; rfl
  have hvs : ∀ v ∈ (createHullState pts (pts.length / 3)).vertices, v < pts.length / 3 :=
    fun v hv => List.mem_range.1 hv
  set st0 := createHullState pts (pts.length / 3) with hst0
  set init : ExtAcc :=
    { minX := pget st0.points 0, minY := pget st0.points 1, minZ := pget st0.points 2
      maxX := pget st0.points 0, maxY := pget st0.points 1, maxZ := pget st0.points 2
      minVx := st0.vertices.headD 0, minVy := st0.vertices.headD 0
      minVz := st0.vertices.headD 0, maxVx := st0.vertices.headD 0
      maxVy := st0.vertices.headD 0, maxVz := st0.vertices.headD 0 } with hinitdef
  have hheadv : st0.vertices.headD 0 = 0 := hhead
  have hv0 : (0 : Nat) < pts.length / 3 := h1
  have hm0 := extremesScan_min pts (pts.length / 3) 0 st0 ExtAcc.minX ExtAcc.minVx rfl hidx
    (extremesStep_minX st0) st0.vertices hvs init
    (by show st0.vertices.headD 0 < _; rw [hheadv]; exact hv0)
    (by show pget st0.points 0 = coordQ pts (st0.vertices.headD 0) 0; rw [hheadv]; rfl)
  have hM0 := extremesScan_max pts (pts.length / 3) 0 st0 ExtAcc.maxX ExtAcc.maxVx rfl hidx
    (extremesStep_maxX st0) st0.vertices hvs init
    (by show st0.vertices.headD 0 < _; rw [hheadv]; exact hv0)
    (by show pget st0.points 0 = coordQ pts (st0.vertices.headD 0) 0; rw [hheadv]; rfl)
  have hm1 := extremesScan_min pts (pts.length / 3) 1 st0 ExtAcc.minY ExtAcc.minVy rfl hidx
    (extremesStep_minY st0) st0.vertices hvs init
    (by show st0.vertices.headD 0 < _; rw [hheadv]; exact hv0)
    (by show pget st0.points 1 = coordQ pts (st0.vertices.headD 0) 1; rw [hheadv]; rfl)
  have hM1 := extremesScan_max pts (pts.length / 3) 1 st0 ExtAcc.maxY ExtAcc.maxVy rfl hidx
    (extremesStep_maxY st0) st0.vertices hvs init
    (by show st0.vertices.headD 0 < _; rw [hheadv]; exact hv0)
    (by show pget st0.points 1 = coordQ pts (st0.vertices.headD 0) 1; rw [hheadv]; rfl)
  have hm2 := extremesScan_min pts (pts.length / 3) 2 st0 ExtAcc.minZ ExtAcc.minVz rfl hidx
    (extremesStep_minZ st0) st0.vertices hvs init
    (by show st0.vertices.headD 0 < _; rw [hheadv]; exact hv0)
    (by show pget st0.points 2 = coordQ pts (st0.vertices.headD 0) 2; rw [hheadv]; rfl)
  have hM2 := extremesScan_max pts (pts.length / 3) 2 st0 ExtAcc.maxZ ExtAcc.maxVz rfl hidx
    (extremesStep_maxZ st0) st0.vertices hvs init
    (by show st0.vertices.headD 0 < _; rw [hheadv]; exact hv0)
    (by show pget st0.points 2 = coordQ pts (st0.vertices.headD 0) 2; rw [hheadv]; rfl)
  set accF := st0.vertices.foldl (extremesStep st0) init with haccF
  have htol : (computeExtremes st0).1.tolerance =
      3 * NumberEPSILON *
        (Q.qmax (Q.qabs accF.minX) (Q.qabs accF.maxX) +
          Q.qmax (Q.qabs accF.minY) (Q.qabs accF.maxY) +
          Q.qmax (Q.qabs accF.minZ) (Q.qabs accF.maxZ)) := rfl
  refine ⟨(ExtAcc.minX accF).toRat, (ExtAcc.maxX accF).toRat,
    (ExtAcc.minY accF).toRat, (ExtAcc.maxY accF).toRat,
    (ExtAcc.minZ accF).toRat, (ExtAcc.maxZ accF).toRat, ?_, ?_, ?_, ?_⟩
  · intro i hi
    have him : i ∈ st0.vertices := List.mem_range.2 hi
    exact ⟨⟨hm0.2.2.2 i him, hM0.2.2.2 i him⟩,
      ⟨hm1.2.2.2 i him, hM1.2.2.2 i him⟩,
      ⟨hm2.2.2.2 i him, hM2.2.2.2 i him⟩⟩
  · exact ⟨⟨_, hm0.1, (congrArg Q.toRat hm0.2.1).symm⟩,
      ⟨_, hM0.1, (congrArg Q.toRat hM0.2.1).symm⟩,
      ⟨_, hm1.1, (congrArg Q.toRat hm1.2.1).symm⟩,
      ⟨_, hM1.1, (congrArg Q.toRat hM1.2.1).symm⟩,
      ⟨_, hm2.1, (congrArg Q.toRat hm2.2.1).symm⟩,
      ⟨_, hM2.1, (congrArg Q.toRat hM2.2.1).symm⟩⟩
  · rw [htol, Q.toRat_mul, Q.toRat_mul, Q.toRat_add, Q.toRat_add, Q.toRat_qmax,
      Q.toRat_qmax, Q.toRat_qmax, Q.toRat_qabs, Q.toRat_qabs, Q.toRat_qabs,
      Q.toRat_qabs, Q.toRat_qabs, Q.toRat_qabs, Q.toRat_three, toRat_NumberEPSILON]
  · exact congrArg (fun p => p.2.1)
      ((stCore_reindexFaces _).trans
        ((stCore_mainLoop _ _).trans (stCore_computeInitialHull _)))

/-- Witness for `quickhull3_tolerance` at a concrete input. -/
theorem quickhull3_tolerance_witness :
    1 ≤ ([1, 2, 3, 4, 5, 6] : List Q).length / 3 ∧
      ∃ mn0 mx0 mn1 mx1 mn2 mx2 : ℚ,
        (∀ i, i < ([1, 2, 3, 4, 5, 6] : List Q).length / 3 →
          (mn0 ≤ coord [1, 2, 3, 4, 5, 6] i 0 ∧ coord [1, 2, 3, 4, 5, 6] i 0 ≤ mx0) ∧
          (mn1 ≤ coord [1, 2, 3, 4, 5, 6] i 1 ∧ coord [1, 2, 3, 4, 5, 6] i 1 ≤ mx1) ∧
          (mn2 ≤ coord [1, 2, 3, 4, 5, 6] i 2 ∧ coord [1, 2, 3, 4, 5, 6] i 2 ≤ mx2)) ∧
        ((∃ i, i < ([1, 2, 3, 4, 5, 6] : List Q).length / 3 ∧ coord [1, 2, 3, 4, 5, 6] i 0 = mn0) ∧
          (∃ i, i < ([1, 2, 3, 4, 5, 6] : List Q).length / 3 ∧ coord [1, 2, 3, 4, 5, 6] i 0 = mx0) ∧
          (∃ i, i < ([1, 2, 3, 4, 5, 6] : List Q).length / 3 ∧ coord [1, 2, 3, 4, 5, 6] i 1 = mn1) ∧
          (∃ i, i < ([1, 2, 3, 4, 5, 6] : List Q).length / 3 ∧ coord [1, 2, 3, 4, 5, 6] i 1 = mx1) ∧
          (∃ i, i < ([1, 2, 3, 4, 5, 6] : List Q).length / 3 ∧ coord [1, 2, 3, 4, 5, 6] i 2 = mn2) ∧
          (∃ i, i < ([1, 2, 3, 4, 5, 6] : List Q).length / 3 ∧ coord [1, 2, 3, 4, 5, 6] i 2 = mx2)) ∧
        (computeExtremes (createHullState [1, 2, 3, 4, 5, 6]
            (([1, 2, 3, 4, 5, 6] : List Q).length / 3))).1.tolerance.toRat =
          3 * (1 / 2 ^ 52) * (max |mn0| |mx0| + max |mn1| |mx1| + max |mn2| |mx2|) ∧
        (quickhull3State [1, 2, 3, 4, 5, 6]).tolerance =
          (computeExtremes (createHullState [1, 2, 3, 4, 5, 6]
            (([1, 2, 3, 4, 5, 6] : List Q).length / 3))).1.tolerance :=
  ⟨by decide, quickhull3_tolerance [1, 2, 3, 4, 5, 6] (by decide)⟩

theorem nextVertexToAdd_of_empty (st : HullState) (h : st.assigned.head = none) :
    nextVertexToAdd st = none := by
  unfold nextVertexToAdd vertexListIsEmpty
  rw [h]
  rfl

theorem mainLoop_of_none (fuel : Nat) (st : HullState) (h : nextVertexToAdd st = none) :
    mainLoop fuel st = st := by
  cases fuel with
  | zero => rfl
  | succ fuel => rw [mainLoop, h]

theorem getTriangleIndices_of_nil (st : HullState) (h : st.faces = []) :
    getTriangleIndices st = [] := by
  unfold getTriangleIndices
  rw [h]
  rfl

theorem maxStep_facts (p : Q × Nat) (a : Q) (i : Nat) :
    p.1.toRat ≤ (if a > p.1 then (a, i) else p).1.toRat ∧
      a.toRat ≤ (if a > p.1 then (a, i) else p).1.toRat ∧
      ((if a > p.1 then (a, i) else p) = (a, i) ∨ (if a > p.1 then (a, i) else p) = p) := by
  by_cases h : a > p.1
  · rw [if_pos h]
    exact ⟨(Q.lt_iff.1 h).le, le_refl _, Or.inl rfl⟩
  · rw [if_neg h]
    refine ⟨le_refl _, ?_, Or.inr rfl⟩
    exact not_lt.1 fun hc => h (Q.lt_iff.2 hc)

theorem seedAxisSel_spec (st : HullState) (ext : ExtAcc) :
    (seedAxisSel st ext).2 < 3 ∧
      (Q.qabs (seedDelta st ext 0)).toRat ≤ (seedAxisSel st ext).1.toRat ∧
      (Q.qabs (seedDelta st ext 1)).toRat ≤ (seedAxisSel st ext).1.toRat ∧
      (Q.qabs (seedDelta st ext 2)).toRat ≤ (seedAxisSel st ext).1.toRat ∧
      ((seedAxisSel st ext).1.toRat = 0 ∨
        (seedAxisSel st ext).1.toRat =
          (Q.qabs (seedDelta st ext (seedAxisSel st ext).2)).toRat) := by
  obtain ⟨g1a, g1b, g1c⟩ :=
    maxStep_facts ((0, 0) : Q × Nat) (Q.qabs (seedDelta st ext 0)) 0
  obtain ⟨g2a, g2b, g2c⟩ :=
    maxStep_facts (if Q.qabs (seedDelta st ext 0) > ((0, 0) : Q × Nat).1
      then (Q.qabs (seedDelta st ext 0), 0) else ((0, 0) : Q × Nat))
      (Q.qabs (seedDelta st ext 1)) 1
  obtain ⟨g3a, g3b, g3c⟩ :=
    maxStep_facts (if Q.qabs (seedDelta st ext 1) >
        (if Q.qabs (seedDelta st ext 0) > ((0, 0) : Q × Nat).1
          then (Q.qabs (seedDelta st ext 0), 0) else ((0, 0) : Q × Nat)).1
      then (Q.qabs (seedDelta st ext 1), 1)
      else (if Q.qabs (seedDelta st ext 0) > ((0, 0) : Q × Nat).1
        then (Q.qabs (seedDelta st ext 0), 0) else ((0, 0) : Q × Nat)))
      (Q.qabs (seedDelta st ext 2)) 2
  have hsel : seedAxisSel st ext =
      (if Q.qabs (seedDelta st ext 2) >
          (if Q.qabs (seedDelta st ext 1) >
              (if Q.qabs (seedDelta st ext 0) > ((0, 0) : Q × Nat).1
                then (Q.qabs (seedDelta st ext 0), 0) else ((0, 0) : Q × Nat)).1
            then (Q.qabs (seedDelta st ext 1), 1)
            else (if Q.qabs (seedDelta st ext 0) > ((0, 0) : Q × Nat).1
              then (Q.qabs (seedDelta st ext 0), 0) else ((0, 0) : Q × Nat))).1
        then (Q.qabs (seedDelta st ext 2), 2)
        else (if Q.qabs (seedDelta st ext 1) >
            (if Q.qabs (seedDelta st ext 0) > ((0, 0) : Q × Nat).1
              then (Q.qabs (seedDelta st ext 0), 0) else ((0, 0) : Q × Nat)).1
          then (Q.qabs (seedDelta st ext 1), 1)
          else (if Q.qabs (seedDelta st ext 0) > ((0, 0) : Q × Nat).1
            then (Q.qabs (seedDelta st ext 0), 0) else ((0, 0) : Q × Nat)))) := rfl
  rw [hsel]
  have h0z : ((0, 0) : Q × Nat).1.toRat = 0 := Q.toRat_zero
  refine ⟨?_, ?_, ?_, ?_, ?_⟩
  · rcases g3c with h3 | h3 <;> rw [h3]
    · exact Nat.lt_succ_self 2
    · rcases g2c with h2 | h2 <;> rw [h2]
      · omega
      · rcases g1c with h1 | h1 <;> rw [h1] <;> omega
  · exact le_trans (le_trans g1b g2a) g3a
  · exact le_trans g2b g3a
  · exact g3b
  · rcases g3c with h3 | h3 <;> rw [h3]
    · exact Or.inr rfl
    · rcases g2c with h2 | h2 <;> rw [h2]
      · exact Or.inr rfl
      · rcases g1c with h1 | h1 <;> rw [h1]
        · exact Or.inr rfl
        · exact Or.inl h0z

theorem distanceToLineSquared_zero (pts : List Q) (n p a b : Nat)
    (hp : p < n) (ha : a < n) (hb : b < n) (hcol : AllCollinear pts n)
    (hsep : 1 / 10 ^ 12 ≤ (coord pts b 0 - coord pts a 0) ^ 2 +
      (coord pts b 1 - coord pts a 1) ^ 2 + (coord pts b 2 - coord pts a 2) ^ 2) :
    (distanceToLineSquared pts p a b).toRat = 0 := by
  obtain ⟨hx, hy, hz⟩ := hcol a p b ha hp hb
  have c0b : (pget pts (b * 3)).toRat = coord pts b 0 := rfl
  have c1b : (pget pts (b * 3 + 1)).toRat = coord pts b 1 := rfl
  have c2b : (pget pts (b * 3 + 2)).toRat = coord pts b 2 := rfl
  have c0a : (pget pts (a * 3)).toRat = coord pts a 0 := rfl
  have c1a : (pget pts (a * 3 + 1)).toRat = coord pts a 1 := rfl
  have c2a : (pget pts (a * 3 + 2)).toRat = coord pts a 2 := rfl
  have habq : (((pget pts (b * 3) - pget pts (a * 3)) * (pget pts (b * 3) - pget pts (a * 3)) +
      (pget pts (b * 3 + 1) - pget pts (a * 3 + 1)) * (pget pts (b * 3 + 1) - pget pts (a * 3 + 1)) +
      (pget pts (b * 3 + 2) - pget pts (a * 3 + 2)) * (pget pts (b * 3 + 2) - pget pts (a * 3 + 2)) : Q)).toRat =
      (coord pts b 0 - coord pts a 0) ^ 2 + (coord pts b 1 - coord pts a 1) ^ 2 +
        (coord pts b 2 - coord pts a 2) ^ 2 := by
    simp only [Q.toRat_add, Q.toRat_mul, Q.toRat_sub, c0b, c1b, c2b, c0a, c1a, c2a]
    ring
  have hnotlt : ¬(((pget pts (b * 3) - pget pts (a * 3)) * (pget pts (b * 3) - pget pts (a * 3)) +
      (pget pts (b * 3 + 1) - pget pts (a * 3 + 1)) * (pget pts (b * 3 + 1) - pget pts (a * 3 + 1)) +
      (pget pts (b * 3 + 2) - pget pts (a * 3 + 2)) * (pget pts (b * 3 + 2) - pget pts (a * 3 + 2)) : Q) < EPS12) := by
    intro hlt
    have := Q.lt_iff.1 hlt
    rw [habq, toRat_EPS12] at this
    exact absurd (lt_of_le_of_lt hsep this) (lt_irrefl _)
  have hcx : ((pget pts (p * 3 + 1) - pget pts (a * 3 + 1)) * (pget pts (b * 3 + 2) - pget pts (a * 3 + 2)) -
      (pget pts (p * 3 + 2) - pget pts (a * 3 + 2)) * (pget pts (b * 3 + 1) - pget pts (a * 3 + 1)) : Q) =
      crossX pts a p b := rfl
  have hcy : ((pget pts (p * 3 + 2) - pget pts (a * 3 + 2)) * (pget pts (b * 3) - pget pts (a * 3)) -
      (pget pts (p * 3) - pget pts (a * 3)) * (pget pts (b * 3 + 2) - pget pts (a * 3 + 2)) : Q) =
      crossY pts a p b := rfl
  have hcz : ((pget pts (p * 3) - pget pts (a * 3)) * (pget pts (b * 3 + 1) - pget pts (a * 3 + 1)) -
      (pget pts (p * 3 + 1) - pget pts (a * 3 + 1)) * (pget pts (b * 3)  - pget pts (a * 3)) : Q) =
      crossZ pts a p b := rfl
  show (distanceToLineSquared pts p a b).toRat = 0
  simp only [distanceToLineSquared]
  rw [if_neg hnotlt, Q.toRat_div, hcx, hcy, hcz]
  rw [show ((crossX pts a p b * crossX pts a p b + crossY pts a p b * crossY pts a p b +
      crossZ pts a p b * crossZ pts a p b : Q)).toRat = 0 from ?_]
  · exact zero_div _
  · simp only [Q.toRat_add, Q.toRat_mul, Q.toRat_eq_zero_iff.2 hx, Q.toRat_eq_zero_iff.2 hy,
      Q.toRat_eq_zero_iff.2 hz]
    ring

theorem v2SearchFold_none (st1 : HullState) (v0 v1 : Nat) (vs : List Nat)
    (h : ∀ v ∈ vs, v ≠ v0 → v ≠ v1 →
      (distanceToLineSquared st1.points (vget st1.varena v).index
        (vget st1.varena v0).index (vget st1.varena v1).index).toRat = 0) :
    vs.foldl
      (fun (acc : Q × Option Nat) v =>
        if v ≠ v0 ∧ v ≠ v1 then
          let dist := distanceToLineSquared st1.points (vget st1.varena v).index
            (vget st1.varena v0).index (vget st1.varena v1).index
          if dist > acc.1 then (dist, some v) else acc
        else acc)
      (0, none) = (0, none) := by
  induction vs with
  | nil => rfl
  | cons v rest ih =>
    rw [List.foldl_cons]
    have hv := h v (List.mem_cons_self ..)
    by_cases hg : v ≠ v0 ∧ v ≠ v1
    · rw [if_pos hg]
      have hz := hv hg.1 hg.2
      have hnlt : ¬(distanceToLineSquared st1.points (vget st1.varena v).index
          (vget st1.varena v0).index (vget st1.varena v1).index >
            ((0, none) : Q × Option Nat).1) := by
        intro hlt
        have := Q.lt_iff.1 hlt
        rw [hz, Q.toRat_zero] at this
        exact absurd this (lt_irrefl _)
      rw [if_neg hnlt]
      exact ih fun w hw => h w (List.mem_cons_of_mem _ hw)
    · rw [if_neg hg]
      exact ih fun w hw => h w (List.mem_cons_of_mem _ hw)

theorem v2Search_eq_none (st1 : HullState) (v0 v1 : Nat)
    (h : ∀ v ∈ st1.vertices, v ≠ v0 → v ≠ v1 →
      (distanceToLineSquared st1.points (vget st1.varena v).index
        (vget st1.varena v0).index (vget st1.varena v1).index).toRat = 0) :
    v2Search st1 v0 v1 = (0, none) :=
  v2SearchFold_none st1 v0 v1 st1.vertices h

theorem computeInitialHull_eq_of_v2none (st : HullState)
    (h : (v2Search (computeExtremes st).1
      (pick3 (seedAxisSel (computeExtremes st).1 (computeExtremes st).2).2
        (computeExtremes st).2.minVx (computeExtremes st).2.minVy (computeExtremes st).2.minVz)
      (pick3 (seedAxisSel (computeExtremes st).1 (computeExtremes st).2).2
        (computeExtremes st).2.maxVx (computeExtremes st).2.maxVy (computeExtremes st).2.maxVz)).2 =
      none) :
    computeInitialHull st = (computeExtremes st).1 := by
  simp only [computeInitialHull]
  rw [h]

set_option maxHeartbeats 1000000 in
/-- C2 (amended): `quickhull3` returns the empty index list when the input has
fewer than 4 points, and also when all points are collinear and some axis
separates two points by at least `10⁻⁶` (so that the seed extreme pair is
genuinely apart). The original claim's coplanar clause is dropped: coplanar
inputs with four or more points yield a non-empty double-sided triangulation
(see `quickhull3_coplanar_nonempty`), because the `v3` search starts its
running maximum at `−1` and therefore always selects a fourth vertex. -/
theorem quickhull3_degenerate_empty (pts : List Q)
    (h : pts.length / 3 < 4 ∨
      (AllCollinear pts (pts.length / 3) ∧ WellSeparated pts (pts.length / 3))) :
    quickhull3 pts = [] := by
  by_cases hn4 : pts.length / 3 < 4
  · unfold quickhull3
    rw [if_pos hn4]
  · rcases h with h | ⟨hcol, hsep⟩
    · exact absurd h hn4
    have h1 : 1 ≤ pts.length / 3 := by omega
    have hidx := createHullState_index pts (pts.length / 3)
    have hhead : (List.range (pts.length / 3)).headD 0 = 0 := by
      cases h : pts.length / 3 with
      | zero => rfl
      | succ m => rw [List.range_succ_eq_map]; rfl
    have hvs : ∀ v ∈ (createHullState pts (pts.length / 3)).vertices, v < pts.length / 3 :=
      fun v hv => List.mem_range.1 hv
    set st0 := createHullState pts (pts.length / 3) with hst0
    set init : ExtAcc :=
      { minX := pget st0.points 0, minY := pget st0.points 1, minZ := pget st0.points 2
        maxX := pget st0.points 0, maxY := pget st0.points 1, maxZ := pget st0.points 2
        minVx := st0.vertices.headD 0, minVy := st0.vertices.headD 0
        minVz := st0.vertices.headD 0, maxVx := st0.vertices.headD 0
        maxVy := st0.vertices.headD 0, maxVz := st0.vertices.headD 0 } with hinitdef
    have hheadv : st0.vertices.headD 0 = 0 := hhead
    have hv0n : (0 : Nat) < pts.length / 3 := h1
    have hm0 := extremesScan_min pts (pts.length / 3) 0 st0 ExtAcc.minX ExtAcc.minVx rfl hidx
      (extremesStep_minX st0) st0.vertices hvs init
      (by show st0.vertices.headD 0 < _; rw [hheadv]; exact hv0n)
      (by show pget st0.points 0 = coordQ pts (st0.vertices.headD 0) 0; rw [hheadv]; rfl)
    have hM0 := extremesScan_max pts (pts.length / 3) 0 st0 ExtAcc.maxX ExtAcc.maxVx rfl hidx
      (extremesStep_maxX st0) st0.vertices hvs init
      (by show st0.vertices.headD 0 < _; rw [hheadv]; exact hv0n)
      (by show pget st0.points 0 = coordQ pts (st0.vertices.headD 0) 0; rw [hheadv]; rfl)
    have hm1 := extremesScan_min pts (pts.length / 3) 1 st0 ExtAcc.minY ExtAcc.minVy rfl hidx
      (extremesStep_minY st0) st0.vertices hvs init
      (by show st0.vertices.headD 0 < _; rw [hheadv]; exact hv0n)
      (by show pget st0.points 1 = coordQ pts (st0.vertices.headD 0) 1; rw [hheadv]; rfl)
    have hM1 := extremesScan_max pts (pts.length / 3) 1 st0 ExtAcc.maxY ExtAcc.maxVy rfl hidx
      (extremesStep_maxY st0) st0.vertices hvs init
      (by show st0.vertices.headD 0 < _; rw [hheadv]; exact hv0n)
      (by show pget st0.points 1 = coordQ pts (st0.vertices.headD 0) 1; rw [hheadv]; rfl)
    have hm2 := extremesScan_min pts (pts.length / 3) 2 st0 ExtAcc.minZ ExtAcc.minVz rfl hidx
      (extremesStep_minZ st0) st0.vertices hvs init
      (by show st0.vertices.headD 0 < _; rw [hheadv]; exact hv0n)
      (by show pget st0.points 2 = coordQ pts (st0.vertices.headD 0) 2; rw [hheadv]; rfl)
    have hM2 := extremesScan_max pts (pts.length / 3) 2 st0 ExtAcc.maxZ ExtAcc.maxVz rfl hidx
      (extremesStep_maxZ st0) st0.vertices hvs init
      (by show st0.vertices.headD 0 < _; rw [hheadv]; exact hv0n)
      (by show pget st0.points 2 = coordQ pts (st0.vertices.headD 0) 2; rw [hheadv]; rfl)
    set ext := st0.vertices.foldl (extremesStep st0) init with hext
    set st1 := (computeExtremes st0).1 with hst1
    have hidx1 : ∀ v, v < pts.length / 3 → (vget st1.varena v).index = v := hidx
    obtain ⟨j, hj3, i, hi, k, hk, hble⟩ := hsep
    have hsep6 : 1 / 10 ^ 6 ≤ |coord pts i j - coord pts k j| := by
      have := Q.le_iff.1 hble
      rw [Q.toRat_qabs, Q.toRat_sub] at this
      calc (1 : ℚ) / 10 ^ 6 = Q.toRat ⟨1, 10 ^ 6 - 1⟩ := by
            rw [Q.toRat_mk]; norm_num
        _ ≤ _ := this
    have hq0 := seedAxisSel_spec st1 ext
    have hd0 : (seedDelta st1 ext 0).toRat = ext.minX.toRat - ext.maxX.toRat := by
      show (pget st1.points ((vget st1.varena ext.minVx).index * 3 + 0) -
        pget st1.points ((vget st1.varena ext.maxVx).index * 3 + 0)).toRat = _
      rw [Q.toRat_sub, hidx1 _ hm0.1, hidx1 _ hM0.1]
      rw [congrArg Q.toRat hm0.2.1, congrArg Q.toRat hM0.2.1]
      rfl
    have hd1 : (seedDelta st1 ext 1).toRat = ext.minY.toRat - ext.maxY.toRat := by
      show (pget st1.points ((vget st1.varena ext.minVy).index * 3 + 1) -
        pget st1.points ((vget st1.varena ext.maxVy).index * 3 + 1)).toRat = _
      rw [Q.toRat_sub, hidx1 _ hm1.1, hidx1 _ hM1.1]
      rw [congrArg Q.toRat hm1.2.1, congrArg Q.toRat hM1.2.1]
      rfl
    have hd2 : (seedDelta st1 ext 2).toRat = ext.minZ.toRat - ext.maxZ.toRat := by
      show (pget st1.points ((vget st1.varena ext.minVz).index * 3 + 2) -
        pget st1.points ((vget st1.varena ext.maxVz).index * 3 + 2)).toRat = _
      rw [Q.toRat_sub, hidx1 _ hm2.1, hidx1 _ hM2.1]
      rw [congrArg Q.toRat hm2.2.1, congrArg Q.toRat hM2.2.1]
      rfl
    have hval6 : 1 / 10 ^ 6 ≤ (seedAxisSel st1 ext).1.toRat := by
      interval_cases j
      · refine le_trans ?_ hq0.2.1
        rw [Q.toRat_qabs, hd0, abs_sub_comm]
        have hloi := hm0.2.2.2 i (List.mem_range.2 hi)
        have hhii := hM0.2.2.2 i (List.mem_range.2 hi)
        have hlok := hm0.2.2.2 k (List.mem_range.2 hk)
        have hhik := hM0.2.2.2 k (List.mem_range.2 hk)
        refine le_trans (le_trans hsep6 ?_) (le_abs_self _)
        exact abs_le.mpr ⟨by linarith, by linarith⟩
      · refine le_trans ?_ hq0.2.2.1
        rw [Q.toRat_qabs, hd1, abs_sub_comm]
        have hloi := hm1.2.2.2 i (List.mem_range.2 hi)
        have hhii := hM1.2.2.2 i (List.mem_range.2 hi)
        have hlok := hm1.2.2.2 k (List.mem_range.2 hk)
        have hhik := hM1.2.2.2 k (List.mem_range.2 hk)
        refine le_trans (le_trans hsep6 ?_) (le_abs_self _)
        exact abs_le.mpr ⟨by linarith, by linarith⟩
      · refine le_trans ?_ hq0.2.2.2.1
        rw [Q.toRat_qabs, hd2, abs_sub_comm]
        have hloi := hm2.2.2.2 i (List.mem_range.2 hi)
        have hhii := hM2.2.2.2 i (List.mem_range.2 hi)
        have hlok := hm2.2.2.2 k (List.mem_range.2 hk)
        have hhik := hM2.2.2.2 k (List.mem_range.2 hk)
        refine le_trans (le_trans hsep6 ?_) (le_abs_self _)
        exact abs_le.mpr ⟨by linarith, by linarith⟩
    have h3 : (seedAxisSel st1 ext).2 < 3 := hq0.1
    set idxv := (seedAxisSel st1 ext).2 with hidxv
    have hvchar : (seedAxisSel st1 ext).1.toRat =
        (Q.qabs (seedDelta st1 ext idxv)).toRat := by
      rcases hq0.2.2.2.2 with h0 | hh
      · rw [h0] at hval6; norm_num at hval6
      · exact hh
    clear_value idxv
    have hv2 : (v2Search st1 (pick3 idxv ext.minVx ext.minVy ext.minVz)
        (pick3 idxv ext.maxVx ext.maxVy ext.maxVz)).2 = none := by
      interval_cases idxv
      · have e1 : coord pts ext.minVx 0 = ext.minX.toRat := (congrArg Q.toRat hm0.2.1).symm
        have e2 : coord pts ext.maxVx 0 = ext.maxX.toRat := (congrArg Q.toRat hM0.2.1).symm
        have hle : ext.minX.toRat ≤ ext.maxX.toRat := le_trans hm0.2.2.1 hM0.2.2.1
        have habs : (1 : ℚ) / 10 ^ 6 ≤ |(seedDelta st1 ext 0).toRat| := by
          rw [← Q.toRat_qabs, ← hvchar]; exact hval6
        have ht : (1 : ℚ) / 10 ^ 6 ≤ ext.maxX.toRat - ext.minX.toRat := by
          rw [hd0, abs_sub_comm, abs_of_nonneg (by linarith)] at habs
          exact habs
        have hkey : (1 : ℚ) / 10 ^ 12 ≤
            (coord pts ext.maxVx 0 - coord pts ext.minVx 0) ^ 2 +
            (coord pts ext.maxVx 1 - coord pts ext.minVx 1) ^ 2 +
            (coord pts ext.maxVx 2 - coord pts ext.minVx 2) ^ 2 := by
          nlinarith [sq_nonneg (coord pts ext.maxVx 1 - coord pts ext.minVx 1),
            sq_nonneg (coord pts ext.maxVx 2 - coord pts ext.minVx 2),
            sq_nonneg (coord pts ext.maxVx 0 - coord pts ext.minVx 0 - 1 / 10 ^ 6),
            e1, e2, ht]
        have hz : v2Search st1 ext.minVx ext.maxVx = (0, none) := by
          apply v2Search_eq_none
          intro v hv hne0 hne1
          have hvn : v < pts.length / 3 := hvs v hv
          rw [hidx1 v hvn, hidx1 _ hm0.1, hidx1 _ hM0.1]
          exact distanceToLineSquared_zero pts (pts.length / 3) v ext.minVx ext.maxVx
            hvn hm0.1 hM0.1 hcol hkey
        show (v2Search st1 ext.minVx ext.maxVx).2 = none
        rw [hz]
      · have e1 : coord pts ext.minVy 1 = ext.minY.toRat := (congrArg Q.toRat hm1.2.1).symm
        have e2 : coord pts ext.maxVy 1 = ext.maxY.toRat := (congrArg Q.toRat hM1.2.1).symm
        have hle : ext.minY.toRat ≤ ext.maxY.toRat := le_trans hm1.2.2.1 hM1.2.2.1
        have habs : (1 : ℚ) / 10 ^ 6 ≤ |(seedDelta st1 ext 1).toRat| := by
          rw [← Q.toRat_qabs, ← hvchar]; exact hval6
        have ht : (1 : ℚ) / 10 ^ 6 ≤ ext.maxY.toRat - ext.minY.toRat := by
          rw [hd1, abs_sub_comm, abs_of_nonneg (by linarith)] at habs
          exact habs
        have hkey : (1 : ℚ) / 10 ^ 12 ≤
            (coord pts ext.maxVy 0 - coord pts ext.minVy 0) ^ 2 +
            (coord pts ext.maxVy 1 - coord pts ext.minVy 1) ^ 2 +
            (coord pts ext.maxVy 2 - coord pts ext.minVy 2) ^ 2 := by
          nlinarith [sq_nonneg (coord pts ext.maxVy 0 - coord pts ext.minVy 0),
            sq_nonneg (coord pts ext.maxVy 2 - coord pts ext.minVy 2),
            sq_nonneg (coord pts ext.maxVy 1 - coord pts ext.minVy 1 - 1 / 10 ^ 6),
            e1, e2, ht]
        have hz : v2Search st1 ext.minVy ext.maxVy = (0, none) := by
          apply v2Search_eq_none
          intro v hv hne0 hne1
          have hvn : v < pts.length / 3 := hvs v hv
          rw [hidx1 v hvn, hidx1 _ hm1.1, hidx1 _ hM1.1]
          exact distanceToLineSquared_zero pts (pts.length / 3) v ext.minVy ext.maxVy
            hvn hm1.1 hM1.1 hcol hkey
        show (v2Search st1 ext.minVy ext.maxVy).2 = none
        rw [hz]
      · have e1 : coord pts ext.minVz 2 = ext.minZ.toRat := (congrArg Q.toRat hm2.2.1).symm
        have e2 : coord pts ext.maxVz 2 = ext.maxZ.toRat := (congrArg Q.toRat hM2.2.1).symm
        have hle : ext.minZ.toRat ≤ ext.maxZ.toRat := le_trans hm2.2.2.1 hM2.2.2.1
        have habs : (1 : ℚ) / 10 ^ 6 ≤ |(seedDelta st1 ext 2).toRat| := by
          rw [← Q.toRat_qabs, ← hvchar]; exact hval6
        have ht : (1 : ℚ) / 10 ^ 6 ≤ ext.maxZ.toRat - ext.minZ.toRat := by
          rw [hd2, abs_sub_comm, abs_of_nonneg (by linarith)] at habs
          exact habs
        have hkey : (1 : ℚ) / 10 ^ 12 ≤
            (coord pts ext.maxVz 0 - coord pts ext.minVz 0) ^ 2 +
            (coord pts ext.maxVz 1 - coord pts ext.minVz 1) ^ 2 +
            (coord pts ext.maxVz 2 - coord pts ext.minVz 2) ^ 2 := by
          nlinarith [sq_nonneg (coord pts ext.maxVz 0 - coord pts ext.minVz 0),
            sq_nonneg (coord pts ext.maxVz 1 - coord pts ext.minVz 1),
            sq_nonneg (coord pts ext.maxVz 2 - coord pts ext.minVz 2 - 1 / 10 ^ 6),
            e1, e2, ht]
        have hz : v2Search st1 ext.minVz ext.maxVz = (0, none) := by
          apply v2Search_eq_none
          intro v hv hne0 hne1
          have hvn : v < pts.length / 3 := hvs v hv
          rw [hidx1 v hvn, hidx1 _ hm2.1, hidx1 _ hM2.1]
          exact distanceToLineSquared_zero pts (pts.length / 3) v ext.minVz ext.maxVz
            hvn hm2.1 hM2.1 hcol hkey
        show (v2Search st1 ext.minVz ext.maxVz).2 = none
        rw [hz]
    rw [hidxv] at hv2
    have hCI : computeInitialHull st0 = st1 := computeInitialHull_eq_of_v2none st0 hv2
    have hnv : nextVertexToAdd st1 = none := nextVertexToAdd_of_empty st1 rfl
    have hq3 : quickhull3 pts = getTriangleIndices (quickhull3State pts) := by
      simp only [quickhull3]
      rw [if_neg hn4]
    rw [hq3,
      show quickhull3State pts =
        reindexFaces (mainLoop (pts.length / 3) (computeInitialHull st0)) from rfl,
      hCI, mainLoop_of_none _ st1 hnv]
    exact getTriangleIndices_of_nil _ rfl

set_option maxRecDepth 100000 in
/-- Counterexample to the coplanar clause of C2: four coplanar points (the
unit square in the `z = 0` plane) do not produce the empty output; the hull is
a double-sided triangulation of the square (four triangles). -/
theorem quickhull3_coplanar_nonempty :
    AllCoplanar [0, 0, 0, 1, 0, 0, 0, 1, 0, 1, 1, 0] 4 ∧
    ([0, 0, 0, 1, 0, 0, 0, 1, 0, 1, 1, 0] : List Q).length / 3 = 4 ∧
    quickhull3 [0, 0, 0, 1, 0, 0, 0, 1, 0, 1, 1, 0] = [0, 2, 1, 3, 0, 1, 3, 1, 2, 3, 2, 0] := by
  refine ⟨?_, rfl, by decide⟩
  intro i j k l hi hj hk hl
  interval_cases i <;> interval_cases j <;> interval_cases k <;> interval_cases l <;> decide

set_option maxRecDepth 100000 in
/-- Witness for `quickhull3_degenerate_empty` at a concrete collinear input
(four points on the `x`-axis). -/
theorem quickhull3_degenerate_empty_witness :
    (AllCollinear [0, 0, 0, 1, 0, 0, 2, 0, 0, 3, 0, 0] 4 ∧
      WellSeparated [0, 0, 0, 1, 0, 0, 2, 0, 0, 3, 0, 0] 4) ∧
    quickhull3 [0, 0, 0, 1, 0, 0, 2, 0, 0, 3, 0, 0] = [] := by
  have hc : AllCollinear [0, 0, 0, 1, 0, 0, 2, 0, 0, 3, 0, 0] 4 := by
    intro i j k hi hj hk
    interval_cases i <;> interval_cases j <;> interval_cases k <;> decide
  have hs : WellSeparated [0, 0, 0, 1, 0, 0, 2, 0, 0, 3, 0, 0] 4 :=
    ⟨0, by norm_num, 0, by norm_num, 1, by norm_num, by decide⟩
  exact ⟨⟨hc, hs⟩, quickhull3_degenerate_empty _ (Or.inr ⟨hc, hs⟩)⟩

theorem retriageSpec_eq_aux (fa : List Face) (pts : List Q) (tol : Q) (vi : Nat)
    (faces : List Nat) :
    retriageSpec fa pts tol vi faces = retriageAux fa pts tol vi faces tol none := rfl

theorem Q.init_le_foldr_qmax (l : List Q) (a : Q) :
    a.toRat ≤ (l.foldr Q.qmax a).toRat := by
  induction l with
  | nil => exact le_refl _
  | cons x t ih =>
    show a.toRat ≤ (Q.qmax x (t.foldr Q.qmax a)).toRat
    rw [Q.toRat_qmax]
    exact le_trans ih (le_max_right _ _)

theorem Q.foldr_qmax_init_lt (l : List Q) (a d : Q) (h : a.toRat < d.toRat) :
    (Q.qmax d (l.foldr Q.qmax a)).toRat = (l.foldr Q.qmax d).toRat := by
  induction l with
  | nil =>
    show (Q.qmax d a).toRat = d.toRat
    rw [Q.toRat_qmax, max_eq_left h.le]
  | cons x t ih =>
    show (Q.qmax d (Q.qmax x (t.foldr Q.qmax a))).toRat =
      (Q.qmax x (t.foldr Q.qmax d)).toRat
    rw [Q.toRat_qmax, Q.toRat_qmax, Q.toRat_qmax, ← ih, Q.toRat_qmax]
    exact max_left_comm _ _ _

theorem Q.foldr_qmax_init_le (l : List Q) (a d : Q) (h : d.toRat ≤ a.toRat) :
    (Q.qmax d (l.foldr Q.qmax a)).toRat = (l.foldr Q.qmax a).toRat := by
  rw [Q.toRat_qmax]
  exact max_eq_right (le_trans h (Q.init_le_foldr_qmax l a))

theorem bool_of_iff {x y : Bool} (h : x = true ↔ y = true) : x = y := by
  cases x <;> cases y <;> simp_all

theorem find?_beq_congr (fa : List Face) (pts : List Q) (vi : Nat) (cs : List Nat)
    (m m' : Q) (h : m.toRat = m'.toRat) :
    (cs.find? fun f => Q.beq (faceDistanceToPoint fa pts f vi) m) =
      (cs.find? fun f => Q.beq (faceDistanceToPoint fa pts f vi) m') := by
  have hp : (fun f => Q.beq (faceDistanceToPoint fa pts f vi) m) =
      (fun f => Q.beq (faceDistanceToPoint fa pts f vi) m') := by
    funext f
    exact bool_of_iff (Q.beq_iff.trans (Iff.trans (by rw [h]) Q.beq_iff.symm))
  rw [hp]

theorem find_core_gt (fa : List Face) (pts : List Q) (vi f : Nat) (cs : List Nat)
    (maxD : Q) (maxF : Option Nat)
    (hd : maxD.toRat < (faceDistanceToPoint fa pts f vi).toRat) :
    (if Q.blt maxD ((List.map (fun g => faceDistanceToPoint fa pts g vi) (f :: cs)).foldr
        Q.qmax maxD)
      then (f :: cs).find? fun g => Q.beq (faceDistanceToPoint fa pts g vi)
        ((List.map (fun g => faceDistanceToPoint fa pts g vi) (f :: cs)).foldr Q.qmax maxD)
      else maxF) =
    (if Q.blt (faceDistanceToPoint fa pts f vi)
        ((List.map (fun g => faceDistanceToPoint fa pts g vi) cs).foldr Q.qmax
          (faceDistanceToPoint fa pts f vi))
      then cs.find? fun g => Q.beq (faceDistanceToPoint fa pts g vi)
        ((List.map (fun g => faceDistanceToPoint fa pts g vi) cs).foldr Q.qmax
          (faceDistanceToPoint fa pts f vi))
      else some f) := by
  have hmap : List.map (fun g => faceDistanceToPoint fa pts g vi) (f :: cs) =
      faceDistanceToPoint fa pts f vi ::
        List.map (fun g => faceDistanceToPoint fa pts g vi) cs := rfl
  rw [hmap, List.foldr_cons]
  set d := faceDistanceToPoint fa pts f vi with hdd
  set L := List.map (fun g => faceDistanceToPoint fa pts g vi) cs with hL
  set ML := Q.qmax d (L.foldr Q.qmax maxD) with hML
  set MR := L.foldr Q.qmax d with hMR
  have hm : ML.toRat = MR.toRat := Q.foldr_qmax_init_lt L maxD d hd
  by_cases hx : d.toRat < MR.toRat
  · have hbR : Q.blt d MR = true := Q.lt_iff.2 hx
    have hbL : Q.blt maxD ML = true := Q.lt_iff.2 (by rw [hm]; exact lt_trans hd hx)
    rw [if_pos hbL, if_pos hbR]
    have hne : ¬ Q.beq (faceDistanceToPoint fa pts f vi) ML = true := fun hb =>
      absurd (Q.beq_iff.1 hb) (by rw [hm]; exact ne_of_lt hx)
    have hstep : List.find? (fun g => Q.beq (faceDistanceToPoint fa pts g vi) ML)
        (f :: cs) = List.find? (fun g => Q.beq (faceDistanceToPoint fa pts g vi) ML) cs :=
      List.find?_cons_of_neg cs hne
    rw [hstep]
    exact find?_beq_congr fa pts vi cs ML MR hm
  · have hMRd : MR.toRat = d.toRat := le_antisymm (not_lt.1 hx) (Q.init_le_foldr_qmax L d)
    have hbR : ¬ Q.blt d MR = true := fun hb =>
      absurd (Q.lt_iff.1 hb) (by rw [hMRd]; exact lt_irrefl _)
    have hbL : Q.blt maxD ML = true := Q.lt_iff.2 (by rw [hm, hMRd]; exact hd)
    rw [if_pos hbL, if_neg hbR]
    have hpe : Q.beq (faceDistanceToPoint fa pts f vi) ML = true :=
      Q.beq_iff.2 (by rw [hm, hMRd])
    have hstep : List.find? (fun g => Q.beq (faceDistanceToPoint fa pts g vi) ML)
        (f :: cs) = some f :=
      List.find?_cons_of_pos cs hpe
    rw [hstep]

theorem find_core_le (fa : List Face) (pts : List Q) (vi f : Nat) (cs : List Nat)
    (maxD : Q) (maxF : Option Nat)
    (hd : (faceDistanceToPoint fa pts f vi).toRat ≤ maxD.toRat) :
    (if Q.blt maxD ((List.map (fun g => faceDistanceToPoint fa pts g vi) (f :: cs)).foldr
        Q.qmax maxD)
      then (f :: cs).find? fun g => Q.beq (faceDistanceToPoint fa pts g vi)
        ((List.map (fun g => faceDistanceToPoint fa pts g vi) (f :: cs)).foldr Q.qmax maxD)
      else maxF) =
    (if Q.blt maxD ((List.map (fun g => faceDistanceToPoint fa pts g vi) cs).foldr
        Q.qmax maxD)
      then cs.find? fun g => Q.beq (faceDistanceToPoint fa pts g vi)
        ((List.map (fun g => faceDistanceToPoint fa pts g vi) cs).foldr Q.qmax maxD)
      else maxF) := by
  have hmap : List.map (fun g => faceDistanceToPoint fa pts g vi) (f :: cs) =
      faceDistanceToPoint fa pts f vi ::
        List.map (fun g => faceDistanceToPoint fa pts g vi) cs := rfl
  rw [hmap, List.foldr_cons]
  set d := faceDistanceToPoint fa pts f vi with hdd
  set L := List.map (fun g => faceDistanceToPoint fa pts g vi) cs with hL
  set ML := Q.qmax d (L.foldr Q.qmax maxD) with hML
  set MR := L.foldr Q.qmax maxD with hMR
  have hm : ML.toRat = MR.toRat := Q.foldr_qmax_init_le L maxD d hd
  by_cases hx : maxD.toRat < MR.toRat
  · have hbR : Q.blt maxD MR = true := Q.lt_iff.2 hx
    have hbL : Q.blt maxD ML = true := Q.lt_iff.2 (by rw [hm]; exact hx)
    rw [if_pos hbL, if_pos hbR]
    have hne : ¬ Q.beq (faceDistanceToPoint fa pts f vi) ML = true := fun hb =>
      absurd (Q.beq_iff.1 hb) (by rw [hm]; exact ne_of_lt (lt_of_le_of_lt hd hx))
    have hstep : List.find? (fun g => Q.beq (faceDistanceToPoint fa pts g vi) ML)
        (f :: cs) = List.find? (fun g => Q.beq (faceDistanceToPoint fa pts g vi) ML) cs :=
      List.find?_cons_of_neg cs hne
    rw [hstep]
    exact find?_beq_congr fa pts vi cs ML MR hm
  · have hbR : ¬ Q.blt maxD MR = true := fun hb => absurd (Q.lt_iff.1 hb) hx
    have hbL : ¬ Q.blt maxD ML = true := fun hb =>
      absurd (Q.lt_iff.1 hb) (by rw [hm]; exact hx)
    rw [if_neg hbL, if_neg hbR]

theorem retriageAux_cons_vis (fa : List Face) (pts : List Q) (tol : Q) (vi f : Nat)
    (rest : List Nat) (maxD : Q) (maxF : Option Nat)
    (hvis : (fget fa f).mark = VISIBLE)
    (hno : ¬ Q.blt (1000 * tol) (faceDistanceToPoint fa pts f vi) = true) :
    ∃ cs : List Nat,
      (retriageAux fa pts tol vi (f :: rest) maxD maxF =
        if Q.blt maxD ((List.map (fun g => faceDistanceToPoint fa pts g vi) (f :: cs)).foldr
            Q.qmax maxD)
        then (f :: cs).find? fun g => Q.beq (faceDistanceToPoint fa pts g vi)
          ((List.map (fun g => faceDistanceToPoint fa pts g vi) (f :: cs)).foldr Q.qmax maxD)
        else maxF) ∧
      ∀ (d : Q) (mF : Option Nat),
        retriageAux fa pts tol vi rest d mF =
          if Q.blt d ((List.map (fun g => faceDistanceToPoint fa pts g vi) cs).foldr
              Q.qmax d)
          then cs.find? fun g => Q.beq (faceDistanceToPoint fa pts g vi)
            ((List.map (fun g => faceDistanceToPoint fa pts g vi) cs).foldr Q.qmax d)
          else mF := by
  have hb : decide ((fget fa f).mark = VISIBLE) = true := decide_eq_true hvis
  rcases hfi : List.findIdx?
      (fun g => Q.blt (1000 * tol) (faceDistanceToPoint fa pts g vi))
      (List.filter (fun g => decide ((fget fa g).mark = VISIBLE)) rest) with _ | i
  · refine ⟨List.filter (fun g => decide ((fget fa g).mark = VISIBLE)) rest, ?_, ?_⟩
    · simp only [retriageAux, List.filter_cons, hb, if_true, List.findIdx?_cons]
      rw [if_neg hno, List.findIdx?_succ, hfi]
      rfl
    · intro d mF
      simp only [retriageAux]
      rw [hfi]
  · refine ⟨(List.filter (fun g => decide ((fget fa g).mark = VISIBLE)) rest).take (i + 1),
      ?_, ?_⟩
    · simp only [retriageAux, List.filter_cons, hb, if_true, List.findIdx?_cons]
      rw [if_neg hno, List.findIdx?_succ, hfi]
      rfl
    · intro d mF
      simp only [retriageAux]
      rw [hfi]

theorem retriageAux_cons_invis (fa : List Face) (pts : List Q) (tol : Q) (vi f : Nat)
    (rest : List Nat) (maxD : Q) (maxF : Option Nat)
    (hvis : ¬ (fget fa f).mark = VISIBLE) :
    retriageAux fa pts tol vi (f :: rest) maxD maxF =
      retriageAux fa pts tol vi rest maxD maxF := by
  have hb : decide ((fget fa f).mark = VISIBLE) = false :=
    decide_eq_false hvis
  simp only [retriageAux, List.filter_cons, hb, Bool.false_eq_true, if_false]

theorem retriageAux_cons_vis_break (fa : List Face) (pts : List Q) (tol : Q) (vi f : Nat)
    (rest : List Nat) (maxD : Q) (maxF : Option Nat)
    (hvis : (fget fa f).mark = VISIBLE)
    (hyes : Q.blt (1000 * tol) (faceDistanceToPoint fa pts f vi) = true)
    (hd : maxD.toRat < (faceDistanceToPoint fa pts f vi).toRat) :
    retriageAux fa pts tol vi (f :: rest) maxD maxF = some f := by
  simp only [retriageAux, List.filter_cons, decide_eq_true hvis, if_true,
    List.findIdx?_cons, hyes]
  show (if Q.blt maxD (Q.qmax (faceDistanceToPoint fa pts f vi) maxD)
      then List.find? (fun g => Q.beq (faceDistanceToPoint fa pts g vi)
        (Q.qmax (faceDistanceToPoint fa pts f vi) maxD)) [f]
      else maxF) = some f
  have hmv : (Q.qmax (faceDistanceToPoint fa pts f vi) maxD).toRat =
      (faceDistanceToPoint fa pts f vi).toRat := by
    rw [Q.toRat_qmax]
    exact max_eq_left hd.le
  rw [if_pos (show Q.blt maxD (Q.qmax (faceDistanceToPoint fa pts f vi) maxD) = true from
    Q.lt_iff.2 (by rw [hmv]; exact hd))]
  have hpe : Q.beq (faceDistanceToPoint fa pts f vi)
      (Q.qmax (faceDistanceToPoint fa pts f vi) maxD) = true :=
    Q.beq_iff.2 hmv.symm
  have hstep : List.find? (fun g => Q.beq (faceDistanceToPoint fa pts g vi)
      (Q.qmax (faceDistanceToPoint fa pts f vi) maxD)) [f] = some f :=
    List.find?_cons_of_pos [] hpe
  exact hstep

theorem triageLoop_eq_retriageAux (st : HullState) (vi : Nat) :
    ∀ (faces : List Nat) (maxD : Q) (maxF : Option Nat),
      maxD.toRat ≤ ((1000 * st.tolerance : Q)).toRat →
      (triageLoop st vi faces maxD maxF).2 =
        retriageAux st.farena st.points st.tolerance vi faces maxD maxF := by
  intro faces
  induction faces with
  | nil =>
    intro maxD maxF hinv
    show maxF = _
    simp only [retriageAux, List.filter_nil, List.findIdx?_nil, List.map_nil,
      List.foldr_nil]
    rw [if_neg (show ¬ Q.blt maxD maxD = true from fun hb =>
      absurd (Q.lt_iff.1 hb) (lt_irrefl _))]
  | cons f rest ih =>
    intro maxD maxF hinv
    have hT : triageLoop st vi (f :: rest) maxD maxF =
        if (fget st.farena f).mark = VISIBLE then
          (if (if faceDistanceToPoint st.farena st.points f vi > maxD
                then (faceDistanceToPoint st.farena st.points f vi, some f)
                else (maxD, maxF)).1 > 1000 * st.tolerance
            then (if faceDistanceToPoint st.farena st.points f vi > maxD
                then (faceDistanceToPoint st.farena st.points f vi, some f)
                else (maxD, maxF))
            else triageLoop st vi rest
              (if faceDistanceToPoint st.farena st.points f vi > maxD
                then (faceDistanceToPoint st.farena st.points f vi, some f)
                else (maxD, maxF)).1
              (if faceDistanceToPoint st.farena st.points f vi > maxD
                then (faceDistanceToPoint st.farena st.points f vi, some f)
                else (maxD, maxF)).2)
        else triageLoop st vi rest maxD maxF := rfl
    by_cases hvis : (fget st.farena f).mark = VISIBLE
    · rw [hT, if_pos hvis]
      by_cases hd : faceDistanceToPoint st.farena st.points f vi > maxD
      · rw [if_pos hd]
        show (if faceDistanceToPoint st.farena st.points f vi > 1000 * st.tolerance
            then ((faceDistanceToPoint st.farena st.points f vi : Q), some f)
            else triageLoop st vi rest (faceDistanceToPoint st.farena st.points f vi)
              (some f)).2 = _
        by_cases hbr : faceDistanceToPoint st.farena st.points f vi > 1000 * st.tolerance
        · rw [if_pos hbr]
          show some f = _
          exact (retriageAux_cons_vis_break st.farena st.points st.tolerance vi f rest
            maxD maxF hvis hbr (Q.lt_iff.1 hd)).symm
        · rw [if_neg hbr]
          show (triageLoop st vi rest (faceDistanceToPoint st.farena st.points f vi)
            (some f)).2 = _
          have hinv' : (faceDistanceToPoint st.farena st.points f vi).toRat ≤
              ((1000 * st.tolerance : Q)).toRat :=
            not_lt.1 ((not_iff_not.2 Q.lt_iff).1 hbr)
          rw [ih (faceDistanceToPoint st.farena st.points f vi) (some f) hinv']
          obtain ⟨cs, hcons, hrest⟩ := retriageAux_cons_vis st.farena st.points
            st.tolerance vi f rest maxD maxF hvis hbr
          rw [hcons, hrest (faceDistanceToPoint st.farena st.points f vi) (some f)]
          exact (find_core_gt st.farena st.points vi f cs maxD maxF (Q.lt_iff.1 hd)).symm
      · rw [if_neg hd]
        show (if maxD > 1000 * st.tolerance then ((maxD : Q), maxF)
            else triageLoop st vi rest maxD maxF).2 = _
        have hnb : ¬ maxD > 1000 * st.tolerance := fun hc =>
          absurd (Q.lt_iff.1 hc) (not_lt.2 hinv)
        rw [if_neg hnb]
        show (triageLoop st vi rest maxD maxF).2 = _
        rw [ih maxD maxF hinv]
        have hdle : (faceDistanceToPoint st.farena st.points f vi).toRat ≤ maxD.toRat :=
          not_lt.1 ((not_iff_not.2 Q.lt_iff).1 hd)
        have hno : ¬ Q.blt (1000 * st.tolerance)
            (faceDistanceToPoint st.farena st.points f vi) = true := fun hc =>
          absurd (Q.lt_iff.1 hc) (not_lt.2 (le_trans hdle hinv))
        obtain ⟨cs, hcons, hrest⟩ := retriageAux_cons_vis st.farena st.points
          st.tolerance vi f rest maxD maxF hvis hno
        rw [hcons, hrest maxD maxF]
        exact (find_core_le st.farena st.points vi f cs maxD maxF hdle).symm
    · rw [hT, if_neg hvis, ih maxD maxF hinv]
      exact (retriageAux_cons_invis st.farena st.points st.tolerance vi f rest maxD maxF
        hvis).symm

/-- C3 (amended): with a nonnegative tolerance, the re-triage scan selects the
first visible new face attaining the maximal distance among the faces
considered (the scan short-circuits after the first distance exceeding
`1000 ×` tolerance), provided that maximum exceeds the tolerance — not the
first face exceeding the tolerance; and each unassigned vertex is reassigned
to exactly that face, or to no face when every considered distance is within
tolerance. -/
theorem resolve_retriage_argmax (st : HullState) (newFaces : List Nat)
    (fuel v : Nat) (htol : Q.ble 0 st.tolerance = true) :
    (triageLoop st v newFaces st.tolerance none).2 =
      retriageSpec st.farena st.points st.tolerance v newFaces ∧
    resolveLoop newFaces (fuel + 1) st (some v) =
      resolveLoop newFaces fuel
        (match retriageSpec st.farena st.points st.tolerance v newFaces with
          | some f => addVertexToFace st v f
          | none => st) ((vget st.varena v).next) := by
  have htolR : (0 : ℚ) ≤ st.tolerance.toRat := by
    have h := Q.le_iff.1 htol
    rwa [Q.toRat_zero] at h
  have h1000 : st.tolerance.toRat ≤ ((1000 * st.tolerance : Q)).toRat := by
    have hm : ((1000 * st.tolerance : Q)).toRat = 1000 * st.tolerance.toRat := by
      rw [Q.toRat_mul, show ((1000 : Q)).toRat = 1000 from by
        rw [show (1000 : Q) = ⟨1000, 0⟩ from rfl, Q.toRat_mk]; norm_num]
    rw [hm]
    linarith
  have h1 := triageLoop_eq_retriageAux st v newFaces st.tolerance none h1000
  rw [retriageSpec_eq_aux]
  refine ⟨h1, ?_⟩
  have hR : resolveLoop newFaces (fuel + 1) st (some v) =
      resolveLoop newFaces fuel
        (match (triageLoop st v newFaces st.tolerance none).2 with
          | some f => addVertexToFace st v f
          | none => st) ((vget st.varena v).next) := rfl
  rw [hR, h1]

/-- Counterexample to C3's "first face found exceeding tolerance": with both
faces of `retriageExample` beyond tolerance (distances `2` and `5`), the scan
reassigns the vertex to face `1` (the maximal distance), while the first face
exceeding the tolerance is face `0`. -/
theorem retriage_not_first_exceeding :
    (triageLoop retriageExample 0 [0, 1] retriageExample.tolerance none).2 = some 1 ∧
    firstExceedingSpec retriageExample.farena retriageExample.points
      retriageExample.tolerance 0 [0, 1] = some 0 := by decide

/-- Witness for `resolve_retriage_argmax` at the concrete two-face state. -/
theorem resolve_retriage_argmax_witness :
    Q.ble 0 retriageExample.tolerance = true ∧
    ((triageLoop retriageExample 0 [0, 1] retriageExample.tolerance none).2 =
        retriageSpec retriageExample.farena retriageExample.points
          retriageExample.tolerance 0 [0, 1] ∧
      resolveLoop [0, 1] 1 retriageExample (some 0) =
        resolveLoop [0, 1] 0
          (match retriageSpec retriageExample.farena retriageExample.points
              retriageExample.tolerance 0 [0, 1] with
            | some f => addVertexToFace retriageExample 0 f
            | none => retriageExample) ((vget retriageExample.varena 0).next)) :=
  ⟨by decide, resolve_retriage_argmax retriageExample [0, 1] 0 0 (by decide)⟩

theorem initialSelectLoop_le (st : HullState) (vi : Nat) :
    ∀ (faces : List Nat) (maxD : Q) (maxF : Option Nat),
      (∀ f ∈ faces, (faceDistanceToPoint st.farena st.points f vi).toRat ≤ maxD.toRat) →
      initialSelectLoop st vi faces maxD maxF = (maxD, maxF) := by
  intro faces
  induction faces with
  | nil => intro maxD maxF _; rfl
  | cons f rest ih =>
    intro maxD maxF h
    have hf := h f (List.mem_cons_self f rest)
    have hT : initialSelectLoop st vi (f :: rest) maxD maxF =
        initialSelectLoop st vi rest
          (if faceDistanceToPoint st.farena st.points f vi > maxD
            then (faceDistanceToPoint st.farena st.points f vi, some f)
            else (maxD, maxF)).1
          (if faceDistanceToPoint st.farena st.points f vi > maxD
            then (faceDistanceToPoint st.farena st.points f vi, some f)
            else (maxD, maxF)).2 := rfl
    rw [hT, if_neg (fun hc => absurd (Q.lt_iff.1 hc) (not_lt.2 hf))]
    exact ih maxD maxF fun g hg => h g (List.mem_cons_of_mem f hg)

theorem triageLoop_le (st : HullState) (vi : Nat) :
    ∀ (faces : List Nat) (maxD : Q) (maxF : Option Nat),
      (∀ f ∈ faces, (faceDistanceToPoint st.farena st.points f vi).toRat ≤ maxD.toRat) →
      maxD.toRat ≤ ((1000 * st.tolerance : Q)).toRat →
      triageLoop st vi faces maxD maxF = (maxD, maxF) := by
  intro faces
  induction faces with
  | nil => intro maxD maxF _ _; rfl
  | cons f rest ih =>
    intro maxD maxF h hinv
    have hf := h f (List.mem_cons_self f rest)
    have hT : triageLoop st vi (f :: rest) maxD maxF =
        if (fget st.farena f).mark = VISIBLE then
          (if (if faceDistanceToPoint st.farena st.points f vi > maxD
                then (faceDistanceToPoint st.farena st.points f vi, some f)
                else (maxD, maxF)).1 > 1000 * st.tolerance
            then (if faceDistanceToPoint st.farena st.points f vi > maxD
                then (faceDistanceToPoint st.farena st.points f vi, some f)
                else (maxD, maxF))
            else triageLoop st vi rest
              (if faceDistanceToPoint st.farena st.points f vi > maxD
                then (faceDistanceToPoint st.farena st.points f vi, some f)
                else (maxD, maxF)).1
              (if faceDistanceToPoint st.farena st.points f vi > maxD
                then (faceDistanceToPoint st.farena st.points f vi, some f)
                else (maxD, maxF)).2)
        else triageLoop st vi rest maxD maxF := rfl
    rw [hT]
    have hrest := fun g hg => h g (List.mem_cons_of_mem f hg)
    by_cases hvis : (fget st.farena f).mark = VISIBLE
    · rw [if_pos hvis, if_neg (fun hc => absurd (Q.lt_iff.1 hc) (not_lt.2 hf))]
      show (if maxD > 1000 * st.tolerance then ((maxD : Q), maxF)
          else triageLoop st vi rest maxD maxF) = (maxD, maxF)
      rw [if_neg (fun hc => absurd (Q.lt_iff.1 hc) (not_lt.2 hinv))]
      exact ih maxD maxF hrest hinv
    · rw [if_neg hvis]
      exact ih maxD maxF hrest hinv

set_option maxHeartbeats 800000 in
/-- C5: a point whose signed distance to a face is less than or equal to the
tolerance — including one exactly at the tolerance — is treated as inside at
each classification site: the initial-assignment scan and the re-triage scan
select no face (the vertex is added to no outside list), and the absorption
step of `deleteFaceVertices` appends the vertex to the unassigned list instead
of the absorbing face's outside list; only a strictly greater distance counts
as outside. -/
theorem boundary_point_inside (st : HullState) (vi v af fuel : Nat)
    (faces : List Nat)
    (hall : ∀ f ∈ faces,
      Q.ble (faceDistanceToPoint st.farena st.points f vi) st.tolerance = true)
    (htol : Q.ble 0 st.tolerance = true)
    (habs : Q.ble (faceDistanceToPoint st.farena st.points af v) st.tolerance = true) :
    initialSelectLoop st vi faces st.tolerance none = (st.tolerance, none) ∧
    triageLoop st vi faces st.tolerance none = (st.tolerance, none) ∧
    absorbLoop af (fuel + 1) st (some v) =
      absorbLoop af fuel
        { st with
            varena := (vertexListAppend st.varena st.unassigned v).1
            unassigned := (vertexListAppend st.varena st.unassigned v).2 }
        ((vget st.varena v).next) := by
  have htolR : (0 : ℚ) ≤ st.tolerance.toRat := by
    have h := Q.le_iff.1 htol
    rwa [Q.toRat_zero] at h
  have h1000 : st.tolerance.toRat ≤ ((1000 * st.tolerance : Q)).toRat := by
    have hm : ((1000 * st.tolerance : Q)).toRat = 1000 * st.tolerance.toRat := by
      rw [Q.toRat_mul, show ((1000 : Q)).toRat = 1000 from by
        rw [show (1000 : Q) = ⟨1000, 0⟩ from rfl, Q.toRat_mk]; norm_num]
    rw [hm]
    linarith
  refine ⟨initialSelectLoop_le st vi faces st.tolerance none
      (fun f hf => Q.le_iff.1 (hall f hf)),
    triageLoop_le st vi faces st.tolerance none
      (fun f hf => Q.le_iff.1 (hall f hf)) h1000, ?_⟩
  have hstep : absorbLoop af (fuel + 1) st (some v) =
      absorbLoop af fuel
        (if faceDistanceToPoint st.farena st.points af v > st.tolerance
          then addVertexToFace st v af
          else
            { st with
                varena := (vertexListAppend st.varena st.unassigned v).1
                unassigned := (vertexListAppend st.varena st.unassigned v).2 })
        ((vget st.varena v).next) := rfl
  rw [hstep, if_neg (fun hc => absurd (Q.lt_iff.1 hc) (not_lt.2 (Q.le_iff.1 habs)))]

/-- Witness for `boundary_point_inside` at a state whose single point is at
distance exactly the tolerance (`1`) from the only face. -/
theorem boundary_point_inside_witness :
    (∀ f ∈ [0],
      Q.ble (faceDistanceToPoint boundaryExample.farena boundaryExample.points f 0)
        boundaryExample.tolerance = true) ∧
    Q.ble 0 boundaryExample.tolerance = true ∧
    Q.ble (faceDistanceToPoint boundaryExample.farena boundaryExample.points 0 0)
      boundaryExample.tolerance = true ∧
    (initialSelectLoop boundaryExample 0 [0] boundaryExample.tolerance none =
        (boundaryExample.tolerance, none) ∧
      triageLoop boundaryExample 0 [0] boundaryExample.tolerance none =
        (boundaryExample.tolerance, none) ∧
      absorbLoop 0 1 boundaryExample (some 0) =
        absorbLoop 0 0
          { boundaryExample with
              varena := (vertexListAppend boundaryExample.varena
                boundaryExample.unassigned 0).1
              unassigned := (vertexListAppend boundaryExample.varena
                boundaryExample.unassigned 0).2 }
          ((vget boundaryExample.varena 0).next)) :=
  ⟨by decide, by decide, by decide,
    boundary_point_inside boundaryExample 0 0 0 0 [0] (by decide) (by decide) (by decide)⟩

theorem eget_append (ea L : List HalfEdge) (i : Nat) (_h : i < L.length) :
    eget (ea ++ L) (ea.length + i) = L.getD i default := by
  show (ea ++ L).getD (ea.length + i) default = L.getD i default
  rw [List.getD_eq_getElem?_getD, List.getD_eq_getElem?_getD,
    List.getElem?_append_right (Nat.le_add_right _ _), Nat.add_sub_cancel_left]

set_option maxHeartbeats 800000 in
/-- C7 (amended): the three half-edges allocated by `faceCreate` form a closed
`next`/`prev` cycle of length 3 (following `next` from each of the three edges
steps through the other two and back), and `halfEdgeSetTwin` leaves the two
edges it links as mutual twins. The claim's universal clause — that every
half-edge with a set twin satisfies `twin.twin` equal to itself at every point
of construction — fails for edges of DELETED faces, whose partners are
re-twinned to newer edges (see the concrete run in the counterexample). -/
theorem faceCreate_cycle_setTwin (fa : List Face) (ea ea2 : List HalfEdge)
    (a b c e t : Nat) (he : e < ea2.length) (ht : t < ea2.length) (hne : e ≠ t) :
    ((eget (faceCreate fa ea a b c).2.1 ea.length).next = some (ea.length + 1) ∧
      (eget (faceCreate fa ea a b c).2.1 (ea.length + 1)).next = some (ea.length + 2) ∧
      (eget (faceCreate fa ea a b c).2.1 (ea.length + 2)).next = some ea.length ∧
      (eget (faceCreate fa ea a b c).2.1 ea.length).prev = some (ea.length + 2) ∧
      (eget (faceCreate fa ea a b c).2.1 (ea.length + 1)).prev = some ea.length ∧
      (eget (faceCreate fa ea a b c).2.1 (ea.length + 2)).prev = some (ea.length + 1)) ∧
    ((eget (halfEdgeSetTwin ea2 e t) e).twin = some t ∧
      (eget (halfEdgeSetTwin ea2 e t) t).twin = some e) := by
  constructor
  · have h0 : eget (faceCreate fa ea a b c).2.1 ea.length =
        { vertex := a, prev := some (ea.length + 2), next := some (ea.length + 1),
          twin := none, face := fa.length } := by
      have h := eget_append ea
        [ { vertex := a, prev := some (ea.length + 2), next := some (ea.length + 1),
            twin := none, face := fa.length },
          { vertex := b, prev := some ea.length, next := some (ea.length + 2),
            twin := none, face := fa.length },
          { vertex := c, prev := some (ea.length + 1), next := some ea.length,
            twin := none, face := fa.length } ] 0 (by norm_num)
      simpa using h
    have h1 : eget (faceCreate fa ea a b c).2.1 (ea.length + 1) =
        { vertex := b, prev := some ea.length, next := some (ea.length + 2),
          twin := none, face := fa.length } := by
      have h := eget_append ea
        [ { vertex := a, prev := some (ea.length + 2), next := some (ea.length + 1),
            twin := none, face := fa.length },
          { vertex := b, prev := some ea.length, next := some (ea.length + 2),
            twin := none, face := fa.length },
          { vertex := c, prev := some (ea.length + 1), next := some ea.length,
            twin := none, face := fa.length } ] 1 (by norm_num)
      simpa using h
    have h2 : eget (faceCreate fa ea a b c).2.1 (ea.length + 2) =
        { vertex := c, prev := some (ea.length + 1), next := some ea.length,
          twin := none, face := fa.length } := by
      have h := eget_append ea
        [ { vertex := a, prev := some (ea.length + 2), next := some (ea.length + 1),
            twin := none, face := fa.length },
          { vertex := b, prev := some ea.length, next := some (ea.length + 2),
            twin := none, face := fa.length },
          { vertex := c, prev := some (ea.length + 1), next := some ea.length,
            twin := none, face := fa.length } ] 2 (by norm_num)
      simpa using h
    exact ⟨by rw [h0], by rw [h1], by rw [h2], by rw [h0], by rw [h1], by rw [h2]⟩
  · have hlen : e < (eset ea2 e { eget ea2 e with twin := some t }).length := by
      show e < (ea2.set e _).length
      rw [List.length_set]
      exact he
    have hlen2 : t < (eset ea2 e { eget ea2 e with twin := some t }).length := by
      show t < (ea2.set e _).length
      rw [List.length_set]
      exact ht
    constructor
    · show (eget (eset (eset ea2 e { eget ea2 e with twin := some t }) t
        { eget (eset ea2 e { eget ea2 e with twin := some t }) t with twin := some e })
          e).twin = some t
      rw [eget_eset_ne _ t e _ (Ne.symm hne), eget_eset_self _ e _ he]
    · show (eget (eset (eset ea2 e { eget ea2 e with twin := some t }) t
        { eget (eset ea2 e { eget ea2 e with twin := some t }) t with twin := some e })
          t).twin = some e
      rw [eget_eset_self _ t _ hlen2]

set_option maxRecDepth 100000 in
/-- Counterexample to C7's universal twin clause: in the final state of a run
on five points, edge `3` (on a DELETED face) still points to twin `7`, but
edge `7` has been re-twinned to edge `14`, so `twin.twin` of edge `3` is not
edge `3`. -/
theorem quickhull3_stale_twin :
    (eget (quickhull3State [0, 0, 0, 1, 0, 0, 0, 1, 0, 0, 0, 2, 0, 3, 4]).earena 3).twin =
      some 7 ∧
    (eget (quickhull3State [0, 0, 0, 1, 0, 0, 0, 1, 0, 0, 0, 2, 0, 3, 4]).earena 7).twin =
      some 14 ∧
    (fget (quickhull3State [0, 0, 0, 1, 0, 0, 0, 1, 0, 0, 0, 2, 0, 3, 4]).farena
        (eget (quickhull3State [0, 0, 0, 1, 0, 0, 0, 1, 0, 0, 0, 2, 0, 3, 4]).earena
          3).face).mark = DELETED := by
  decide

/-- Witness for `faceCreate_cycle_setTwin` on empty arenas and a two-edge
arena. -/
theorem faceCreate_cycle_setTwin_witness :
    ((0 : Nat) <
        ([ { vertex := 0, prev := none, next := none, twin := none, face := 0 },
          { vertex := 1, prev := none, next := none, twin := none, face := 0 } ] :
            List HalfEdge).length ∧
      (1 : Nat) <
        ([ { vertex := 0, prev := none, next := none, twin := none, face := 0 },
          { vertex := 1, prev := none, next := none, twin := none, face := 0 } ] :
            List HalfEdge).length ∧
      (0 : Nat) ≠ 1) ∧
    (((eget (faceCreate [] [] 0 1 2).2.1 (List.length ([] : List HalfEdge))).next =
        some (List.length ([] : List HalfEdge) + 1) ∧
      (eget (faceCreate [] [] 0 1 2).2.1 (List.length ([] : List HalfEdge) + 1)).next =
        some (List.length ([] : List HalfEdge) + 2) ∧
      (eget (faceCreate [] [] 0 1 2).2.1 (List.length ([] : List HalfEdge) + 2)).next =
        some (List.length ([] : List HalfEdge)) ∧
      (eget (faceCreate [] [] 0 1 2).2.1 (List.length ([] : List HalfEdge))).prev =
        some (List.length ([] : List HalfEdge) + 2) ∧
      (eget (faceCreate [] [] 0 1 2).2.1 (List.length ([] : List HalfEdge) + 1)).prev =
        some (List.length ([] : List HalfEdge)) ∧
      (eget (faceCreate [] [] 0 1 2).2.1 (List.length ([] : List HalfEdge) + 2)).prev =
        some (List.length ([] : List HalfEdge) + 1)) ∧
    ((eget (halfEdgeSetTwin
        [ { vertex := 0, prev := none, next := none, twin := none, face := 0 },
          { vertex := 1, prev := none, next := none, twin := none, face := 0 } ] 0 1)
          0).twin = some 1 ∧
      (eget (halfEdgeSetTwin
        [ { vertex := 0, prev := none, next := none, twin := none, face := 0 },
          { vertex := 1, prev := none, next := none, twin := none, face := 0 } ] 0 1)
          1).twin = some 0)) :=
  ⟨⟨by decide, by decide, by decide⟩,
    faceCreate_cycle_setTwin [] []
      [ { vertex := 0, prev := none, next := none, twin := none, face := 0 },
        { vertex := 1, prev := none, next := none, twin := none, face := 0 } ]
      0 1 2 0 1 (by decide) (by decide) (by decide)⟩

theorem length_vset (a : List VertexNode) (i : Nat) (x : VertexNode) :
    (vset a i x).length = a.length := List.length_set a i x

theorem linkedB_fields (a a' : List VertexNode) :
    ∀ xs : List Nat,
      (∀ x ∈ xs.dropLast, (vget a' x).next = (vget a x).next) →
      (∀ x ∈ xs.tail, (vget a' x).prev = (vget a x).prev) →
      linkedB a' xs = linkedB a xs := by
  intro xs
  induction xs with
  | nil => intro _ _; rfl
  | cons x rest ih =>
    intro hn hp
    cases rest with
    | nil => rfl
    | cons y rest2 =>
      show (((vget a' x).next == some y && (vget a' y).prev == some x) &&
          linkedB a' (y :: rest2)) =
        (((vget a x).next == some y && (vget a y).prev == some x) &&
          linkedB a (y :: rest2))
      rw [hn x (by simp [List.dropLast]), hp y (by simp),
        ih (fun z hz => hn z (by
            rw [List.dropLast_cons₂]
            exact List.mem_cons_of_mem x hz))
          (fun z hz => hp z (List.mem_cons_of_mem y hz))]

theorem linkedB_cons_cons (a : List VertexNode) (x y : Nat) (rest : List Nat) :
    linkedB a (x :: y :: rest) =
      (((vget a x).next == some y && (vget a y).prev == some x) &&
        linkedB a (y :: rest)) := rfl

theorem linkedB_append (a : List VertexNode) :
    ∀ (xs ys : List Nat) (t h : Nat), xs.getLast? = some t → ys.head? = some h →
      (linkedB a (xs ++ ys) = true ↔
        (linkedB a xs = true ∧ linkedB a ys = true ∧
          (vget a t).next = some h ∧ (vget a h).prev = some t)) := by
  intro xs
  induction xs with
  | nil => intro ys t h hlast _; simp at hlast
  | cons x rest ih =>
    intro ys t h hlast hhead
    cases rest with
    | nil =>
      obtain rfl : x = t := by simpa using hlast
      cases ys with
      | nil => simp at hhead
      | cons y ys2 =>
        obtain rfl : y = h := by simpa using hhead
        show (((vget a x).next == some y && (vget a y).prev == some x) &&
            linkedB a (y :: ys2)) = true ↔ _
        constructor
        · intro hb
          simp only [Bool.and_eq_true, beq_iff_eq] at hb
          exact ⟨rfl, hb.2, hb.1.1, hb.1.2⟩
        · intro hb
          simp only [Bool.and_eq_true, beq_iff_eq]
          exact ⟨⟨hb.2.2.1, hb.2.2.2⟩, hb.2.1⟩
    | cons y rest2 =>
      have hlast2 : (y :: rest2).getLast? = some t := by simpa using hlast
      have hrec := ih ys t h hlast2 hhead
      show (((vget a x).next == some y && (vget a y).prev == some x) &&
          linkedB a ((y :: rest2) ++ ys)) = true ↔ _
      rw [Bool.and_eq_true, hrec]
      simp only [linkedB_cons_cons, Bool.and_eq_true]
      tauto

theorem vertexListAppend_WF (a : List VertexNode) (l : VertexList) (xs : List Nat)
    (v : Nat) (hwf : listWF a l xs) (hv : v < a.length) (hnin : v ∉ xs) :
    listWF (vertexListAppend a l v).1 (vertexListAppend a l v).2 (xs ++ [v]) := by
  obtain ⟨hbnd, hnd, hlk, hhd, htl, hhp, hlp⟩ := hwf
  cases xs with
  | nil =>
    have hh : l.head = none := by simpa using hhd
    have ht : l.tail = none := by simpa using htl
    have hop : vertexListAppend a l v =
        (vset a v { vget a v with prev := l.tail, next := none },
          { l with head := some v, tail := some v }) := by
      simp only [vertexListAppend, hh]
    rw [hop]
    refine ⟨?_, by simp, rfl, rfl, rfl, ?_, ?_⟩
    · intro z hz
      rw [length_vset]
      obtain rfl : z = v := by simpa using hz
      exact hv
    · intro z hz
      obtain rfl : v = z := by simpa using hz
      rw [vget_vset_self a v _ hv]
      show l.tail = none
      exact ht
    · intro z hz
      obtain rfl : v = z := by simpa using hz
      rw [vget_vset_self a v _ hv]
  | cons x0 rest =>
    have hh : l.head = some x0 := by simpa using hhd
    have hne : (x0 :: rest) ≠ ([] : List Nat) := by simp
    obtain ⟨t, htq⟩ : ∃ t, (x0 :: rest).getLast? = some t :=
      ⟨(x0 :: rest).getLast hne, List.getLast?_eq_getLast _ hne⟩
    have htl' : l.tail = some t := by rw [htl]; exact htq
    have htmem : t ∈ x0 :: rest := List.mem_of_mem_getLast? htq
    have htb : t < a.length := hbnd t htmem
    have hvt : v ≠ t := fun hc => hnin (hc ▸ htmem)
    have hop : vertexListAppend a l v =
        (vset (vset a t { vget a t with next := some v }) v
            { vget (vset a t { vget a t with next := some v }) v with
                prev := l.tail
                next := none },
          { l with tail := some v }) := by
      simp only [vertexListAppend, hh, htl']
      rfl
    rw [hop]
    have hA1len : (vset a t { vget a t with next := some v }).length = a.length :=
      length_vset a t _
    have hvlt : v < (vset a t { vget a t with next := some v }).length := by
      rw [hA1len]; exact hv
    have hA2v : vget (vset (vset a t { vget a t with next := some v }) v
        { vget (vset a t { vget a t with next := some v }) v with
            prev := l.tail
            next := none }) v =
        { vget (vset a t { vget a t with next := some v }) v with
            prev := l.tail
            next := none } :=
      vget_vset_self _ v _ hvlt
    have hA2ne : ∀ z, z ≠ v → vget (vset (vset a t { vget a t with next := some v }) v
        { vget (vset a t { vget a t with next := some v }) v with
            prev := l.tail
            next := none }) z = vget (vset a t { vget a t with next := some v }) z :=
      fun z hz => vget_vset_ne _ v z _ fun hc => hz hc.symm
    have hA1t : vget (vset a t { vget a t with next := some v }) t =
        { vget a t with next := some v } := vget_vset_self a t _ htb
    have hA1ne : ∀ z, z ≠ t → vget (vset a t { vget a t with next := some v }) z =
        vget a z := fun z hz => vget_vset_ne a t z _ fun hc => hz hc.symm
    have hprev_all : ∀ z ∈ x0 :: rest,
        (vget (vset (vset a t { vget a t with next := some v }) v
          { vget (vset a t { vget a t with next := some v }) v with
              prev := l.tail
              next := none }) z).prev = (vget a z).prev := by
      intro z hz
      have hzv : z ≠ v := fun hc => hnin (hc ▸ hz)
      rw [hA2ne z hzv]
      by_cases hzt : z = t
      · subst hzt
        rw [hA1t]
      · rw [hA1ne z hzt]
    have htgl : t = (x0 :: rest).getLast hne := by
      have := List.getLast?_eq_getLast (x0 :: rest) hne
      rw [htq] at this
      exact Option.some_injective _ this
    have htnd : t ∉ (x0 :: rest).dropLast := by
      intro hmem
      have hsplit : (x0 :: rest).dropLast ++ [t] = x0 :: rest := by
        rw [htgl]
        exact List.dropLast_concat_getLast hne
      have hnd2 : ((x0 :: rest).dropLast ++ [t]).Nodup := by rw [hsplit]; exact hnd
      rw [List.nodup_append] at hnd2
      exact hnd2.2.2 hmem (by simp)
    have hnext_dl : ∀ z ∈ (x0 :: rest).dropLast,
        (vget (vset (vset a t { vget a t with next := some v }) v
          { vget (vset a t { vget a t with next := some v }) v with
              prev := l.tail
              next := none }) z).next = (vget a z).next := by
      intro z hz
      have hzmem : z ∈ x0 :: rest := List.dropLast_subset _ hz
      have hzv : z ≠ v := fun hc => hnin (hc ▸ hzmem)
      have hzt : z ≠ t := fun hc => htnd (hc ▸ hz)
      rw [hA2ne z hzv, hA1ne z hzt]
    refine ⟨?_, ?_, ?_, ?_, ?_, ?_, ?_⟩
    · intro z hz
      rw [length_vset, hA1len]
      rcases List.mem_append.1 hz with hz | hz
      · exact hbnd z hz
      · obtain rfl : z = v := by simpa using hz
        exact hv
    · rw [List.nodup_append]
      refine ⟨hnd, by simp, fun z hz hzv => ?_⟩
      obtain rfl : z = v := by simpa using hzv
      exact hnin hz
    · rw [linkedB_append _ (x0 :: rest) [v] t v htq rfl]
      refine ⟨?_, rfl, ?_, ?_⟩
      · rw [linkedB_fields a _ (x0 :: rest) hnext_dl
          (fun z hz => hprev_all z (List.mem_of_mem_tail hz))]
        exact hlk
      · rw [hA2ne t hvt.symm, hA1t]
      · rw [hA2v]
        show l.tail = some t
        exact htl'
    · show l.head = _
      rw [hh]
      rfl
    · show some v = _
      rw [List.getLast?_append_of_ne_nil (x0 :: rest) (by simp : [v] ≠ [])]
      rfl
    · intro z hz
      have hz0 : x0 = z := by
        have h9 : (x0 :: rest ++ [v]).head? = some x0 := rfl
        rw [h9] at hz
        simpa using hz
      obtain rfl := hz0
      rw [hprev_all x0 (by simp)]
      exact hhp x0 (by simp)
    · intro z hz
      have hzv : v = z := by
        rw [List.getLast?_append_of_ne_nil (x0 :: rest) (by simp : [v] ≠ [])] at hz
        simpa using hz
      obtain rfl := hzv
      rw [hA2v]
  

theorem head?_append_of_ne_nil (xs ys : List Nat) (h : xs ≠ []) :
    (xs ++ ys).head? = xs.head? := by
  cases xs with
  | nil => exact absurd rfl h
  | cons a t => rfl

theorem linkedB_of_append_left (a : List VertexNode) :
    ∀ (xs ys : List Nat), linkedB a (xs ++ ys) = true → linkedB a xs = true := by
  intro xs
  induction xs with
  | nil => intro ys _; rfl
  | cons x rest ih =>
    intro ys h
    cases rest with
    | nil => rfl
    | cons y rest2 =>
      rw [List.cons_append, List.cons_append, linkedB_cons_cons, Bool.and_eq_true] at h
      rw [linkedB_cons_cons, Bool.and_eq_true]
      refine ⟨h.1, ih ys ?_⟩
      rw [List.cons_append]
      exact h.2

theorem linkedB_of_append_right (a : List VertexNode) :
    ∀ (xs ys : List Nat), linkedB a (xs ++ ys) = true → linkedB a ys = true := by
  intro xs
  induction xs with
  | nil => intro ys h; exact h
  | cons x rest ih =>
    intro ys h
    apply ih
    cases rest with
    | nil =>
      cases ys with
      | nil => rfl
      | cons yh yt =>
        rw [show (([x] : List Nat) ++ yh :: yt) = x :: yh :: yt from rfl,
          linkedB_cons_cons, Bool.and_eq_true] at h
        exact h.2
    | cons r rest2 =>
      rw [show ((x :: r :: rest2) ++ ys) = x :: r :: (rest2 ++ ys) from rfl,
        linkedB_cons_cons, Bool.and_eq_true] at h
      exact h.2

theorem vertexListRemoveSubList_WF (a : List VertexNode) (l : VertexList)
    (p ys s : List Nat) (u w : Nat)
    (hwf : listWF a l (p ++ ys ++ s))
    (hu : ys.head? = some u) (hw : ys.getLast? = some w) :
    listWF (vertexListRemoveSubList a l u w).1 (vertexListRemoveSubList a l u w).2
      (p ++ s) := by
  have hysne : ys ≠ [] := by
    intro hc
    rw [hc] at hu
    simp at hu
  have humem : u ∈ ys := by
    cases ys with
    | nil => simp at hu
    | cons y t =>
      obtain rfl : y = u := by simpa using hu
      exact List.mem_cons_self _ _
  have hwmem : w ∈ ys := List.mem_of_mem_getLast? hw
  rcases p with _ | ⟨p0, p'⟩ <;> rcases s with _ | ⟨s0, s'⟩
  · -- p = [], s = []
    simp only [List.nil_append, List.append_nil] at hwf ⊢
    obtain ⟨hbnd, hnd, hlk, hhd, htl, hhp, hlp⟩ := hwf
    have h1 : (vget a u).prev = none := hhp u hu
    have h2 : (vget a w).next = none := hlp w hw
    simp only [vertexListRemoveSubList, h1, h2]
    refine ⟨by simp, by simp, rfl, rfl, rfl, ?_, ?_⟩
    · intro x hx
      simp at hx
    · intro x hx
      simp at hx
  · -- p = [], s = s0 :: s'
    simp only [List.nil_append] at hwf ⊢
    obtain ⟨hbnd, hnd, hlk, hhd, htl, hhp, hlp⟩ := hwf
    have hnda := List.nodup_append.1 hnd
    have h1 : (vget a u).prev = none := hhp u (by
      rw [head?_append_of_ne_nil ys _ hysne]
      exact hu)
    have hcross := (linkedB_append a ys (s0 :: s') w s0 hw rfl).1 hlk
    have h2 : (vget a w).next = some s0 := hcross.2.2.1
    have hs0len : s0 < a.length := hbnd s0 (List.mem_append_right ys (by simp))
    simp only [vertexListRemoveSubList, h1, h2]
    refine ⟨?_, hnda.2.1, ?_, rfl, ?_, ?_, ?_⟩
    · intro z hz
      rw [length_vset]
      exact hbnd z (List.mem_append_right ys hz)
    · have hn : ∀ z ∈ (s0 :: s').dropLast,
          (vget (vset a s0 { vget a s0 with prev := none }) z).next = (vget a z).next := by
        intro z hz
        by_cases hzs : z = s0
        · subst hzs
          rw [vget_vset_self a z _ hs0len]
        · rw [vget_vset_ne a s0 z _ fun hc => hzs hc.symm]
      have hp : ∀ z ∈ (s0 :: s').tail,
          (vget (vset a s0 { vget a s0 with prev := none }) z).prev = (vget a z).prev := by
        intro z hz
        have hzs : z ≠ s0 := fun hc => (List.nodup_cons.1 hnda.2.1).1 (hc ▸ hz)
        rw [vget_vset_ne a s0 z _ fun hc => hzs hc.symm]
      rw [linkedB_fields a _ (s0 :: s') hn hp]
      exact hcross.2.1
    · show l.tail = _
      rw [htl]
      exact List.getLast?_append_of_ne_nil ys (by simp)
    · intro z hz
      obtain rfl : s0 = z := by simpa using hz
      rw [vget_vset_self a s0 _ hs0len]
    · intro z hz
      have hzmem : z ∈ s0 :: s' := List.mem_of_mem_getLast? hz
      have hzlast : z ∈ (ys ++ s0 :: s').getLast? := by
        rw [List.getLast?_append_of_ne_nil ys (by simp : (s0 :: s') ≠ [])]
        exact hz
      by_cases hzs : z = s0
      · subst hzs
        rw [vget_vset_self a z _ hs0len]
        show (vget a z).next = none
        exact hlp z hzlast
      · rw [vget_vset_ne a s0 z _ fun hc => hzs hc.symm]
        exact hlp z hzlast
  · -- p = p0 :: p', s = []
    simp only [List.append_nil] at hwf ⊢
    obtain ⟨hbnd, hnd, hlk, hhd, htl, hhp, hlp⟩ := hwf
    have hnda := List.nodup_append.1 hnd
    have hpne : (p0 :: p') ≠ ([] : List Nat) := by simp
    obtain ⟨pl, hplq⟩ : ∃ pl, (p0 :: p').getLast? = some pl :=
      ⟨(p0 :: p').getLast hpne, List.getLast?_eq_getLast _ hpne⟩
    have hplmem : pl ∈ p0 :: p' := List.mem_of_mem_getLast? hplq
    have hpllen : pl < a.length := hbnd pl (List.mem_append_left ys hplmem)
    have hcross := (linkedB_append a (p0 :: p') ys pl u hplq hu).1 hlk
    have h1 : (vget a u).prev = some pl := hcross.2.2.2
    have h2 : (vget a w).next = none := hlp w (by
      rw [List.getLast?_append_of_ne_nil (p0 :: p') hysne]
      exact hw)
    have hupl : u ≠ pl := fun hc => hnda.2.2 hplmem (hc ▸ humem)
    have hwpl : w ≠ pl := fun hc => hnda.2.2 hplmem (hc ▸ hwmem)
    have h3 : vget (vset a pl { vget a pl with next := none }) w = vget a w :=
      vget_vset_ne a pl w _ fun hc => hwpl hc.symm
    have h4 : vget (vset a pl { vget a pl with next := none }) u = vget a u :=
      vget_vset_ne a pl u _ fun hc => hupl hc.symm
    have hplnd : pl ∉ (p0 :: p').dropLast := by
      intro hmem
      have hplgl : pl = (p0 :: p').getLast hpne := by
        have h9 := List.getLast?_eq_getLast (p0 :: p') hpne
        rw [hplq] at h9
        exact Option.some_injective _ h9
      have hsplit : (p0 :: p').dropLast ++ [pl] = p0 :: p' := by
        rw [hplgl]
        exact List.dropLast_concat_getLast hpne
      have hnd2 : ((p0 :: p').dropLast ++ [pl]).Nodup := by
        rw [hsplit]
        exact hnda.1
      rw [List.nodup_append] at hnd2
      exact hnd2.2.2 hmem (by simp)
    simp only [vertexListRemoveSubList, h1, h2, h3, h4]
    refine ⟨?_, hnda.1, ?_, ?_, ?_, ?_, ?_⟩
    · intro z hz
      rw [length_vset]
      exact hbnd z (List.mem_append_left ys hz)
    · have hn : ∀ z ∈ (p0 :: p').dropLast,
          (vget (vset a pl { vget a pl with next := none }) z).next = (vget a z).next := by
        intro z hz
        have hzpl : z ≠ pl := fun hc => hplnd (hc ▸ hz)
        rw [vget_vset_ne a pl z _ fun hc => hzpl hc.symm]
      have hp : ∀ z ∈ (p0 :: p').tail,
          (vget (vset a pl { vget a pl with next := none }) z).prev = (vget a z).prev := by
        intro z hz
        by_cases hzpl : z = pl
        · subst hzpl
          rw [vget_vset_self a z _ hpllen]
        · rw [vget_vset_ne a pl z _ fun hc => hzpl hc.symm]
      rw [linkedB_fields a _ (p0 :: p') hn hp]
      exact linkedB_of_append_left a (p0 :: p') ys hlk
    · show l.head = _
      rw [hhd]
      exact head?_append_of_ne_nil (p0 :: p') ys hpne
    · show some pl = _
      exact hplq.symm
    · intro z hz
      obtain rfl : p0 = z := by simpa using hz
      have hz0mem : p0 ∈ (p0 :: p' ++ ys).head? := by
        rw [head?_append_of_ne_nil (p0 :: p') ys hpne]
        rfl
      by_cases hzpl : p0 = pl
      · rw [← hzpl, vget_vset_self a p0 _ (hzpl ▸ hpllen)]
        show (vget a p0).prev = none
        exact hhp p0 hz0mem
      · rw [vget_vset_ne a pl p0 _ fun hc => hzpl hc.symm]
        exact hhp p0 hz0mem
    · intro z hz
      obtain rfl : pl = z := by rw [hplq] at hz; simpa using hz
      rw [vget_vset_self a pl _ hpllen]
  · -- p = p0 :: p', s = s0 :: s'
    obtain ⟨hbnd, hnd, hlk, hhd, htl, hhp, hlp⟩ := hwf
    have hnda := List.nodup_append.1 hnd
    have hndb := List.nodup_append.1 hnda.1
    have hpne : (p0 :: p') ≠ ([] : List Nat) := by simp
    have hsne : (s0 :: s') ≠ ([] : List Nat) := by simp
    obtain ⟨pl, hplq⟩ : ∃ pl, (p0 :: p').getLast? = some pl :=
      ⟨(p0 :: p').getLast hpne, List.getLast?_eq_getLast _ hpne⟩
    have hplmem : pl ∈ p0 :: p' := List.mem_of_mem_getLast? hplq
    have hpllen : pl < a.length :=
      hbnd pl (List.mem_append_left _ (List.mem_append_left ys hplmem))
    have hs0len : s0 < a.length :=
      hbnd s0 (List.mem_append_right _ (by simp))
    have hlk2 : linkedB a ((p0 :: p') ++ (ys ++ s0 :: s')) = true := by
      have h9 := hlk
      rw [List.append_assoc] at h9
      exact h9
    have hcross1 := (linkedB_append a (p0 :: p') (ys ++ s0 :: s') pl u hplq (by
      rw [head?_append_of_ne_nil ys _ hysne]
      exact hu)).1 hlk2
    have h1 : (vget a u).prev = some pl := hcross1.2.2.2
    have hcross2 := (linkedB_append a ((p0 :: p') ++ ys) (s0 :: s') w s0 (by
      rw [List.getLast?_append_of_ne_nil (p0 :: p') hysne]
      exact hw) rfl).1 hlk
    have h2 : (vget a w).next = some s0 := hcross2.2.2.1
    have hupl : u ≠ pl := fun hc => hndb.2.2 hplmem (hc ▸ humem)
    have hwpl : w ≠ pl := fun hc => hndb.2.2 hplmem (hc ▸ hwmem)
    have hs0pl : s0 ≠ pl := fun hc =>
      hnda.2.2 (List.mem_append_left ys hplmem) (hc ▸ (by simp : s0 ∈ s0 :: s'))
    have h3 : vget (vset a pl { vget a pl with next := some s0 }) w = vget a w :=
      vget_vset_ne a pl w _ fun hc => hwpl hc.symm
    have h4 : vget (vset a pl { vget a pl with next := some s0 }) u = vget a u :=
      vget_vset_ne a pl u _ fun hc => hupl hc.symm
    have h5 : vget (vset a pl { vget a pl with next := some s0 }) s0 = vget a s0 :=
      vget_vset_ne a pl s0 _ fun hc => hs0pl hc.symm
    have hs0lenA : s0 < (vset a pl { vget a pl with next := some s0 }).length := by
      rw [length_vset]
      exact hs0len
    have hplnd : pl ∉ (p0 :: p').dropLast := by
      intro hmem
      have hplgl : pl = (p0 :: p').getLast hpne := by
        have h9 := List.getLast?_eq_getLast (p0 :: p') hpne
        rw [hplq] at h9
        exact Option.some_injective _ h9
      have hsplit : (p0 :: p').dropLast ++ [pl] = p0 :: p' := by
        rw [hplgl]
        exact List.dropLast_concat_getLast hpne
      have hnd2 : ((p0 :: p').dropLast ++ [pl]).Nodup := by
        rw [hsplit]
        exact hndb.1
      rw [List.nodup_append] at hnd2
      exact hnd2.2.2 hmem (by simp)
    have hdisjps : ∀ z ∈ p0 :: p', z ∉ s0 :: s' := fun z hz hzs =>
      hnda.2.2 (List.mem_append_left ys hz) hzs
    -- the two arena writes, named
    have hget2 : ∀ z, z ≠ s0 → z ≠ pl →
        vget (vset (vset a pl { vget a pl with next := some s0 }) s0
          { vget a s0 with prev := some pl }) z = vget a z := by
      intro z hzs hzpl
      rw [vget_vset_ne _ s0 z _ fun hc => hzs hc.symm,
        vget_vset_ne a pl z _ fun hc => hzpl hc.symm]
    have hget2pl : vget (vset (vset a pl { vget a pl with next := some s0 }) s0
        { vget a s0 with prev := some pl }) pl = { vget a pl with next := some s0 } := by
      rw [vget_vset_ne _ s0 pl _ hs0pl,
        vget_vset_self a pl _ hpllen]
    have hget2s0 : vget (vset (vset a pl { vget a pl with next := some s0 }) s0
        { vget a s0 with prev := some pl }) s0 = { vget a s0 with prev := some pl } :=
      vget_vset_self _ s0 _ hs0lenA
    have hopgoal : vertexListRemoveSubList a l u w =
        (vset (vset a pl { vget a pl with next := some s0 }) s0
          { vget a s0 with prev := some pl }, l) := by
      simp only [vertexListRemoveSubList, h1, h2, h3, h4, h5]
    rw [hopgoal]
    refine ⟨?_, ?_, ?_, ?_, ?_, ?_, ?_⟩
    · intro z hz
      rw [length_vset, length_vset]
      rcases List.mem_append.1 hz with hz | hz
      · exact hbnd z (List.mem_append_left _ (List.mem_append_left ys hz))
      · exact hbnd z (List.mem_append_right _ hz)
    · rw [List.nodup_append]
      exact ⟨hndb.1, hnda.2.1, fun z hz hzs => hdisjps z hz hzs⟩
    · rw [linkedB_append _ (p0 :: p') (s0 :: s') pl s0 hplq rfl]
      refine ⟨?_, ?_, ?_, ?_⟩
      · have hn : ∀ z ∈ (p0 :: p').dropLast,
            (vget (vset (vset a pl { vget a pl with next := some s0 }) s0
              { vget a s0 with prev := some pl }) z).next = (vget a z).next := by
          intro z hz
          have hzmem : z ∈ p0 :: p' := List.dropLast_subset _ hz
          have hzpl : z ≠ pl := fun hc => hplnd (hc ▸ hz)
          have hzs : z ≠ s0 := fun hc => hdisjps z hzmem (hc ▸ (by simp : s0 ∈ s0 :: s'))
          rw [hget2 z hzs hzpl]
        have hp : ∀ z ∈ (p0 :: p').tail,
            (vget (vset (vset a pl { vget a pl with next := some s0 }) s0
              { vget a s0 with prev := some pl }) z).prev = (vget a z).prev := by
          intro z hz
          have hzmem : z ∈ p0 :: p' := List.mem_of_mem_tail hz
          have hzs : z ≠ s0 := fun hc => hdisjps z hzmem (hc ▸ (by simp : s0 ∈ s0 :: s'))
          by_cases hzpl : z = pl
          · subst hzpl
            rw [hget2pl]
          · rw [hget2 z hzs hzpl]
        rw [linkedB_fields a _ (p0 :: p') hn hp]
        exact linkedB_of_append_left a (p0 :: p') ys
          (linkedB_of_append_left a ((p0 :: p') ++ ys) (s0 :: s') hlk)
      · have hn : ∀ z ∈ (s0 :: s').dropLast,
            (vget (vset (vset a pl { vget a pl with next := some s0 }) s0
              { vget a s0 with prev := some pl }) z).next = (vget a z).next := by
          intro z hz
          have hzmem : z ∈ s0 :: s' := List.dropLast_subset _ hz
          have hzpl : z ≠ pl := fun hc =>
            hnda.2.2 (List.mem_append_left ys (hc ▸ hplmem)) hzmem
          by_cases hzs : z = s0
          · subst hzs
            rw [hget2s0]
          · rw [hget2 z hzs hzpl]
        have hp : ∀ z ∈ (s0 :: s').tail,
            (vget (vset (vset a pl { vget a pl with next := some s0 }) s0
              { vget a s0 with prev := some pl }) z).prev = (vget a z).prev := by
          intro z hz
          have hzmem : z ∈ s0 :: s' := List.mem_of_mem_tail hz
          have hzs : z ≠ s0 := fun hc => (List.nodup_cons.1 hnda.2.1).1 (hc ▸ hz)
          have hzpl : z ≠ pl := fun hc =>
            hnda.2.2 (List.mem_append_left ys (hc ▸ hplmem)) hzmem
          rw [hget2 z hzs hzpl]
        rw [linkedB_fields a _ (s0 :: s') hn hp]
        exact hcross2.2.1
      · rw [hget2pl]
      · rw [hget2s0]
    · show l.head = _
      rw [hhd, head?_append_of_ne_nil ((p0 :: p') ++ ys) _ (by simp),
        head?_append_of_ne_nil (p0 :: p') ys hpne,
        head?_append_of_ne_nil (p0 :: p') (s0 :: s') hpne]
    · show l.tail = _
      rw [htl, List.getLast?_append_of_ne_nil ((p0 :: p') ++ ys) hsne,
        List.getLast?_append_of_ne_nil (p0 :: p') hsne]
    · intro z hz
      rw [head?_append_of_ne_nil (p0 :: p') (s0 :: s') hpne] at hz
      obtain rfl : p0 = z := by simpa using hz
      have hz0mem : p0 ∈ (((p0 :: p') ++ ys) ++ s0 :: s').head? := by
        rw [head?_append_of_ne_nil ((p0 :: p') ++ ys) _ (by simp),
          head?_append_of_ne_nil (p0 :: p') ys hpne]
        rfl
      have hzs : p0 ≠ s0 := fun hc => hdisjps p0 (by simp) (hc ▸ (by simp : s0 ∈ s0 :: s'))
      by_cases hzpl : p0 = pl
      · rw [show p0 = pl from hzpl, hget2pl]
        show (vget a pl).prev = none
        rw [← hzpl]
        exact hhp p0 hz0mem
      · rw [hget2 p0 hzs hzpl]
        exact hhp p0 hz0mem
    · intro z hz
      rw [List.getLast?_append_of_ne_nil (p0 :: p') hsne] at hz
      have hzmem : z ∈ s0 :: s' := List.mem_of_mem_getLast? hz
      have hzlast : z ∈ (((p0 :: p') ++ ys) ++ s0 :: s').getLast? := by
        rw [List.getLast?_append_of_ne_nil ((p0 :: p') ++ ys) hsne]
        exact hz
      have hzpl : z ≠ pl := fun hc =>
        hnda.2.2 (List.mem_append_left ys (hc ▸ hplmem)) hzmem
      by_cases hzs : z = s0
      · subst hzs
        rw [hget2s0]
        show (vget a z).next = none
        exact hlp z hzlast
      · rw [hget2 z hzs hzpl]
        exact hlp z hzlast

theorem vertexListRemove_eq_subList (a : List VertexNode) (l : VertexList) (v : Nat) :
    vertexListRemove a l v = vertexListRemoveSubList a l v v := rfl

theorem vertexListRemove_WF (a : List VertexNode) (l : VertexList)
    (p s : List Nat) (v : Nat) (hwf : listWF a l (p ++ [v] ++ s)) :
    listWF (vertexListRemove a l v).1 (vertexListRemove a l v).2 (p ++ s) := by
  rw [vertexListRemove_eq_subList]
  exact vertexListRemoveSubList_WF a l p [v] s v v hwf rfl rfl

theorem chainLast_spec (a : List VertexNode) :
    ∀ (ys : List Nat) (fuel v : Nat), ys.head? = some v →
      linkedB a ys = true → (∀ x ∈ ys.getLast?, (vget a x).next = none) →
      ys.length ≤ fuel →
      ∃ z, ys.getLast? = some z ∧ chainLast a fuel v = z := by
  intro ys
  induction ys with
  | nil => intro fuel v h _ _ _; simp at h
  | cons y rest ih =>
    intro fuel v hh hlk hlast hfuel
    obtain rfl : y = v := by simpa using hh
    cases rest with
    | nil =>
      refine ⟨y, rfl, ?_⟩
      cases fuel with
      | zero => simp at hfuel
      | succ f =>
        have hn : (vget a y).next = none := hlast y rfl
        show chainLast a (f + 1) y = y
        unfold chainLast
        rw [hn]
    | cons y2 rest2 =>
      cases fuel with
      | zero => simp at hfuel
      | succ f =>
        rw [linkedB_cons_cons, Bool.and_eq_true] at hlk
        have hnext : (vget a y).next = some y2 := by
          have h9 := hlk.1
          simp only [Bool.and_eq_true, beq_iff_eq] at h9
          exact h9.1
        have hstep : chainLast a (f + 1) y = chainLast a f y2 := by
          show (match (vget a y).next with
            | none => y
            | some w => chainLast a f w) = chainLast a f y2
          rw [hnext]
        rw [hstep]
        obtain ⟨z, hz1, hz2⟩ := ih f y2 rfl hlk.2
          (fun x hx => hlast x (by
            rw [List.getLast?_cons_cons]
            exact hx))
          (by simpa using Nat.le_of_succ_le_succ hfuel)
        exact ⟨z, by rw [List.getLast?_cons_cons]; exact hz1, hz2⟩

theorem vertexListAppendChain_WF (a : List VertexNode) (l : VertexList)
    (xs ys : List Nat) (v fuel : Nat)
    (hwf : listWF a l xs) (hch : chainWF a ys) (hv : ys.head? = some v)
    (hdisj : ∀ x ∈ xs, x ∉ ys) (hfuel : ys.length ≤ fuel) :
    listWF (vertexListAppendChain a l v fuel).1 (vertexListAppendChain a l v fuel).2
      (xs ++ ys) := by
  obtain ⟨hbnd, hnd, hlk, hhd, htl, hhp, hlp⟩ := hwf
  obtain ⟨hysne, hybnd, hynd, hylk, hylast⟩ := hch
  have hvmem : v ∈ ys := by
    cases ys with
    | nil => simp at hv
    | cons y t =>
      obtain rfl : y = v := by simpa using hv
      exact List.mem_cons_self _ _
  have hvlen : v < a.length := hybnd v hvmem
  have hvnin : v ∉ xs := fun hc => hdisj v hc hvmem
  cases xs with
  | nil =>
    have hh : l.head = none := by simpa using hhd
    have ht : l.tail = none := by simpa using htl
    have hop : vertexListAppendChain a l v fuel =
        (vset a v { vget a v with prev := l.tail },
          { l with
              head := some v
              tail := some (chainLast (vset a v { vget a v with prev := l.tail }) fuel v) }) := by
      simp only [vertexListAppendChain, hh]
    rw [hop]
    have hget : ∀ z ∈ ys, z ≠ v →
        vget (vset a v { vget a v with prev := l.tail }) z = vget a z := fun z _ hz =>
      vget_vset_ne a v z _ fun hc => hz hc.symm
    have hgetv : vget (vset a v { vget a v with prev := l.tail }) v =
        { vget a v with prev := l.tail } := vget_vset_self a v _ hvlen
    have hylk2 : linkedB (vset a v { vget a v with prev := l.tail }) ys = true := by
      rw [linkedB_fields a _ ys ?hn ?hp]
      · exact hylk
      case hn =>
        intro z hz
        by_cases hzv : z = v
        · subst hzv
          rw [hgetv]
        · rw [hget z (List.dropLast_subset _ hz) hzv]
      case hp =>
        intro z hz
        have hzv : z ≠ v := by
          intro hc
          subst hc
          cases ys with
          | nil => simp at hv
          | cons y t =>
            obtain rfl : y = z := by simpa using hv
            exact (List.nodup_cons.1 hynd).1 hz
        rw [hget z (List.mem_of_mem_tail hz) hzv]
    have hylast2 : ∀ x ∈ ys.getLast?, (vget (vset a v { vget a v with prev := l.tail })
        x).next = none := by
      intro x hx
      by_cases hxv : x = v
      · subst hxv
        rw [hgetv]
        show (vget a x).next = none
        exact hylast x hx
      · rw [hget x (List.mem_of_mem_getLast? hx) hxv]
        exact hylast x hx
    obtain ⟨z, hz1, hz2⟩ := chainLast_spec _ ys fuel v hv hylk2 hylast2 hfuel
    refine ⟨?_, ?_, ?_, ?_, ?_, ?_, ?_⟩
    · intro x hx
      rw [length_vset]
      exact hybnd x (by simpa using hx)
    · simpa using hynd
    · simpa using hylk2
    · show some v = _
      rw [List.nil_append, hv]
    · show some (chainLast (vset a v { vget a v with prev := l.tail }) fuel v) = _
      rw [hz2, List.nil_append, hz1]
    · intro x hx
      rw [List.nil_append, hv] at hx
      obtain rfl : v = x := by simpa using hx
      rw [hgetv]
      show l.tail = none
      exact ht
    · intro x hx
      have hx2 : x ∈ ys.getLast? := by
        rw [List.nil_append] at hx
        exact hx
      exact hylast2 x hx2
  | cons x0 rest =>
    have hh : l.head = some x0 := by simpa using hhd
    have hne : (x0 :: rest) ≠ ([] : List Nat) := by simp
    obtain ⟨t, htq⟩ : ∃ t, (x0 :: rest).getLast? = some t :=
      ⟨(x0 :: rest).getLast hne, List.getLast?_eq_getLast _ hne⟩
    have htl' : l.tail = some t := by rw [htl]; exact htq
    have htmem : t ∈ x0 :: rest := List.mem_of_mem_getLast? htq
    have htb : t < a.length := hbnd t htmem
    have hvt : v ≠ t := fun hc => hdisj t htmem (hc ▸ hvmem)
    have htys : t ∉ ys := hdisj t htmem
    have hop : vertexListAppendChain a l v fuel =
        (vset (vset a t { vget a t with next := some v }) v
            { vget (vset a t { vget a t with next := some v }) v with prev := l.tail },
          { l with
              tail := some (chainLast
                (vset (vset a t { vget a t with next := some v }) v
                  { vget (vset a t { vget a t with next := some v }) v with
                      prev := l.tail }) fuel v) }) := by
      simp only [vertexListAppendChain, hh, htl']
      rfl
    rw [hop]
    have hvlt : v < (vset a t { vget a t with next := some v }).length := by
      rw [length_vset]
      exact hvlen
    have hA1v : vget (vset a t { vget a t with next := some v }) v = vget a v :=
      vget_vset_ne a t v _ fun hc => hvt hc.symm
    have hA1t : vget (vset a t { vget a t with next := some v }) t =
        { vget a t with next := some v } := vget_vset_self a t _ htb
    have hA2v : vget (vset (vset a t { vget a t with next := some v }) v
        { vget (vset a t { vget a t with next := some v }) v with prev := l.tail }) v =
        { vget (vset a t { vget a t with next := some v }) v with prev := l.tail } :=
      vget_vset_self _ v _ hvlt
    have hA2ne : ∀ z, z ≠ v →
        vget (vset (vset a t { vget a t with next := some v }) v
          { vget (vset a t { vget a t with next := some v }) v with prev := l.tail }) z =
        vget (vset a t { vget a t with next := some v }) z := fun z hz =>
      vget_vset_ne _ v z _ fun hc => hz hc.symm
    have hget2 : ∀ z, z ≠ v → z ≠ t →
        vget (vset (vset a t { vget a t with next := some v }) v
          { vget (vset a t { vget a t with next := some v }) v with prev := l.tail }) z =
        vget a z := by
      intro z hzv hzt
      rw [hA2ne z hzv]
      exact vget_vset_ne a t z _ fun hc => hzt hc.symm
    have hylk2 : linkedB (vset (vset a t { vget a t with next := some v }) v
        { vget (vset a t { vget a t with next := some v }) v with prev := l.tail })
        ys = true := by
      rw [linkedB_fields a _ ys ?hn ?hp]
      · exact hylk
      case hn =>
        intro z hz
        have hzt : z ≠ t := fun hc => htys (hc ▸ List.dropLast_subset _ hz)
        by_cases hzv : z = v
        · subst hzv
          rw [hA2v, hA1v]
        · rw [hget2 z hzv hzt]
      case hp =>
        intro z hz
        have hzt : z ≠ t := fun hc => htys (hc ▸ List.mem_of_mem_tail hz)
        have hzv : z ≠ v := by
          intro hc
          subst hc
          cases ys with
          | nil => simp at hv
          | cons y tys =>
            obtain rfl : y = z := by simpa using hv
            exact (List.nodup_cons.1 hynd).1 hz
        rw [hget2 z hzv hzt]
    have hylast2 : ∀ x ∈ ys.getLast?, (vget (vset (vset a t
        { vget a t with next := some v }) v
        { vget (vset a t { vget a t with next := some v }) v with prev := l.tail })
          x).next = none := by
      intro x hx
      have hxt : x ≠ t := fun hc => htys (hc ▸ List.mem_of_mem_getLast? hx)
      by_cases hxv : x = v
      · subst hxv
        rw [hA2v, hA1v]
        show (vget a x).next = none
        exact hylast x hx
      · rw [hget2 x hxv hxt]
        exact hylast x hx
    obtain ⟨z, hz1, hz2⟩ := chainLast_spec _ ys fuel v hv hylk2 hylast2 hfuel
    have hprev_all : ∀ z2 ∈ x0 :: rest,
        (vget (vset (vset a t { vget a t with next := some v }) v
          { vget (vset a t { vget a t with next := some v }) v with prev := l.tail })
            z2).prev = (vget a z2).prev := by
      intro z2 hz2m
      have hz2v : z2 ≠ v := fun hc => hvnin (hc ▸ hz2m)
      rw [hA2ne z2 hz2v]
      by_cases hz2t : z2 = t
      · subst hz2t
        rw [hA1t]
      · rw [vget_vset_ne a t z2 _ fun hc => hz2t hc.symm]
    have htgl : t = (x0 :: rest).getLast hne := by
      have h9 := List.getLast?_eq_getLast (x0 :: rest) hne
      rw [htq] at h9
      exact Option.some_injective _ h9
    have htnd : t ∉ (x0 :: rest).dropLast := by
      intro hmem
      have hsplit : (x0 :: rest).dropLast ++ [t] = x0 :: rest := by
        rw [htgl]
        exact List.dropLast_concat_getLast hne
      have hnd2 : ((x0 :: rest).dropLast ++ [t]).Nodup := by rw [hsplit]; exact hnd
      rw [List.nodup_append] at hnd2
      exact hnd2.2.2 hmem (by simp)
    refine ⟨?_, ?_, ?_, ?_, ?_, ?_, ?_⟩
    · intro z2 hz2m
      rw [length_vset, length_vset]
      rcases List.mem_append.1 hz2m with hz2m | hz2m
      · exact hbnd z2 hz2m
      · exact hybnd z2 hz2m
    · rw [List.nodup_append]
      exact ⟨hnd, hynd, fun z2 hz2m hz2y => hdisj z2 hz2m hz2y⟩
    · rw [linkedB_append _ (x0 :: rest) ys t v htq hv]
      refine ⟨?_, hylk2, ?_, ?_⟩
      · have hn : ∀ z2 ∈ (x0 :: rest).dropLast,
            (vget (vset (vset a t { vget a t with next := some v }) v
              { vget (vset a t { vget a t with next := some v }) v with prev := l.tail })
                z2).next = (vget a z2).next := by
          intro z2 hz2m
          have hz2mem : z2 ∈ x0 :: rest := List.dropLast_subset _ hz2m
          have hz2v : z2 ≠ v := fun hc => hvnin (hc ▸ hz2mem)
          have hz2t : z2 ≠ t := fun hc => htnd (hc ▸ hz2m)
          rw [hget2 z2 hz2v hz2t]
        rw [linkedB_fields a _ (x0 :: rest) hn
          (fun z2 hz2m => hprev_all z2 (List.mem_of_mem_tail hz2m))]
        exact hlk
      · rw [hA2ne t hvt.symm, hA1t]
      · rw [hA2v]
        show l.tail = some t
        exact htl'
    · show l.head = _
      rw [hh, head?_append_of_ne_nil (x0 :: rest) ys hne]
      rfl
    · show some (chainLast _ fuel v) = _
      rw [hz2, List.getLast?_append_of_ne_nil (x0 :: rest) hysne, hz1]
    · intro z2 hz2m
      rw [head?_append_of_ne_nil (x0 :: rest) ys hne] at hz2m
      obtain rfl : x0 = z2 := by simpa using hz2m
      rw [hprev_all x0 (by simp)]
      exact hhp x0 (by simp)
    · intro z2 hz2m
      rw [List.getLast?_append_of_ne_nil (x0 :: rest) hysne] at hz2m
      rw [hz1] at hz2m
      obtain rfl : z = z2 := by simpa using hz2m
      exact hylast2 z (by rw [hz1]; rfl)

theorem vertexListInsertBefore_WF (a : List VertexNode) (l : VertexList)
    (p1 p2 : List Nat) (target v : Nat)
    (hwf : listWF a l (p1 ++ target :: p2)) (hv : v < a.length)
    (hvnin : v ∉ p1 ++ target :: p2) :
    listWF (vertexListInsertBefore a l target v).1 (vertexListInsertBefore a l target v).2
      (p1 ++ v :: target :: p2) := by
  obtain ⟨hbnd, hnd, hlk, hhd, htl, hhp, hlp⟩ := hwf
  have htmem : target ∈ p1 ++ target :: p2 := List.mem_append_right p1 (by simp)
  have htlen : target < a.length := hbnd target htmem
  have hvt : v ≠ target := fun hc => hvnin (hc ▸ htmem)
  have hA1v : vget (vset a v { vget a v with
      prev := (vget a target).prev
      next := some target }) v =
      { vget a v with prev := (vget a target).prev, next := some target } :=
    vget_vset_self a v _ hv
  have hA1ne : ∀ z, z ≠ v → vget (vset a v { vget a v with
      prev := (vget a target).prev
      next := some target }) z = vget a z := fun z hz =>
    vget_vset_ne a v z _ fun hc => hz hc.symm
  cases p1 with
  | nil =>
    have h1 : (vget a target).prev = none := hhp target (by simp)
    have hA1vN : vget (vset a v { vget a v with
        prev := none
        next := some target }) v =
        { vget a v with prev := none, next := some target } :=
      vget_vset_self a v _ hv
    have hA1neN : ∀ z, z ≠ v → vget (vset a v { vget a v with
        prev := none
        next := some target }) z = vget a z := fun z hz =>
      vget_vset_ne a v z _ fun hc => hz hc.symm
    have hop : vertexListInsertBefore a l target v =
        (vset (vset a v { vget a v with
            prev := none
            next := some target }) target
          { vget (vset a v { vget a v with
              prev := none
              next := some target }) target with prev := some v },
          { l with head := some v }) := by
      simp only [vertexListInsertBefore, h1, hA1vN]
    rw [hop]
    have htlt : target < (vset a v { vget a v with
        prev := none
        next := some target }).length := by
      rw [length_vset]
      exact htlen
    have hA2t : vget (vset (vset a v { vget a v with
        prev := none
        next := some target }) target
        { vget (vset a v { vget a v with
            prev := none
            next := some target }) target with prev := some v }) target =
        { vget (vset a v { vget a v with
            prev := none
            next := some target }) target with prev := some v } :=
      vget_vset_self _ target _ htlt
    have hA2ne : ∀ z, z ≠ target → vget (vset (vset a v { vget a v with
        prev := none
        next := some target }) target
        { vget (vset a v { vget a v with
            prev := none
            next := some target }) target with prev := some v }) z =
        vget (vset a v { vget a v with
          prev := none
          next := some target }) z := fun z hz =>
      vget_vset_ne _ target z _ fun hc => hz hc.symm
    have hget2 : ∀ z, z ≠ target → z ≠ v → vget (vset (vset a v { vget a v with
        prev := none
        next := some target }) target
        { vget (vset a v { vget a v with
            prev := none
            next := some target }) target with prev := some v }) z = vget a z := by
      intro z hzt hzv
      rw [hA2ne z hzt, hA1neN z hzv]
    have hndc := List.nodup_cons.1 (show (target :: p2).Nodup by simpa using hnd)
    have hvnin' : v ∉ target :: p2 := by simpa using hvnin
    refine ⟨?_, ?_, ?_, rfl, ?_, ?_, ?_⟩
    · intro z hz
      rw [length_vset, length_vset]
      rcases (by simpa using hz : z = v ∨ z = target ∨ z ∈ p2) with rfl | rfl | hz
      · exact hv
      · exact htlen
      · exact hbnd z (by simp [hz])
    · simp only [List.nil_append, List.nodup_cons]
      refine ⟨by simpa using hvnin, by simpa using hnd⟩
    · show linkedB _ (v :: target :: p2) = true
      rw [linkedB_cons_cons, Bool.and_eq_true]
      constructor
      · simp only [Bool.and_eq_true, beq_iff_eq]
        constructor
        · rw [hA2ne v hvt, hA1vN]
        · rw [hA2t]
      · have hn : ∀ z ∈ (target :: p2).dropLast,
            (vget (vset (vset a v { vget a v with
              prev := none
              next := some target }) target
              { vget (vset a v { vget a v with
                  prev := none
                  next := some target }) target with prev := some v }) z).next =
              (vget a z).next := by
          intro z hz
          have hzmem : z ∈ target :: p2 := List.dropLast_subset _ hz
          have hzv : z ≠ v := fun hc => hvnin' (hc ▸ hzmem)
          by_cases hzt : z = target
          · subst hzt
            rw [hA2t, hA1neN z hzv]
          · rw [hget2 z hzt hzv]
        have hp : ∀ z ∈ (target :: p2).tail,
            (vget (vset (vset a v { vget a v with
              prev := none
              next := some target }) target
              { vget (vset a v { vget a v with
                  prev := none
                  next := some target }) target with prev := some v }) z).prev =
              (vget a z).prev := by
          intro z hz
          have hzmem : z ∈ target :: p2 := List.mem_of_mem_tail hz
          have hzv : z ≠ v := fun hc => hvnin' (hc ▸ hzmem)
          have hzt : z ≠ target := fun hc => hndc.1 (hc ▸ hz)
          rw [hget2 z hzt hzv]
        rw [linkedB_fields a _ (target :: p2) hn hp]
        exact hlk
    · show l.tail = _
      rw [htl]
      rfl
    · intro z hz
      obtain rfl : v = z := by simpa using hz
      rw [hA2ne v hvt, hA1vN]
    · intro z hz
      have hz2 : z ∈ (target :: p2).getLast? := by
        simpa using hz
      have hzmem : z ∈ target :: p2 := List.mem_of_mem_getLast? hz2
      have hzv : z ≠ v := fun hc => hvnin' (hc ▸ hzmem)
      by_cases hzt : z = target
      · subst hzt
        rw [hA2t, hA1neN z hzv]
        show (vget a z).next = none
        exact hlp z (by simpa using hz2)
      · rw [hget2 z hzt hzv]
        exact hlp z (by simpa using hz2)
  | cons p0 p1' =>
    have hpne : (p0 :: p1') ≠ ([] : List Nat) := by simp
    obtain ⟨pl, hplq⟩ : ∃ pl, (p0 :: p1').getLast? = some pl :=
      ⟨(p0 :: p1').getLast hpne, List.getLast?_eq_getLast _ hpne⟩
    have hplmem : pl ∈ p0 :: p1' := List.mem_of_mem_getLast? hplq
    have hpllen : pl < a.length := hbnd pl (List.mem_append_left _ hplmem)
    have hnda := List.nodup_append.1 hnd
    have hplt : pl ≠ target := fun hc =>
      hnda.2.2 hplmem (hc ▸ (by simp : target ∈ target :: p2))
    have hplv : pl ≠ v := fun hc =>
      hvnin (List.mem_append_left _ (hc ▸ hplmem))
    have hcross := (linkedB_append a (p0 :: p1') (target :: p2) pl target hplq rfl).1 hlk
    have h1 : (vget a target).prev = some pl := hcross.2.2.2
    have hA1vP : vget (vset a v { vget a v with
        prev := some pl
        next := some target }) v =
        { vget a v with prev := some pl, next := some target } :=
      vget_vset_self a v _ hv
    have hA1neP : ∀ z, z ≠ v → vget (vset a v { vget a v with
        prev := some pl
        next := some target }) z = vget a z := fun z hz =>
      vget_vset_ne a v z _ fun hc => hz hc.symm
    have hpl1 : pl < (vset a v { vget a v with
        prev := some pl
        next := some target }).length := by
      rw [length_vset]
      exact hpllen
    have hA1plP : vget (vset a v { vget a v with
        prev := some pl
        next := some target }) pl = vget a pl := hA1neP pl hplv
    have hop : vertexListInsertBefore a l target v =
        (vset (vset (vset a v { vget a v with
            prev := some pl
            next := some target }) pl
            { vget a pl with next := some v }) target
          { vget (vset (vset a v { vget a v with
              prev := some pl
              next := some target }) pl
              { vget a pl with next := some v }) target with prev := some v },
          l) := by
      simp only [vertexListInsertBefore, h1, hA1vP, hA1plP]
    rw [hop]
    have htlt : target < (vset (vset a v { vget a v with
        prev := some pl
        next := some target }) pl { vget a pl with next := some v }).length := by
      rw [length_vset, length_vset]
      exact htlen
    have hA2pl : vget (vset (vset a v { vget a v with
        prev := some pl
        next := some target }) pl { vget a pl with next := some v }) pl =
        { vget a pl with next := some v } := vget_vset_self _ pl _ hpl1
    have hA2ne : ∀ z, z ≠ pl → vget (vset (vset a v { vget a v with
        prev := some pl
        next := some target }) pl { vget a pl with next := some v }) z =
        vget (vset a v { vget a v with
          prev := some pl
          next := some target }) z := fun z hz =>
      vget_vset_ne _ pl z _ fun hc => hz hc.symm
    have hA3t : vget (vset (vset (vset a v { vget a v with
        prev := some pl
        next := some target }) pl { vget a pl with next := some v }) target
        { vget (vset (vset a v { vget a v with
            prev := some pl
            next := some target }) pl { vget a pl with next := some v }) target with
              prev := some v }) target =
        { vget (vset (vset a v { vget a v with
            prev := some pl
            next := some target }) pl { vget a pl with next := some v }) target with
              prev := some v } := vget_vset_self _ target _ htlt
    have hA3ne : ∀ z, z ≠ target → vget (vset (vset (vset a v { vget a v with
        prev := some pl
        next := some target }) pl { vget a pl with next := some v }) target
        { vget (vset (vset a v { vget a v with
            prev := some pl
            next := some target }) pl { vget a pl with next := some v }) target with
              prev := some v }) z =
        vget (vset (vset a v { vget a v with
          prev := some pl
          next := some target }) pl { vget a pl with next := some v }) z := fun z hz =>
      vget_vset_ne _ target z _ fun hc => hz hc.symm
    have hget3 : ∀ z, z ≠ target → z ≠ pl → z ≠ v →
        vget (vset (vset (vset a v { vget a v with
          prev := some pl
          next := some target }) pl { vget a pl with next := some v }) target
          { vget (vset (vset a v { vget a v with
              prev := some pl
              next := some target }) pl { vget a pl with next := some v }) target with
                prev := some v }) z = vget a z := by
      intro z hzt hzpl hzv
      rw [hA3ne z hzt, hA2ne z hzpl, hA1neP z hzv]
    have hvmemnew : v ∉ target :: p2 := fun hc => hvnin (List.mem_append_right _ hc)
    have hvmemp1 : v ∉ p0 :: p1' := fun hc => hvnin (List.mem_append_left _ hc)
    have hndc := List.nodup_cons.1 hnda.2.1
    have hplnd : pl ∉ (p0 :: p1').dropLast := by
      intro hmem
      have hplgl : pl = (p0 :: p1').getLast hpne := by
        have h9 := List.getLast?_eq_getLast (p0 :: p1') hpne
        rw [hplq] at h9
        exact Option.some_injective _ h9
      have hsplit : (p0 :: p1').dropLast ++ [pl] = p0 :: p1' := by
        rw [hplgl]
        exact List.dropLast_concat_getLast hpne
      have hnd2 : ((p0 :: p1').dropLast ++ [pl]).Nodup := by rw [hsplit]; exact hnda.1
      rw [List.nodup_append] at hnd2
      exact hnd2.2.2 hmem (by simp)
    refine ⟨?_, ?_, ?_, ?_, ?_, ?_, ?_⟩
    · intro z hz
      rw [length_vset, length_vset, length_vset]
      rcases List.mem_append.1 hz with hz | hz
      · exact hbnd z (List.mem_append_left _ hz)
      · rcases (by simpa using hz : z = v ∨ z = target ∨ z ∈ p2) with rfl | rfl | hz
        · exact hv
        · exact htlen
        · exact hbnd z (List.mem_append_right _ (by simp [hz]))
    · rw [List.nodup_append]
      refine ⟨hnda.1, ?_, ?_⟩
      · rw [List.nodup_cons]
        exact ⟨hvmemnew, hnda.2.1⟩
      · intro z hz hz2
        rcases (by simpa using hz2 : z = v ∨ z = target ∨ z ∈ p2) with rfl | rfl | hz2
        · exact hvmemp1 hz
        · exact hnda.2.2 hz (by simp)
        · exact hnda.2.2 hz (by simp [hz2])
    · rw [linkedB_append _ (p0 :: p1') (v :: target :: p2) pl v hplq rfl]
      refine ⟨?_, ?_, ?_, ?_⟩
      · have hn : ∀ z ∈ (p0 :: p1').dropLast,
            (vget (vset (vset (vset a v { vget a v with
              prev := some pl
              next := some target }) pl { vget a pl with next := some v }) target
              { vget (vset (vset a v { vget a v with
                  prev := some pl
                  next := some target }) pl { vget a pl with next := some v })
                    target with prev := some v }) z).next = (vget a z).next := by
          intro z hz
          have hzmem : z ∈ p0 :: p1' := List.dropLast_subset _ hz
          have hzt : z ≠ target := fun hc =>
            hnda.2.2 hzmem (hc ▸ (by simp : target ∈ target :: p2))
          have hzpl : z ≠ pl := fun hc => hplnd (hc ▸ hz)
          have hzv : z ≠ v := fun hc => hvmemp1 (hc ▸ hzmem)
          rw [hget3 z hzt hzpl hzv]
        have hp : ∀ z ∈ (p0 :: p1').tail,
            (vget (vset (vset (vset a v { vget a v with
              prev := some pl
              next := some target }) pl { vget a pl with next := some v }) target
              { vget (vset (vset a v { vget a v with
                  prev := some pl
                  next := some target }) pl { vget a pl with next := some v })
                    target with prev := some v }) z).prev = (vget a z).prev := by
          intro z hz
          have hzmem : z ∈ p0 :: p1' := List.mem_of_mem_tail hz
          have hzt : z ≠ target := fun hc =>
            hnda.2.2 hzmem (hc ▸ (by simp : target ∈ target :: p2))
          have hzv : z ≠ v := fun hc => hvmemp1 (hc ▸ hzmem)
          by_cases hzpl : z = pl
          · subst hzpl
            rw [hA3ne z hzt, hA2pl]
          · rw [hget3 z hzt hzpl hzv]
        rw [linkedB_fields a _ (p0 :: p1') hn hp]
        exact linkedB_of_append_left a (p0 :: p1') (target :: p2) hlk
      · show linkedB _ (v :: target :: p2) = true
        rw [linkedB_cons_cons, Bool.and_eq_true]
        constructor
        · simp only [Bool.and_eq_true, beq_iff_eq]
          constructor
          · rw [hA3ne v hvt, hA2ne v hplv.symm , hA1vP]
          · rw [hA3t]
        · have hn : ∀ z ∈ (target :: p2).dropLast,
              (vget (vset (vset (vset a v { vget a v with
                prev := some pl
                next := some target }) pl { vget a pl with next := some v }) target
                { vget (vset (vset a v { vget a v with
                    prev := some pl
                    next := some target }) pl { vget a pl with next := some v })
                      target with prev := some v }) z).next = (vget a z).next := by
            intro z hz
            have hzmem : z ∈ target :: p2 := List.dropLast_subset _ hz
            have hzv : z ≠ v := fun hc => hvmemnew (hc ▸ hzmem)
            have hzpl : z ≠ pl := fun hc =>
              hnda.2.2 (hc ▸ hplmem) hzmem
            by_cases hzt : z = target
            · subst hzt
              rw [hA3t, hA2ne z hzpl, hA1neP z hzv]
            · rw [hget3 z hzt hzpl hzv]
          have hp : ∀ z ∈ (target :: p2).tail,
              (vget (vset (vset (vset a v { vget a v with
                prev := some pl
                next := some target }) pl { vget a pl with next := some v }) target
                { vget (vset (vset a v { vget a v with
                    prev := some pl
                    next := some target }) pl { vget a pl with next := some v })
                      target with prev := some v }) z).prev = (vget a z).prev := by
            intro z hz
            have hzmem : z ∈ target :: p2 := List.mem_of_mem_tail hz
            have hzv : z ≠ v := fun hc => hvmemnew (hc ▸ hzmem)
            have hzpl : z ≠ pl := fun hc =>
              hnda.2.2 (hc ▸ hplmem) hzmem
            have hzt : z ≠ target := fun hc => hndc.1 (hc ▸ hz)
            rw [hget3 z hzt hzpl hzv]
          rw [linkedB_fields a _ (target :: p2) hn hp]
          exact linkedB_of_append_right a (p0 :: p1') (target :: p2) hlk
      · rw [hA3ne pl hplt, hA2pl]
      · rw [hA3ne v hvt, hA2ne v hplv.symm, hA1vP]
    · show l.head = _
      rw [hhd, head?_append_of_ne_nil (p0 :: p1') _ hpne,
        head?_append_of_ne_nil (p0 :: p1') _ hpne]
    · show l.tail = _
      rw [htl, List.getLast?_append_of_ne_nil (p0 :: p1') (by simp : (target :: p2) ≠ []),
        List.getLast?_append_of_ne_nil (p0 :: p1')
          (by simp : (v :: target :: p2) ≠ [])]
      rfl
    · intro z hz
      rw [head?_append_of_ne_nil (p0 :: p1') _ hpne] at hz
      obtain rfl : p0 = z := by simpa using hz
      have hz0 : p0 ∈ (p0 :: p1' ++ target :: p2).head? := by
        rw [head?_append_of_ne_nil (p0 :: p1') _ hpne]
        rfl
      have hzt : p0 ≠ target := fun hc =>
        hnda.2.2 (by simp : p0 ∈ p0 :: p1') (hc ▸ (by simp : target ∈ target :: p2))
      have hzv : p0 ≠ v := fun hc => hvmemp1 (hc ▸ (by simp : p0 ∈ p0 :: p1'))
      by_cases hzpl : p0 = pl
      · rw [show p0 = pl from hzpl, hA3ne pl hplt, hA2pl]
        show (vget a pl).prev = none
        rw [← hzpl]
        exact hhp p0 hz0
      · rw [hget3 p0 hzt hzpl hzv]
        exact hhp p0 hz0
    · intro z hz
      rw [List.getLast?_append_of_ne_nil (p0 :: p1')
        (by simp : (v :: target :: p2) ≠ [])] at hz
      have hz2 : z ∈ (target :: p2).getLast? := by simpa using hz
      have hzmem : z ∈ target :: p2 := List.mem_of_mem_getLast? hz2
      have hzlast : z ∈ (p0 :: p1' ++ target :: p2).getLast? := by
        rw [List.getLast?_append_of_ne_nil (p0 :: p1') (by simp : (target :: p2) ≠ [])]
        exact hz2
      have hzv : z ≠ v := fun hc => hvmemnew (hc ▸ hzmem)
      have hzpl : z ≠ pl := fun hc => hnda.2.2 (hc ▸ hplmem) hzmem
      by_cases hzt : z = target
      · subst hzt
        rw [hA3t, hA2ne z hzpl, hA1neP z hzv]
        show (vget a z).next = none
        exact hlp z hzlast
      · rw [hget3 z hzt hzpl hzv]
        exact hlp z hzlast

/-- C6: each doubly-linked vertex-list operation preserves well-formedness of
the enumerated list — `append` (of a fresh node, including onto an empty
list), `appendChain` (of a disjoint well-formed chain), `insertBefore` (of a
fresh node, including before the head), `remove` (of any member, including
the head or tail of a one- or many-element list), and `removeSubList` (of any
contiguous run, including one touching either end or covering the whole
list). Well-formedness (`listWF`) states: in-bounds distinct nodes, mutually
inverse consecutive `prev`/`next` links, correct head/tail pointers, and no
link leaving the list at either end. The boundary cases are instances of the
quantifiers: an empty `xs` for append/appendChain, empty `p`/`s` for the
removals, and an empty `p1` for insertion before the head. -/
theorem vertexList_ops_preserve_wf (a : List VertexNode) (l : VertexList) :
    (∀ xs v, listWF a l xs → v < a.length → v ∉ xs →
      listWF (vertexListAppend a l v).1 (vertexListAppend a l v).2 (xs ++ [v])) ∧
    (∀ xs ys v fuel, listWF a l xs → chainWF a ys → ys.head? = some v →
      (∀ x ∈ xs, x ∉ ys) → ys.length ≤ fuel →
      listWF (vertexListAppendChain a l v fuel).1
        (vertexListAppendChain a l v fuel).2 (xs ++ ys)) ∧
    (∀ p1 p2 target v, listWF a l (p1 ++ target :: p2) → v < a.length →
      v ∉ p1 ++ target :: p2 →
      listWF (vertexListInsertBefore a l target v).1
        (vertexListInsertBefore a l target v).2 (p1 ++ v :: target :: p2)) ∧
    (∀ p s v, listWF a l (p ++ [v] ++ s) →
      listWF (vertexListRemove a l v).1 (vertexListRemove a l v).2 (p ++ s)) ∧
    (∀ p ys s u w, listWF a l (p ++ ys ++ s) → ys.head? = some u →
      ys.getLast? = some w →
      listWF (vertexListRemoveSubList a l u w).1
        (vertexListRemoveSubList a l u w).2 (p ++ s)) :=
  ⟨fun xs v h1 h2 h3 => vertexListAppend_WF a l xs v h1 h2 h3,
    fun xs ys v fuel h1 h2 h3 h4 h5 =>
      vertexListAppendChain_WF a l xs ys v fuel h1 h2 h3 h4 h5,
    fun p1 p2 target v h1 h2 h3 =>
      vertexListInsertBefore_WF a l p1 p2 target v h1 h2 h3,
    fun p s v h1 => vertexListRemove_WF a l p s v h1,
    fun p ys s u w h1 h2 h3 => vertexListRemoveSubList_WF a l p ys s u w h1 h2 h3⟩

/-- Witness for `vertexList_ops_preserve_wf` on a three-node arena holding the
list `[0, 1]` and the free node `2`: append `2`, append the chain `[2]`,
insert `2` before the head `0`, remove the head `0`, and excise the whole run
`[0, 1]`. -/
theorem vertexList_ops_preserve_wf_witness :
    (listWF wfExampleArena wfExampleList [0, 1] ∧
      (2 : Nat) < wfExampleArena.length ∧ (2 : Nat) ∉ ([0, 1] : List Nat) ∧
      chainWF wfExampleArena [2] ∧ ([2] : List Nat).head? = some 2 ∧
      (∀ x ∈ ([0, 1] : List Nat), x ∉ ([2] : List Nat)) ∧
      ([2] : List Nat).length ≤ 1 ∧
      listWF wfExampleArena wfExampleList ([] ++ 0 :: [1]) ∧
      (2 : Nat) ∉ ([] ++ 0 :: [1] : List Nat) ∧
      listWF wfExampleArena wfExampleList ([] ++ [0] ++ [1]) ∧
      listWF wfExampleArena wfExampleList ([] ++ [0, 1] ++ []) ∧
      ([0, 1] : List Nat).head? = some 0 ∧ ([0, 1] : List Nat).getLast? = some 1) ∧
    (listWF (vertexListAppend wfExampleArena wfExampleList 2).1
        (vertexListAppend wfExampleArena wfExampleList 2).2 ([0, 1] ++ [2]) ∧
      listWF (vertexListAppendChain wfExampleArena wfExampleList 2 1).1
        (vertexListAppendChain wfExampleArena wfExampleList 2 1).2 ([0, 1] ++ [2]) ∧
      listWF (vertexListInsertBefore wfExampleArena wfExampleList 0 2).1
        (vertexListInsertBefore wfExampleArena wfExampleList 0 2).2
        ([] ++ 2 :: 0 :: [1]) ∧
      listWF (vertexListRemove wfExampleArena wfExampleList 0).1
        (vertexListRemove wfExampleArena wfExampleList 0).2 ([] ++ [1]) ∧
      listWF (vertexListRemoveSubList wfExampleArena wfExampleList 0 1).1
        (vertexListRemoveSubList wfExampleArena wfExampleList 0 1).2 ([] ++ [])) :=
  ⟨⟨by decide, by decide, by decide, by decide, by decide, by decide, by decide,
      by decide, by decide, by decide, by decide, by decide, by decide⟩,
    (vertexList_ops_preserve_wf wfExampleArena wfExampleList).1 [0, 1] 2
      (by decide) (by decide) (by decide),
    (vertexList_ops_preserve_wf wfExampleArena wfExampleList).2.1 [0, 1] [2] 2 1
      (by decide) (by decide) (by decide) (by decide) (by decide),
    (vertexList_ops_preserve_wf wfExampleArena wfExampleList).2.2.1 [] [1] 0 2
      (by decide) (by decide) (by decide),
    (vertexList_ops_preserve_wf wfExampleArena wfExampleList).2.2.2.1 [] [1] 0
      (by decide),
    (vertexList_ops_preserve_wf wfExampleArena wfExampleList).2.2.2.2 [] [0, 1] [] 0 1
      (by decide) (by decide) (by decide)⟩

end Mathcat
